import Mathlib

/-!
RMagick, `ext/RMagick/rmutil.c`: enum validation and the error bridge.

A shallow embedding of the utility layer of RMagick.  C integers and enum
values are `Int`, C strings are `String` (a `NULL` pointer is `none`), and a
function that can leave through `rb_raise` returns `Except RubyException _`
or reports an `Outcome`.

The constants of the wrapped image library (`UndefinedAlign`,
`WarningException`, ...) are declared in the library's headers, not in
`rmutil.c`; they enter as parameters, one record of constants per
enumeration.  The capability flags tested by `#if` enter through `Build`.
-/

namespace RMagick

/-! ## Host exceptions and formatting -/

/-- The exceptions this file raises in the host interpreter: `rb_raise` with
`rb_eArgError` or `rb_eTypeError` and a formatted message, and `raise_error`,
which builds an `ImageMagickError` from a message and an optional location. -/
inductive RubyException where
  | rb_eArgError (mesg : String)
  | rb_eTypeError (mesg : String)
  | ImageMagickError (mesg : String) (extra : Option String)
  deriving DecidableEq, Repr

/-- The `%d` conversion of `printf`: decimal digits, with a leading `-` for a
negative value. -/
def fmt_d (i : Int) : String := toString i

/-- The `%lu` conversion of `printf`. -/
def fmt_lu (n : Nat) : String := toString n

/-- `Contains s t`: the text `t` occurs in `s` as a run of consecutive
characters. -/
def Contains (s t : String) : Prop := t.data <:+: s.data

/-! ## Build configuration -/

/-- The capability flags and macros `rmutil.c` is compiled against.  Each
`HAVE_*` field is true when the preprocessor symbol of that name is set.
`GET_MSG` is the message-lookup macro of `rmagick.h`, applied to a severity and
a text. -/
structure Build where
  HAVE_NOCOMPLIANCE : Bool
  HAVE_COPYCYANCOMPOSITEOP : Bool
  HAVE_HSLCOLORSPACE : Bool
  HAVE_HWBCOLORSPACE : Bool
  HAVE_SNPRINTF : Bool
  HAVE_EXCEPTIONINFO_MODULE : Bool
  HAVE_REMOVEFIRSTIMAGEFROMLIST : Bool
  HAVE_APPENDIMAGETOLIST : Bool
  GET_MSG : Int → String → String

/-! ## Enumerations of the wrapped library

One record per enumeration; every field is the integer value the library's
header gives to the constant of that name. -/

structure AlignTypes where
  UndefinedAlign : Int
  LeftAlign : Int
  CenterAlign : Int
  RightAlign : Int

structure ChannelTypes where
  UndefinedChannel : Int
  RedChannel : Int
  CyanChannel : Int
  GreenChannel : Int
  MagentaChannel : Int
  BlueChannel : Int
  YellowChannel : Int
  OpacityChannel : Int
  BlackChannel : Int
  MatteChannel : Int

structure ClassTypes where
  UndefinedClass : Int
  DirectClass : Int
  PseudoClass : Int

structure ComplianceTypes where
  NoCompliance : Int
  SVGCompliance : Int
  X11Compliance : Int
  XPMCompliance : Int
  AllCompliance : Int

structure CompositeOperators where
  UndefinedCompositeOp : Int
  OverCompositeOp : Int
  InCompositeOp : Int
  OutCompositeOp : Int
  AtopCompositeOp : Int
  XorCompositeOp : Int
  PlusCompositeOp : Int
  MinusCompositeOp : Int
  AddCompositeOp : Int
  SubtractCompositeOp : Int
  DifferenceCompositeOp : Int
  MultiplyCompositeOp : Int
  BumpmapCompositeOp : Int
  CopyCompositeOp : Int
  CopyRedCompositeOp : Int
  CopyGreenCompositeOp : Int
  CopyBlueCompositeOp : Int
  CopyOpacityCompositeOp : Int
  ClearCompositeOp : Int
  DissolveCompositeOp : Int
  DisplaceCompositeOp : Int
  ModulateCompositeOp : Int
  ThresholdCompositeOp : Int
  NoCompositeOp : Int
  DarkenCompositeOp : Int
  LightenCompositeOp : Int
  HueCompositeOp : Int
  SaturateCompositeOp : Int
  ColorizeCompositeOp : Int
  LuminizeCompositeOp : Int
  ScreenCompositeOp : Int
  OverlayCompositeOp : Int
  CopyCyanCompositeOp : Int
  CopyMagentaCompositeOp : Int
  CopyYellowCompositeOp : Int
  CopyBlackCompositeOp : Int

structure CompressionTypes where
  UndefinedCompression : Int
  NoCompression : Int
  BZipCompression : Int
  FaxCompression : Int
  Group4Compression : Int
  JPEGCompression : Int
  LosslessJPEGCompression : Int
  LZWCompression : Int
  RunlengthEncodedCompression : Int
  ZipCompression : Int

structure DecorationTypes where
  NoDecoration : Int
  UnderlineDecoration : Int
  OverlineDecoration : Int
  LineThroughDecoration : Int

structure DisposeTypes where
  UndefinedDispose : Int
  NoneDispose : Int
  BackgroundDispose : Int
  PreviousDispose : Int

structure FilterTypes where
  UndefinedFilter : Int
  PointFilter : Int
  BoxFilter : Int
  TriangleFilter : Int
  HermiteFilter : Int
  HanningFilter : Int
  HammingFilter : Int
  BlackmanFilter : Int
  GaussianFilter : Int
  QuadraticFilter : Int
  CubicFilter : Int
  CatromFilter : Int
  MitchellFilter : Int
  LanczosFilter : Int
  BesselFilter : Int
  SincFilter : Int

structure GravityTypes where
  ForgetGravity : Int
  NorthWestGravity : Int
  NorthGravity : Int
  NorthEastGravity : Int
  WestGravity : Int
  CenterGravity : Int
  EastGravity : Int
  SouthWestGravity : Int
  SouthGravity : Int
  SouthEastGravity : Int
  StaticGravity : Int

structure ImageTypes where
  UndefinedType : Int
  BilevelType : Int
  GrayscaleType : Int
  GrayscaleMatteType : Int
  PaletteType : Int
  PaletteMatteType : Int
  TrueColorType : Int
  TrueColorMatteType : Int
  ColorSeparationType : Int
  ColorSeparationMatteType : Int
  OptimizeType : Int

structure InterlaceTypes where
  UndefinedInterlace : Int
  NoInterlace : Int
  LineInterlace : Int
  PlaneInterlace : Int
  PartitionInterlace : Int

structure ColorspaceTypes where
  UndefinedColorspace : Int
  RGBColorspace : Int
  GRAYColorspace : Int
  TransparentColorspace : Int
  OHTAColorspace : Int
  XYZColorspace : Int
  YCbCrColorspace : Int
  YCCColorspace : Int
  YIQColorspace : Int
  YPbPrColorspace : Int
  YUVColorspace : Int
  CMYKColorspace : Int
  sRGBColorspace : Int
  HSLColorspace : Int
  HWBColorspace : Int

structure NoiseTypes where
  UniformNoise : Int
  GaussianNoise : Int
  MultiplicativeGaussianNoise : Int
  ImpulseNoise : Int
  LaplacianNoise : Int
  PoissonNoise : Int

structure RenderingIntents where
  UndefinedIntent : Int
  SaturationIntent : Int
  PerceptualIntent : Int
  AbsoluteIntent : Int
  RelativeIntent : Int

structure ResolutionTypes where
  UndefinedResolution : Int
  PixelsPerInchResolution : Int
  PixelsPerCentimeterResolution : Int

structure PaintMethods where
  PointMethod : Int
  ReplaceMethod : Int
  FloodfillMethod : Int
  FillToBorderMethod : Int
  ResetMethod : Int

structure StretchTypes where
  NormalStretch : Int
  UltraCondensedStretch : Int
  ExtraCondensedStretch : Int
  CondensedStretch : Int
  SemiCondensedStretch : Int
  SemiExpandedStretch : Int
  ExpandedStretch : Int
  ExtraExpandedStretch : Int
  UltraExpandedStretch : Int
  AnyStretch : Int

structure StyleTypes where
  NormalStyle : Int
  ItalicStyle : Int
  ObliqueStyle : Int
  AnyStyle : Int

/-- The enumerations of the wrapped library that the `Num_to_*` validators
consult, gathered in one record. -/
structure MagickEnums where
  align : AlignTypes
  channel : ChannelTypes
  cls : ClassTypes
  compliance : ComplianceTypes
  composite : CompositeOperators
  compression : CompressionTypes
  decoration : DecorationTypes
  dispose : DisposeTypes
  filter : FilterTypes
  gravity : GravityTypes
  image : ImageTypes
  interlace : InterlaceTypes
  colorspace : ColorspaceTypes
  noise : NoiseTypes
  rendering : RenderingIntents
  resolution : ResolutionTypes
  paint : PaintMethods
  stretch : StretchTypes
  style : StyleTypes

/-! ## Enum validators (`Num_to_*`)

Every validator has the same shape: the argument is converted with `NUM2INT`,
searched for in a static table, and returned unchanged when found; otherwise
`rb_raise(rb_eArgError, ...)` leaves the function.  The parameter of each Lean
function is the `int` that `NUM2INT` delivers. -/

/-- The search loop of every validator,
`for (x = 0; x < N; x++) { if (v == tbl[x]) break; }`,
entered with the counter at `x` and with `tbl` holding the table entries from
index `x` on.  The result is the value of the counter when the loop is left:
the index of the first match, or `N` when the loop ran to its end. -/
def scan (v : Int) : List Int → Nat → Nat
  | [], x => x
  | t :: ts, x => if v = t then x else scan v ts (x + 1)

/-- The static table `at` of `Num_to_AlignType`. -/
def AlignType_at (K : AlignTypes) : List Int :=
  [K.UndefinedAlign, K.LeftAlign, K.CenterAlign, K.RightAlign]

def Num_to_AlignType (K : AlignTypes) (type : Int) : Except RubyException Int :=
  let atype := type
  let x := scan atype (AlignType_at K) 0
  if x = (AlignType_at K).length then
    .error (.rb_eArgError ("invalid AlignType constant (" ++ fmt_d atype ++ ")"))
  else
    .ok atype

/-- The static table `ct` of `Num_to_ChannelType`. -/
def ChannelType_ct (K : ChannelTypes) : List Int :=
  [K.UndefinedChannel, K.RedChannel, K.CyanChannel, K.GreenChannel, K.MagentaChannel,
   K.BlueChannel, K.YellowChannel, K.OpacityChannel, K.BlackChannel, K.MatteChannel]

def Num_to_ChannelType (K : ChannelTypes) (type : Int) : Except RubyException Int :=
  let ctype := type
  let x := scan ctype (ChannelType_ct K) 0
  if x = (ChannelType_ct K).length then
    .error (.rb_eArgError ("invalid ChannelType constant (" ++ fmt_d ctype ++ ")"))
  else
    .ok ctype

/-- The static table `ct` of `Num_to_ClassType`.  The function re-defines the
macro `CHANNEL_N` as `sizeof(ct)/sizeof(ct[0])`; expanded inside this function
it counts this table. -/
def ClassType_ct (K : ClassTypes) : List Int :=
  [K.UndefinedClass, K.DirectClass, K.PseudoClass]

def Num_to_ClassType (K : ClassTypes) (type : Int) : Except RubyException Int :=
  let ctype := type
  let x := scan ctype (ClassType_ct K) 0
  if x = (ClassType_ct K).length then
    .error (.rb_eArgError ("invalid ClassType constant (" ++ fmt_d ctype ++ ")"))
  else
    .ok ctype

/-- The static table `ct` of `Num_to_ComplianceType`; `NoCompliance` is an
entry only under `#if HAVE_NOCOMPLIANCE`. -/
def ComplianceType_ct (B : Build) (K : ComplianceTypes) : List Int :=
  (if B.HAVE_NOCOMPLIANCE then [K.NoCompliance] else []) ++
  [K.SVGCompliance, K.X11Compliance, K.XPMCompliance, K.AllCompliance]

def Num_to_ComplianceType (B : Build) (K : ComplianceTypes) (type : Int) :
    Except RubyException Int :=
  let ctype := type
  let x := scan ctype (ComplianceType_ct B K) 0
  if x = (ComplianceType_ct B K).length then
    .error (.rb_eArgError ("invalid ComplianceType constant (" ++ fmt_d ctype ++ ")"))
  else
    .ok ctype

/-- The static table `cm` of `Num_to_CompositeOperator`; the four `Copy*`
channel operators at its end are entries only under
`#if defined(HAVE_COPYCYANCOMPOSITEOP)`. -/
def CompositeOperator_cm (B : Build) (K : CompositeOperators) : List Int :=
  [K.UndefinedCompositeOp, K.OverCompositeOp, K.InCompositeOp, K.OutCompositeOp,
   K.AtopCompositeOp, K.XorCompositeOp, K.PlusCompositeOp, K.MinusCompositeOp,
   K.AddCompositeOp, K.SubtractCompositeOp, K.DifferenceCompositeOp,
   K.MultiplyCompositeOp, K.BumpmapCompositeOp, K.CopyCompositeOp,
   K.CopyRedCompositeOp, K.CopyGreenCompositeOp, K.CopyBlueCompositeOp,
   K.CopyOpacityCompositeOp, K.ClearCompositeOp, K.DissolveCompositeOp,
   K.DisplaceCompositeOp, K.ModulateCompositeOp, K.ThresholdCompositeOp,
   K.NoCompositeOp, K.DarkenCompositeOp, K.LightenCompositeOp, K.HueCompositeOp,
   K.SaturateCompositeOp, K.ColorizeCompositeOp, K.LuminizeCompositeOp,
   K.ScreenCompositeOp, K.OverlayCompositeOp] ++
  (if B.HAVE_COPYCYANCOMPOSITEOP then
    [K.CopyCyanCompositeOp, K.CopyMagentaCompositeOp, K.CopyYellowCompositeOp,
     K.CopyBlackCompositeOp]
   else [])

def Num_to_CompositeOperator (B : Build) (K : CompositeOperators) (type : Int) :
    Except RubyException Int :=
  let cop := type
  let x := scan cop (CompositeOperator_cm B K) 0
  if x = (CompositeOperator_cm B K).length then
    .error (.rb_eArgError ("invalid CompositeOperator constant (" ++ fmt_d cop ++ ")"))
  else
    .ok cop

/-- The static table `cm` of `Num_to_CompressionType`. -/
def CompressionType_cm (K : CompressionTypes) : List Int :=
  [K.UndefinedCompression, K.NoCompression, K.BZipCompression, K.FaxCompression,
   K.Group4Compression, K.JPEGCompression, K.LosslessJPEGCompression,
   K.LZWCompression, K.RunlengthEncodedCompression, K.ZipCompression]

def Num_to_CompressionType (K : CompressionTypes) (type : Int) : Except RubyException Int :=
  let ctype := type
  let x := scan ctype (CompressionType_cm K) 0
  if x = (CompressionType_cm K).length then
    .error (.rb_eArgError ("invalid CompressionType constant (" ++ fmt_d ctype ++ ")"))
  else
    .ok ctype

/-- The static table `dec` of `Num_to_DecorationType`. -/
def DecorationType_dec (K : DecorationTypes) : List Int :=
  [K.NoDecoration, K.UnderlineDecoration, K.OverlineDecoration, K.LineThroughDecoration]

def Num_to_DecorationType (K : DecorationTypes) (type : Int) : Except RubyException Int :=
  let decoration := type
  let x := scan decoration (DecorationType_dec K) 0
  if x = (DecorationType_dec K).length then
    .error (.rb_eArgError ("invalid DecorationType constant (" ++ fmt_d decoration ++ ")"))
  else
    .ok decoration

/-- The static table `dt` of `Num_to_DisposeType`. -/
def DisposeType_dt (K : DisposeTypes) : List Int :=
  [K.UndefinedDispose, K.NoneDispose, K.BackgroundDispose, K.PreviousDispose]

/-- `Num_to_DisposeType`; the function is compiled only under
`#if HAVE_DISPOSETYPE`. -/
def Num_to_DisposeType (K : DisposeTypes) (type : Int) : Except RubyException Int :=
  let dtype := type
  let x := scan dtype (DisposeType_dt K) 0
  if x = (DisposeType_dt K).length then
    .error (.rb_eArgError ("invalid DisposeType constant (" ++ fmt_d dtype ++ ")"))
  else
    .ok dtype

/-- The static table `ft` of `Num_to_FilterType`. -/
def FilterType_ft (K : FilterTypes) : List Int :=
  [K.UndefinedFilter, K.PointFilter, K.BoxFilter, K.TriangleFilter, K.HermiteFilter,
   K.HanningFilter, K.HammingFilter, K.BlackmanFilter, K.GaussianFilter,
   K.QuadraticFilter, K.CubicFilter, K.CatromFilter, K.MitchellFilter,
   K.LanczosFilter, K.BesselFilter, K.SincFilter]

def Num_to_FilterType (K : FilterTypes) (type : Int) : Except RubyException Int :=
  let ftype := type
  let x := scan ftype (FilterType_ft K) 0
  if x = (FilterType_ft K).length then
    .error (.rb_eArgError ("invalid FilterType constant (" ++ fmt_d ftype ++ ")"))
  else
    .ok ftype

/-- The static table `gtype` of `Num_to_GravityType`. -/
def GravityType_gtype (K : GravityTypes) : List Int :=
  [K.ForgetGravity, K.NorthWestGravity, K.NorthGravity, K.NorthEastGravity,
   K.WestGravity, K.CenterGravity, K.EastGravity, K.SouthWestGravity,
   K.SouthGravity, K.SouthEastGravity, K.StaticGravity]

def Num_to_GravityType (K : GravityTypes) (type : Int) : Except RubyException Int :=
  let grav := type
  let x := scan grav (GravityType_gtype K) 0
  if x = (GravityType_gtype K).length then
    .error (.rb_eArgError ("invalid GravityType (" ++ fmt_d grav ++ ")"))
  else
    .ok grav

/-- The static table `imgtype` of `Num_to_ImageType`. -/
def ImageType_imgtype (K : ImageTypes) : List Int :=
  [K.UndefinedType, K.BilevelType, K.GrayscaleType, K.GrayscaleMatteType,
   K.PaletteType, K.PaletteMatteType, K.TrueColorType, K.TrueColorMatteType,
   K.ColorSeparationType, K.ColorSeparationMatteType, K.OptimizeType]

def Num_to_ImageType (K : ImageTypes) (type : Int) : Except RubyException Int :=
  let it := type
  let x := scan it (ImageType_imgtype K) 0
  if x = (ImageType_imgtype K).length then
    .error (.rb_eArgError ("invalid ImageType constant (" ++ fmt_d it ++ ")"))
  else
    .ok it

/-- The static table `it` of `Num_to_InterlaceType`. -/
def InterlaceType_it (K : InterlaceTypes) : List Int :=
  [K.UndefinedInterlace, K.NoInterlace, K.LineInterlace, K.PlaneInterlace,
   K.PartitionInterlace]

def Num_to_InterlaceType (K : InterlaceTypes) (type : Int) : Except RubyException Int :=
  let itype := type
  let x := scan itype (InterlaceType_it K) 0
  if x = (InterlaceType_it K).length then
    .error (.rb_eArgError ("invalid InterlaceType constant (" ++ fmt_d itype ++ ")"))
  else
    .ok itype

/-- The static table `cs` of `Num_to_ColorspaceType`; `HSLColorspace` and
`HWBColorspace` are entries only under `#if defined(HAVE_HSLCOLORSPACE)` and
`#if defined(HAVE_HWBCOLORSPACE)`. -/
def ColorspaceType_cs (B : Build) (K : ColorspaceTypes) : List Int :=
  [K.UndefinedColorspace, K.RGBColorspace, K.GRAYColorspace, K.TransparentColorspace,
   K.OHTAColorspace, K.XYZColorspace, K.YCbCrColorspace, K.YCCColorspace,
   K.YIQColorspace, K.YPbPrColorspace, K.YUVColorspace, K.CMYKColorspace,
   K.sRGBColorspace] ++
  (if B.HAVE_HSLCOLORSPACE then [K.HSLColorspace] else []) ++
  (if B.HAVE_HWBCOLORSPACE then [K.HWBColorspace] else [])

def Num_to_ColorspaceType (B : Build) (K : ColorspaceTypes) (type : Int) :
    Except RubyException Int :=
  let cstype := type
  let x := scan cstype (ColorspaceType_cs B K) 0
  if x = (ColorspaceType_cs B K).length then
    .error (.rb_eArgError ("invalid ColorspaceType constant (" ++ fmt_d cstype ++ ")"))
  else
    .ok cstype

/-- The static table `types` of `Num_to_NoiseType`. -/
def NoiseType_types (K : NoiseTypes) : List Int :=
  [K.UniformNoise, K.GaussianNoise, K.MultiplicativeGaussianNoise, K.ImpulseNoise,
   K.LaplacianNoise, K.PoissonNoise]

def Num_to_NoiseType (K : NoiseTypes) (noise : Int) : Except RubyException Int :=
  let n := noise
  let x := scan n (NoiseType_types K) 0
  if x = (NoiseType_types K).length then
    .error (.rb_eArgError ("invalid NoiseType constant (" ++ fmt_d n ++ ")"))
  else
    .ok n

/-- The static table `rs` of `Num_to_RenderingIntent`. -/
def RenderingIntent_rs (K : RenderingIntents) : List Int :=
  [K.UndefinedIntent, K.SaturationIntent, K.PerceptualIntent, K.AbsoluteIntent,
   K.RelativeIntent]

def Num_to_RenderingIntent (K : RenderingIntents) (type : Int) : Except RubyException Int :=
  let rtype := type
  let x := scan rtype (RenderingIntent_rs K) 0
  if x = (RenderingIntent_rs K).length then
    .error (.rb_eArgError ("invalid RenderingIntent constant (" ++ fmt_d rtype ++ ")"))
  else
    .ok rtype

/-- The static table `rs` of `Num_to_ResolutionType`. -/
def ResolutionType_rs (K : ResolutionTypes) : List Int :=
  [K.UndefinedResolution, K.PixelsPerInchResolution, K.PixelsPerCentimeterResolution]

def Num_to_ResolutionType (K : ResolutionTypes) (type : Int) : Except RubyException Int :=
  let rtype := type
  let x := scan rtype (ResolutionType_rs K) 0
  if x = (ResolutionType_rs K).length then
    .error (.rb_eArgError ("invalid ResolutionType constant (" ++ fmt_d rtype ++ ")"))
  else
    .ok rtype

/-- The static table `meth` of `Num_to_PaintMethod`. -/
def PaintMethod_meth (K : PaintMethods) : List Int :=
  [K.PointMethod, K.ReplaceMethod, K.FloodfillMethod, K.FillToBorderMethod,
   K.ResetMethod]

def Num_to_PaintMethod (K : PaintMethods) (method : Int) : Except RubyException Int :=
  let m := method
  let x := scan m (PaintMethod_meth K) 0
  if x = (PaintMethod_meth K).length then
    .error (.rb_eArgError ("invalid PaintMethod constant (" ++ fmt_d m ++ ")"))
  else
    .ok m

/-- The static table `types` of `Num_to_StretchType`. -/
def StretchType_types (K : StretchTypes) : List Int :=
  [K.NormalStretch, K.UltraCondensedStretch, K.ExtraCondensedStretch,
   K.CondensedStretch, K.SemiCondensedStretch, K.SemiExpandedStretch,
   K.ExpandedStretch, K.ExtraExpandedStretch, K.UltraExpandedStretch, K.AnyStretch]

def Num_to_StretchType (K : StretchTypes) (stretch : Int) : Except RubyException Int :=
  let n := stretch
  let x := scan n (StretchType_types K) 0
  if x = (StretchType_types K).length then
    .error (.rb_eArgError ("invalid StretchType constant (" ++ fmt_d n ++ ")"))
  else
    .ok n

/-- The static table `types` of `Num_to_StyleType`. -/
def StyleType_types (K : StyleTypes) : List Int :=
  [K.NormalStyle, K.ItalicStyle, K.ObliqueStyle, K.AnyStyle]

def Num_to_StyleType (K : StyleTypes) (style : Int) : Except RubyException Int :=
  let n := style
  let x := scan n (StyleType_types K) 0
  if x = (StyleType_types K).length then
    .error (.rb_eArgError ("invalid StyleType constant (" ++ fmt_d n ++ ")"))
  else
    .ok n

/-- The enum domains that have a `Num_to_*` validator. -/
inductive Domain where
  | AlignType | ChannelType | ClassType | ComplianceType | CompositeOperator
  | CompressionType | DecorationType | DisposeType | FilterType | GravityType
  | ImageType | InterlaceType | ColorspaceType | NoiseType | RenderingIntent
  | ResolutionType | PaintMethod | StretchType | StyleType
  deriving DecidableEq, Repr

/-- The name of a domain, as it is spelled in the claims and in the error
messages. -/
def Domain.name : Domain → String
  | .AlignType => "AlignType"
  | .ChannelType => "ChannelType"
  | .ClassType => "ClassType"
  | .ComplianceType => "ComplianceType"
  | .CompositeOperator => "CompositeOperator"
  | .CompressionType => "CompressionType"
  | .DecorationType => "DecorationType"
  | .DisposeType => "DisposeType"
  | .FilterType => "FilterType"
  | .GravityType => "GravityType"
  | .ImageType => "ImageType"
  | .InterlaceType => "InterlaceType"
  | .ColorspaceType => "ColorspaceType"
  | .NoiseType => "NoiseType"
  | .RenderingIntent => "RenderingIntent"
  | .ResolutionType => "ResolutionType"
  | .PaintMethod => "PaintMethod"
  | .StretchType => "StretchType"
  | .StyleType => "StyleType"

/-- The allow-list table of a domain: the static array of its validator. -/
def Domain.table (B : Build) (E : MagickEnums) : Domain → List Int
  | .AlignType => AlignType_at E.align
  | .ChannelType => ChannelType_ct E.channel
  | .ClassType => ClassType_ct E.cls
  | .ComplianceType => ComplianceType_ct B E.compliance
  | .CompositeOperator => CompositeOperator_cm B E.composite
  | .CompressionType => CompressionType_cm E.compression
  | .DecorationType => DecorationType_dec E.decoration
  | .DisposeType => DisposeType_dt E.dispose
  | .FilterType => FilterType_ft E.filter
  | .GravityType => GravityType_gtype E.gravity
  | .ImageType => ImageType_imgtype E.image
  | .InterlaceType => InterlaceType_it E.interlace
  | .ColorspaceType => ColorspaceType_cs B E.colorspace
  | .NoiseType => NoiseType_types E.noise
  | .RenderingIntent => RenderingIntent_rs E.rendering
  | .ResolutionType => ResolutionType_rs E.resolution
  | .PaintMethod => PaintMethod_meth E.paint
  | .StretchType => StretchType_types E.stretch
  | .StyleType => StyleType_types E.style

/-- The validator of a domain: the `Num_to_*` function of that name. -/
def Num_to (B : Build) (E : MagickEnums) : Domain → Int → Except RubyException Int
  | .AlignType => Num_to_AlignType E.align
  | .ChannelType => Num_to_ChannelType E.channel
  | .ClassType => Num_to_ClassType E.cls
  | .ComplianceType => Num_to_ComplianceType B E.compliance
  | .CompositeOperator => Num_to_CompositeOperator B E.composite
  | .CompressionType => Num_to_CompressionType E.compression
  | .DecorationType => Num_to_DecorationType E.decoration
  | .DisposeType => Num_to_DisposeType E.dispose
  | .FilterType => Num_to_FilterType E.filter
  | .GravityType => Num_to_GravityType E.gravity
  | .ImageType => Num_to_ImageType E.image
  | .InterlaceType => Num_to_InterlaceType E.interlace
  | .ColorspaceType => Num_to_ColorspaceType B E.colorspace
  | .NoiseType => Num_to_NoiseType E.noise
  | .RenderingIntent => Num_to_RenderingIntent E.rendering
  | .ResolutionType => Num_to_ResolutionType E.resolution
  | .PaintMethod => Num_to_PaintMethod E.paint
  | .StretchType => Num_to_StretchType E.stretch
  | .StyleType => Num_to_StyleType E.style

/-! ## The error bridge

`handle_error` drains one `ExceptionInfo` record of the wrapped library;
`magick_error_handler` formats the message and either raises or warns. -/

/-- `ExceptionInfo` of the wrapped library: a severity code, the reason and
description texts, and (in a library that has them, `HAVE_EXCEPTIONINFO_MODULE`)
the source location.  A text field that is a `NULL` pointer is `none`. -/
structure ExceptionInfo where
  severity : Int
  reason : Option String
  description : Option String
  module : Option String
  function : Option String
  line : Nat
  deriving DecidableEq, Repr

/-- Address of an `Image` structure. -/
abbrev ImagePtr := Nat

/-- The fields of the library's `Image` that `rmutil.c` touches: the links of
the scene sequence (`NULL` is `none`) and the embedded exception record. -/
structure Image where
  next : Option ImagePtr
  previous : Option ImagePtr
  exception : ExceptionInfo
  deriving DecidableEq, Repr

/-- The images in memory, by address. -/
abbrev Heap := ImagePtr → Image

/-- Assignment to the image at address `p`. -/
def Heap.set (h : Heap) (p : ImagePtr) (i : Image) : Heap :=
  fun q => if q = p then i else h q

/-- What `rmutil.c` uses of the wrapped library without defining it: the two
`ExceptionType` codes it compares with, and the routines `DestroyExceptionInfo`
(acting on a record), `RemoveFirstImageFromList` and `AppendImageToList` (each
acting on the images in memory and on the list pointer it is handed, whose new
value is the second component of its result; `AppendImageToList` is also handed
the image to append). -/
structure MagickLib where
  UndefinedException : Int
  WarningException : Int
  DestroyExceptionInfo : ExceptionInfo → ExceptionInfo
  RemoveFirstImageFromList : Heap → Option ImagePtr → Heap × Option ImagePtr
  AppendImageToList : Heap → Option ImagePtr → ImagePtr → Heap × Option ImagePtr

/-- What a call leaves visible in the host besides its result: a call of the
library's `DestroyExceptionInfo`, or a call of `rb_warning` with the text it
was given as its only argument. -/
inductive Event where
  | DestroyExceptionInfo
  | rb_warning (msg : String)
  deriving DecidableEq, Repr

/-- How a call ends: it returns to its caller; it leaves through a raised host
exception; it aborts the interpreter through `rb_bug`; or an unbounded
`sprintf` writes past the end of its buffer, after which C defines nothing. -/
inductive Outcome where
  | returned
  | raised (e : RubyException)
  | rb_bug (mesg : String)
  | overrun
  deriving DecidableEq, Repr

/-- `strncpy(dst, src, 250); dst[250] = '\0';` into a 251-byte array: the
first 250 characters of `src`. -/
def strncpy250 (src : String) : String := ⟨src.data.take 250⟩

/-- `snprintf(buf, n, ...)`: keeps at most `n - 1` characters of the formatted
text and terminates it. -/
def snprintf (n : Nat) (text : String) : String := ⟨text.data.take (n - 1)⟩

/-- `sprintf(buf, ...)` into a buffer of `size` bytes: the formatted text when
it and its terminator fit, `none` when the write runs past the buffer. -/
def sprintf (size : Nat) (text : String) : Option String :=
  if text.length < size then some text else none

/-- The formatting idiom of `magick_error_handler` for a buffer `buf` of
`size` bytes: `snprintf(buf, sizeof(buf)-1, ...)` under
`#if defined(HAVE_SNPRINTF)`, else `sprintf(buf, ...)`. -/
def format (B : Build) (size : Nat) (text : String) : Option String :=
  if B.HAVE_SNPRINTF then some (snprintf (size - 1) text) else sprintf size text

/-- The three arguments that fill `%s%s%s` in both branches of
`magick_error_handler`:
`GET_MSG(severity, reason)`, `description ? ": " : ""` and
`description ? GET_MSG(severity, description) : ""`. -/
def reason_description (B : Build) (severity : Int) (reason : String)
    (description : Option String) : String :=
  B.GET_MSG severity reason
    ++ (match description with | some _ => ": " | none => "")
    ++ (match description with | some d => B.GET_MSG severity d | none => "")

/-- `raise_error(msg, loc)`: builds `ImageMagickError.new(mesg, extra)`, with
`extra` being `nil` for a `NULL` `loc`, and raises it; does not return. -/
def raise_error (msg : String) (loc : Option String) : Outcome :=
  .raised (.ImageMagickError msg loc)

/-- `magick_error_handler`.  `description` is a pointer that the function
tests against `NULL`.  The location parameters exist only under
`HAVE_EXCEPTIONINFO_MODULE` and are ignored otherwise.  The result is the
warnings issued and the way the call ends. -/
def magick_error_handler (B : Build) (L : MagickLib) (severity : Int) (reason : String)
    (description : Option String) (module function : String) (line : Nat) :
    List Event × Outcome :=
  if severity > L.WarningException then
    match format B 1024 (reason_description B severity reason description) with
    | none => ([], .overrun)
    | some msg =>
      if B.HAVE_EXCEPTIONINFO_MODULE then
        match format B 100 (function ++ " at " ++ module ++ ":" ++ fmt_lu line) with
        | none => ([], .overrun)
        | some extra => ([], raise_error msg (some extra))
      else
        ([], raise_error msg none)
  else if severity ≠ L.UndefinedException then
    match format B 1024 ("RMagick: " ++ reason_description B severity reason description) with
    | none => ([], .overrun)
    | some msg => ([.rb_warning msg], .returned)
  else
    ([], .returned)

/-- What `handle_error` leaves behind: the record as it stands when the call
ends (by return or by raise), the events in the order they happened, and the
way the call ends. -/
structure Handled where
  ex : ExceptionInfo
  events : List Event
  outcome : Outcome
  deriving DecidableEq, Repr

/-- A local array `char buf[251]` of `handle_error` after
`buf[0] = '\0'; if (src) { strncpy(buf, src, 250); buf[250] = '\0'; }`:
empty for a `NULL` field, else the bounded copy of the field. -/
def copy250 (src : Option String) : String :=
  match src with
  | some s => strncpy250 s
  | none => ""

/-- `handle_error`.  The local arrays `reason`, `desc`, `module` and
`function` start out empty and receive bounded copies of the fields that are
not `NULL`; the arrays themselves, never `NULL`, are what
`magick_error_handler` is handed. -/
def handle_error (B : Build) (L : MagickLib) (ex : ExceptionInfo) : Handled :=
  let sev := ex.severity
  if sev = L.UndefinedException then
    { ex := ex, events := [], outcome := .returned }
  else
    let reason := copy250 ex.reason
    let desc := copy250 ex.description
    let module := copy250 ex.module
    let function := copy250 ex.function
    let line := ex.line
    let ex1 := L.DestroyExceptionInfo ex
    let ex2 := { ex1 with severity := L.UndefinedException }
    let r := magick_error_handler B L sev reason (some desc) module function line
    { ex := ex2, events := .DestroyExceptionInfo :: r.1, outcome := r.2 }

/-- Modelled from the spec: the macro `GET_NEXT_IMAGE` is defined in
`rmagick.h`, not in `rmutil.c`.  The spec has `handle_all_errors` "scan a
sequence of library objects in order", so the macro yields the successor of an
image in its sequence, the `next` link. -/
def GET_NEXT_IMAGE (h : Heap) (image : ImagePtr) : Option ImagePtr := (h image).next

/-- The `while (image)` loop of `unseq`.  Under
`#if HAVE_REMOVEFIRSTIMAGEFROMLIST` the body hands `&image` to the library's
`RemoveFirstImageFromList`; otherwise it clears both links of `image` and moves
to the successor it read before.  `none` when `fuel` iterations do not reach
the end of the loop. -/
def unseq_loop (B : Build) (L : MagickLib) : Nat → Heap → Option ImagePtr → Option Heap
  | _, h, none => some h
  | 0, _, some _ => none
  | fuel + 1, h, some image =>
    if B.HAVE_REMOVEFIRSTIMAGEFROMLIST then
      let r := L.RemoveFirstImageFromList h (some image)
      unseq_loop B L fuel r.1 r.2
    else
      let next := GET_NEXT_IMAGE h image
      let h1 := h.set image { h image with previous := none, next := none }
      unseq_loop B L fuel h1 next

/-- `unseq`: a `NULL` argument ends in `rb_bug`; otherwise the loop runs. -/
def unseq (B : Build) (L : MagickLib) (fuel : Nat) (h : Heap) (image : Option ImagePtr) :
    Option (Heap × Outcome) :=
  match image with
  | none => some (h, .rb_bug "RMagick FATAL: unseq called with NULL argument.")
  | some _ => (unseq_loop B L fuel h image).map (fun h1 => (h1, .returned))

/-- The `while (image)` loop of `handle_all_errors`, entered with the current
values of `badboy` and `image`; the result is the value of `badboy` when the
loop is left, by `break` or at the end of the sequence.  `none` when `fuel`
iterations do not reach the end of the loop. -/
def find_badboy (L : MagickLib) (h : Heap) :
    Nat → Option ImagePtr → Option ImagePtr → Option (Option ImagePtr)
  | _, badboy, none => some badboy
  | 0, _, some _ => none
  | fuel + 1, badboy, some image =>
    if (h image).exception.severity ≠ L.UndefinedException then
      if (h image).exception.severity > L.WarningException then
        some (some image)
      else if badboy = none then
        find_badboy L h fuel (some image) (GET_NEXT_IMAGE h image)
      else
        find_badboy L h fuel badboy (GET_NEXT_IMAGE h image)
    else
      find_badboy L h fuel badboy (GET_NEXT_IMAGE h image)

/-- `handle_all_errors`.  The result is the images in memory when the call
ends, the events in order, and the way the call ends; `none` when one of the
loops does not end within `fuel` iterations. -/
def handle_all_errors (B : Build) (L : MagickLib) (fuel : Nat) (h : Heap)
    (seq : Option ImagePtr) : Option (Heap × List Event × Outcome) :=
  match find_badboy L h fuel none seq with
  | none => none
  | some none => some (h, [], .returned)
  | some (some badboy) =>
    let unlinked :=
      if (h badboy).exception.severity > L.WarningException then unseq B L fuel h seq
      else some (h, .returned)
    match unlinked with
    | none => none
    | some (h1, .returned) =>
      let r := handle_error B L (h1 badboy).exception
      some (h1.set badboy { h1 badboy with exception := r.ex }, r.events, r.outcome)
    | some (h1, o) => some (h1, [], o)

/-! ## Scene sequences

The vocabulary the statements about `handle_all_errors` and `unseq` use. -/

/-- `Linked h prev cur ps`: in memory `h`, the pointer `cur` heads the
doubly-linked list whose images are, in order, `ps`: `cur` points to the first
of them, whose `previous` link is `prev`; every `next` link points to the
following image, every `previous` link to the preceding one, and the last
`next` link is `NULL`.  For the empty list `cur` is `NULL`. -/
def Linked (h : Heap) : Option ImagePtr → Option ImagePtr → List ImagePtr → Prop
  | _, cur, [] => cur = none
  | prev, cur, p :: ps =>
    cur = some p ∧ (h p).previous = prev ∧ Linked h (some p) (h p).next ps

instance Linked.instDecidable (h : Heap) :
    ∀ (prev cur : Option ImagePtr) (ps : List ImagePtr), Decidable (Linked h prev cur ps)
  | _, cur, [] => inferInstanceAs (Decidable (cur = none))
  | prev, cur, p :: ps =>
    have := Linked.instDecidable h (some p) (h p).next ps
    inferInstanceAs
      (Decidable (cur = some p ∧ (h p).previous = prev ∧ Linked h (some p) (h p).next ps))

/-- `IsSeq h seq ps`: `seq` is a scene sequence made of the images `ps`, in
this order; its first image has no predecessor. -/
def IsSeq (h : Heap) (seq : Option ImagePtr) (ps : List ImagePtr) : Prop :=
  Linked h none seq ps

instance (h : Heap) (seq : Option ImagePtr) (ps : List ImagePtr) : Decidable (IsSeq h seq ps) :=
  inferInstanceAs (Decidable (Linked h none seq ps))

/-- The memory `h` with both links of every image of `ps` cleared and nothing
else changed. -/
def clear_links (h : Heap) (ps : List ImagePtr) : Heap :=
  fun q => if q ∈ ps then { h q with previous := none, next := none } else h q

/-- What the library documents for `RemoveFirstImageFromList` when the list
pointer it is handed points to the first image `p` of its list: `p` is
detached (its `next` link and the `previous` link of its successor are
cleared) and the list pointer moves to the successor. -/
def detach_first (h : Heap) (p : ImagePtr) : Heap × Option ImagePtr :=
  match (h p).next with
  | none => (h, none)
  | some n =>
    let h1 := h.set n { h n with previous := none }
    (h1.set p { h1 p with next := none }, some n)

/-- The assumption on the library routine under which a build with
`HAVE_REMOVEFIRSTIMAGEFROMLIST` is analysed: handed a pointer to an image with
no predecessor, `RemoveFirstImageFromList` behaves as documented. -/
def RemovesFirstImage (L : MagickLib) : Prop :=
  ∀ (h : Heap) (p : ImagePtr), (h p).previous = none →
    L.RemoveFirstImageFromList h (some p) = detach_first h p

/-- `rmutil.c` relies on the library's routine only in a build that has it. -/
def LibraryOk (B : Build) (L : MagickLib) : Prop :=
  B.HAVE_REMOVEFIRSTIMAGEFROMLIST = true → RemovesFirstImage L

/-- The two assignments that hang `image` behind `p`: `p->next = image`, then
`image->previous = p`. -/
def append_image (h : Heap) (p image : ImagePtr) : Heap :=
  let h1 := h.set p { h p with next := some image }
  h1.set image { h1 image with previous := some p }

/-- The image a chain of `next` links ends at, followed for at most `fuel`
links. -/
def last_image : Nat → Heap → ImagePtr → ImagePtr
  | 0, _, p => p
  | fuel + 1, h, p =>
    match (h p).next with
    | none => p
    | some n => last_image fuel h n

/-- What is assumed of the library's `AppendImageToList` where the build uses
it.  Handed an empty list it makes the image the list; handed a list whose
`next` links end at `last`, and an image without predecessor, it hangs the
image behind `last` and leaves the list pointer alone. -/
def AppendsImage (L : MagickLib) : Prop :=
  (∀ (h : Heap) (image : ImagePtr), L.AppendImageToList h none image = (h, some image)) ∧
  ∀ (h : Heap) (prev : Option ImagePtr) (head : ImagePtr) (ps : List ImagePtr)
    (last image : ImagePtr),
    Linked h prev (some head) (ps ++ [last]) → (h image).previous = none →
    L.AppendImageToList h (some head) image = (append_image h last image, some head)

/-- The assumption on the library for a given build: `AppendImageToList` is
only called when `HAVE_APPENDIMAGETOLIST` is set. -/
def AppendOk (B : Build) (L : MagickLib) : Prop :=
  B.HAVE_APPENDIMAGETOLIST = true → AppendsImage L

/-! ## Sample data

A build, a library and a few records on which the statements below are
evaluated. -/

/-- A build with every capability flag set and the fallback definition of
`GET_MSG`, which yields its text argument. -/
def sampleBuild : Build where
  HAVE_NOCOMPLIANCE := true
  HAVE_COPYCYANCOMPOSITEOP := true
  HAVE_HSLCOLORSPACE := true
  HAVE_HWBCOLORSPACE := true
  HAVE_SNPRINTF := true
  HAVE_EXCEPTIONINFO_MODULE := true
  HAVE_REMOVEFIRSTIMAGEFROMLIST := true
  HAVE_APPENDIMAGETOLIST := true
  GET_MSG := fun _ text => text

/-- A library with `UndefinedException = 0` and `WarningException = 300`, whose
`DestroyExceptionInfo` frees the two texts of a record, whose
`RemoveFirstImageFromList` detaches the image it is handed, and whose
`AppendImageToList` walks to the end of a list of up to 64 images and hangs
the image there. -/
def sampleLib : MagickLib where
  UndefinedException := 0
  WarningException := 300
  DestroyExceptionInfo := fun ex => { ex with reason := none, description := none }
  RemoveFirstImageFromList := fun h images =>
    match images with
    | none => (h, none)
    | some p => detach_first h p
  AppendImageToList := fun h images image =>
    match images with
    | none => (h, some image)
    | some p => (append_image h (last_image 64 h p) image, some p)

/-- Sample values for the enumerations: consecutive from 0 in the order of
declaration, except for the bit-valued `ComplianceType`. -/
def sampleEnums : MagickEnums where
  align := ⟨0, 1, 2, 3⟩
  channel := ⟨0, 1, 2, 3, 4, 5, 6, 7, 8, 9⟩
  cls := ⟨0, 1, 2⟩
  compliance := ⟨0, 1, 2, 4, 65535⟩
  composite := ⟨0, 1, 2, 3, 4, 5, 6, 7, 8, 9, 10, 11, 12, 13, 14, 15, 16, 17, 18, 19, 20,
    21, 22, 23, 24, 25, 26, 27, 28, 29, 30, 31, 32, 33, 34, 35⟩
  compression := ⟨0, 1, 2, 3, 4, 5, 6, 7, 8, 9⟩
  decoration := ⟨0, 1, 2, 3⟩
  dispose := ⟨0, 1, 2, 3⟩
  filter := ⟨0, 1, 2, 3, 4, 5, 6, 7, 8, 9, 10, 11, 12, 13, 14, 15⟩
  gravity := ⟨0, 1, 2, 3, 4, 5, 6, 7, 8, 9, 10⟩
  image := ⟨0, 1, 2, 3, 4, 5, 6, 7, 8, 9, 10⟩
  interlace := ⟨0, 1, 2, 3, 4⟩
  colorspace := ⟨0, 1, 2, 3, 4, 5, 6, 7, 8, 9, 10, 11, 12, 13, 14⟩
  noise := ⟨0, 1, 2, 3, 4, 5⟩
  rendering := ⟨0, 1, 2, 3, 4⟩
  resolution := ⟨0, 1, 2⟩
  paint := ⟨0, 1, 2, 3, 4⟩
  stretch := ⟨0, 1, 2, 3, 4, 5, 6, 7, 8, 9⟩
  style := ⟨0, 1, 2, 3⟩

/-- A record of the error tier with a short reason and no description. -/
def errorRecord : ExceptionInfo where
  severity := 400
  reason := some "unable to open file"
  description := none
  module := some "blob.c"
  function := some "OpenBlob"
  line := 2480

/-- A record of the error tier with a description. -/
def describedRecord : ExceptionInfo where
  severity := 400
  reason := some "unable to open file"
  description := some "no.gif"
  module := some "blob.c"
  function := some "OpenBlob"
  line := 2480

/-- A record of the error tier whose reason has 251 characters. -/
def longRecord : ExceptionInfo where
  severity := 400
  reason := some ⟨List.replicate 251 'r'⟩
  description := some "no.gif"
  module := some "blob.c"
  function := some "OpenBlob"
  line := 2480

/-- A record of the warning tier. -/
def warningRecord : ExceptionInfo where
  severity := 300
  reason := some "memory allocation failed"
  description := some "cache"
  module := some "cache.c"
  function := some "OpenCache"
  line := 17

/-- A record that carries no fault. -/
def cleanRecord : ExceptionInfo where
  severity := 0
  reason := none
  description := none
  module := none
  function := none
  line := 0

/-- Five images 1 to 5 in sequence: image 2 carries a warning, images 3 and 4
an error. -/
def errorHeap : Heap := fun q =>
  match q with
  | 1 => { next := some 2, previous := none, exception := cleanRecord }
  | 2 => { next := some 3, previous := some 1, exception := warningRecord }
  | 3 => { next := some 4, previous := some 2, exception := describedRecord }
  | 4 => { next := some 5, previous := some 3, exception := errorRecord }
  | 5 => { next := none, previous := some 4, exception := cleanRecord }
  | _ => { next := none, previous := none, exception := cleanRecord }

/-- Three images 1 to 3 in sequence: images 2 and 3 carry a warning. -/
def warningHeap : Heap := fun q =>
  match q with
  | 1 => { next := some 2, previous := none, exception := cleanRecord }
  | 2 => { next := some 3, previous := some 1, exception := warningRecord }
  | 3 => { next := none, previous := some 2, exception := warningRecord }
  | _ => { next := none, previous := none, exception := cleanRecord }

/-- Two images 1 and 2 in sequence, neither with a fault. -/
def cleanHeap : Heap := fun q =>
  match q with
  | 1 => { next := some 2, previous := none, exception := cleanRecord }
  | 2 => { next := none, previous := some 1, exception := cleanRecord }
  | _ => { next := none, previous := none, exception := cleanRecord }

/-- The message that "reason alone, or reason, colon, description" names for a
record: the reading of the claim that is compared with what `handle_error`
raises. -/
def claimed_message (ex : ExceptionInfo) : String :=
  match ex.description with
  | none => ex.reason.getD ""
  | some d => ex.reason.getD "" ++ ": " ++ d


/-! ## Host values and conversion macros

The converters `X_to_Struct` and `Struct_to_X` move values between the
library's C structures and objects of the host interpreter.  The macros of the
interpreter's headers (`INT2FIX`, `NUM2DBL`, ...) are not defined in
`rmutil.c`; each is modelled on the kind of value it is made for, and what it
does with any other value is left to a parameter of `Host`.  A C `double` is
a rational number here (the finite values), so that a copy is exact and the
conversion to an integer type truncates toward zero. -/

/-- The classes that `rmutil.c` compares `CLASS_OF` with or names in a message:
the classes of the immediate values, the `Struct` classes of the `Magick`
module, and any other class, by name. -/
inductive RClass where
  | NilClass
  | Fixnum
  | Bignum
  | Float
  | String
  | Class_AffineMatrix
  | Class_Chromaticity
  | Class_Color
  | Class_Font
  | Class_Pixel
  | Class_Point
  | Class_Primary
  | Class_Rectangle
  | Class_Segment
  | Class_TypeMetric
  | other (name : String)
  deriving DecidableEq, Repr

/-- `rb_class2name`. -/
def rb_class2name : RClass → String
  | .NilClass => "NilClass"
  | .Fixnum => "Fixnum"
  | .Bignum => "Bignum"
  | .Float => "Float"
  | .String => "String"
  | .Class_AffineMatrix => "Magick::AffineMatrix"
  | .Class_Chromaticity => "Magick::Chromaticity"
  | .Class_Color => "Magick::Color"
  | .Class_Font => "Magick::Font"
  | .Class_Pixel => "Magick::Pixel"
  | .Class_Point => "Magick::Point"
  | .Class_Primary => "Magick::Primary"
  | .Class_Rectangle => "Magick::Rectangle"
  | .Class_Segment => "Magick::Segment"
  | .Class_TypeMetric => "Magick::TypeMetric"
  | .other name => name

/-- A value of the host interpreter: `nil`, `true`, `false`, an integer
(`Fixnum` or `Bignum`), a float, a string, or an object with its class and, for
a `Struct`, its members in order. -/
inductive VALUE where
  | Qnil
  | Qtrue
  | Qfalse
  | Integer (i : Int)
  | Float (d : ℚ)
  | String (s : String)
  | Object (cls : RClass) (members : List VALUE)

/-- What the C compiler, the interpreter's headers and the library's headers
fix: the width of `long` (and of `VALUE`), the least value of `char` (0 or
-128), the library's `QuantumDepth`, and
what each conversion macro does with a value outside the kind it is made for
(a non-numeric value, a number out of range, a receiver without the method):
raise, or deliver some number. -/
structure Host where
  LONG_BIT : Nat
  CHAR_MIN : Int
  QuantumDepth : Nat
  FIX2INT_other : VALUE → Except RubyException Int
  NUM2INT_other : VALUE → Except RubyException Int
  NUM2LONG_other : VALUE → Except RubyException Int
  NUM2ULONG_other : VALUE → Except RubyException Int
  NUM2DBL_other : VALUE → Except RubyException ℚ
  STRING_PTR_other : VALUE → Except RubyException String
  values_other : VALUE → Except RubyException (List VALUE)

/-- The value of a signed integer type of `n` bits that an integer converts
to: the representative of `i` modulo `2^n` in `[-2^(n-1), 2^(n-1))`. -/
def swrap (n : Nat) (i : Int) : Int :=
  (i + 2 ^ (n - 1)) % 2 ^ n - 2 ^ (n - 1)

/-- Conversion to `int` (32 bits). -/
def to_int (i : Int) : Int := swrap 32 i

/-- Conversion to `long`. -/
def to_long (H : Host) (i : Int) : Int := swrap H.LONG_BIT i

/-- Conversion to `unsigned long`. -/
def to_ulong (H : Host) (i : Int) : Nat := (i % 2 ^ H.LONG_BIT).toNat

/-- Conversion to `Quantum`, an unsigned type of `QuantumDepth` bits. -/
def to_Quantum (H : Host) (i : Int) : Nat := (i % 2 ^ H.QuantumDepth).toNat

/-- Conversion of a `double` to an integer type drops the fraction. -/
def trunc (d : ℚ) : Int := d.num.tdiv d.den

/-- The cast `(long) d` of a `double`: the truncated value when `long` can
hold it; C defines nothing otherwise (`none`). -/
def long_of_double (H : Host) (d : ℚ) : Option Int :=
  if -(2 ^ (H.LONG_BIT - 1)) ≤ trunc d ∧ trunc d < 2 ^ (H.LONG_BIT - 1) then some (trunc d)
  else none

/-- An integer that fits `int`. -/
def INT_P (i : Int) : Prop := -(2 ^ 31) ≤ i ∧ i < 2 ^ 31

instance (i : Int) : Decidable (INT_P i) := inferInstanceAs (Decidable (_ ∧ _))

/-- An integer that fits `long`. -/
def LONG_P (H : Host) (i : Int) : Prop :=
  -(2 ^ (H.LONG_BIT - 1)) ≤ i ∧ i < 2 ^ (H.LONG_BIT - 1)

instance (H : Host) (i : Int) : Decidable (LONG_P H i) := inferInstanceAs (Decidable (_ ∧ _))

/-- An integer that a `Fixnum` holds: one bit less than `long`. -/
def FIXABLE (H : Host) (i : Int) : Prop :=
  -(2 ^ (H.LONG_BIT - 2)) ≤ i ∧ i < 2 ^ (H.LONG_BIT - 2)

instance (H : Host) (i : Int) : Decidable (FIXABLE H i) := inferInstanceAs (Decidable (_ ∧ _))

/-- `CLASS_OF`. -/
def CLASS_OF (H : Host) : VALUE → RClass
  | .Qnil => .NilClass
  | .Qtrue => .other "TrueClass"
  | .Qfalse => .other "FalseClass"
  | .Integer i => if FIXABLE H i then .Fixnum else .Bignum
  | .Float _ => .Float
  | .String _ => .String
  | .Object cls _ => cls

/-- `INT2FIX(i)`, that is `((long)(i)) << 1 | FIXNUM_FLAG`, for an argument of
an integer type: the shift drops the top bit of the `long`, so the `Fixnum`
holds `i` reduced to one bit less than `long`. -/
def INT2FIX (H : Host) (i : Int) : VALUE := .Integer (swrap (H.LONG_BIT - 1) i)

/-- `INT2NUM(v)`, that is `rb_int2inum(long)`: the integer `v`, as `Fixnum` or
`Bignum`.  The argument is converted to `long` by the call. -/
def INT2NUM (H : Host) (v : Int) : VALUE := .Integer (to_long H v)

/-- `UINT2NUM(v)`, that is `rb_uint2inum(unsigned long)`. -/
def UINT2NUM (H : Host) (v : Nat) : VALUE := .Integer (to_ulong H v)

/-- `rb_float_new`. -/
def rb_float_new (d : ℚ) : VALUE := .Float d

/-- `rb_str_new2`: a `String` with the text of a C string; a `NULL` pointer is
refused with `ArgumentError`. -/
def rb_str_new2 (ptr : Option String) : Except RubyException VALUE :=
  match ptr with
  | some s => .ok (.String s)
  | none => .error (.rb_eArgError "NULL pointer given")

/-- `FIX2INT(x)`: the `int` held by a `Fixnum` that fits `int`. -/
def FIX2INT (H : Host) (x : VALUE) : Except RubyException Int :=
  match x with
  | .Integer i =>
    if FIXABLE H i ∧ INT_P i then .ok i else (H.FIX2INT_other x).map to_int
  | _ => (H.FIX2INT_other x).map to_int

/-- `NUM2INT(x)`: the `int` value of an integer that fits `int`. -/
def NUM2INT (H : Host) (x : VALUE) : Except RubyException Int :=
  match x with
  | .Integer i => if INT_P i then .ok i else (H.NUM2INT_other x).map to_int
  | _ => (H.NUM2INT_other x).map to_int

/-- `NUM2LONG(x)`: the `long` value of an integer that fits `long`. -/
def NUM2LONG (H : Host) (x : VALUE) : Except RubyException Int :=
  match x with
  | .Integer i => if LONG_P H i then .ok i else (H.NUM2LONG_other x).map (to_long H)
  | _ => (H.NUM2LONG_other x).map (to_long H)

/-- `NUM2ULONG(x)`: the `unsigned long` value of a non-negative integer that
fits `unsigned long`. -/
def NUM2ULONG (H : Host) (x : VALUE) : Except RubyException Nat :=
  match x with
  | .Integer i =>
    if 0 ≤ i ∧ i < 2 ^ H.LONG_BIT then .ok i.toNat
    else (H.NUM2ULONG_other x).map (to_ulong H)
  | _ => (H.NUM2ULONG_other x).map (to_ulong H)

/-- `NUM2DBL(x)`: the value of a float, or of an integer that a `double`
holds exactly. -/
def NUM2DBL (H : Host) (x : VALUE) : Except RubyException ℚ :=
  match x with
  | .Float d => .ok d
  | .Integer i => if -(2 ^ 53) ≤ i ∧ i ≤ 2 ^ 53 then .ok i else H.NUM2DBL_other x
  | _ => H.NUM2DBL_other x

/-- `STRING_PTR(x)`: the text of a string. -/
def STRING_PTR (H : Host) (x : VALUE) : Except RubyException String :=
  match x with
  | .String s => .ok s
  | _ => H.STRING_PTR_other x

/-- Modelled from the spec: `rb_funcall(Class_X, new_ID, n, v1, ..., vn)` is
the host's "construct object of class X with field values"; the class is a
`Struct` class defined outside `rmutil.c`, whose instance keeps the `n`
arguments as its members. -/
def new_ID (cls : RClass) (args : List VALUE) : VALUE := .Object cls args

/-- Modelled from the spec: `rb_funcall(st, values_ID, 0)` is the host's
"extract field array from object": the members of a `Struct` instance, in
order. -/
def values_ID (H : Host) (st : VALUE) : Except RubyException (List VALUE) :=
  match st with
  | .Object _ members => .ok members
  | _ => H.values_other st

/-- `rb_ary_entry(ary, n)`: the element at index `n`, `nil` past the end. -/
def rb_ary_entry (ary : List VALUE) (n : Nat) : VALUE := ary.getD n .Qnil

/-- The idiom `m == Qnil ? dflt : CONV(m)` (also written `m != Qnil ? CONV(m)
: dflt`): the default for `nil`, the conversion otherwise. -/
def nil_or {α : Type} (m : VALUE) (dflt : α) (conv : VALUE → Except RubyException α) :
    Except RubyException α :=
  match m with
  | .Qnil => .ok dflt
  | _ => conv m

/-- One statement `out->field = rhs;` of a converter, followed by the rest of
the function: when evaluating `rhs` raises, the call ends there with the
output structure as it stands. -/
def store {σ α : Type} (out : σ) (rhs : Except RubyException α) (set : σ → α → σ)
    (rest : σ → σ × Outcome) : σ × Outcome :=
  match rhs with
  | .error e => (out, .raised e)
  | .ok a => rest (set out a)

/-- The `rb_raise(rb_eTypeError, "type mismatch: %s given", ...)` of every
`Struct_to_X`. -/
def type_mismatch (H : Host) (st : VALUE) : RubyException :=
  .rb_eTypeError ("type mismatch: " ++ rb_class2name (CLASS_OF H st) ++ " given")

/-- A call `Struct_to_Y(&out->field, v);` inside a converter, followed by the
rest of the function: the callee writes into the field; when it raises, the
call ends there. -/
def nested {σ τ : Type} (out : σ) (r : τ × Outcome) (set : σ → τ → σ)
    (rest : σ → σ × Outcome) : σ × Outcome :=
  match r.2 with
  | .returned => rest (set out r.1)
  | o => (set out r.1, o)

/-! ## Structure converters -/

/-- `AffineMatrix` of the library: six `double` fields. -/
structure AffineMatrix where
  sx : ℚ
  rx : ℚ
  ry : ℚ
  sy : ℚ
  tx : ℚ
  ty : ℚ
  deriving DecidableEq, Repr

def AffineMatrix_to_Struct (am : AffineMatrix) : VALUE :=
  new_ID .Class_AffineMatrix
    [rb_float_new am.sx, rb_float_new am.rx, rb_float_new am.ry,
     rb_float_new am.sy, rb_float_new am.tx, rb_float_new am.ty]

/-- `Struct_to_AffineMatrix`.  The last two statements both read
`rb_ary_entry(values, 4)`. -/
def Struct_to_AffineMatrix (H : Host) (am : AffineMatrix) (st : VALUE) :
    AffineMatrix × Outcome :=
  if CLASS_OF H st ≠ .Class_AffineMatrix then
    (am, .raised (type_mismatch H st))
  else
    match values_ID H st with
    | .error e => (am, .raised e)
    | .ok values =>
      store am (nil_or (rb_ary_entry values 0) 1 (NUM2DBL H))
        (fun am v => { am with sx := v }) fun am =>
      store am (nil_or (rb_ary_entry values 1) 0 (NUM2DBL H))
        (fun am v => { am with rx := v }) fun am =>
      store am (nil_or (rb_ary_entry values 2) 0 (NUM2DBL H))
        (fun am v => { am with ry := v }) fun am =>
      store am (nil_or (rb_ary_entry values 3) 1 (NUM2DBL H))
        (fun am v => { am with sy := v }) fun am =>
      store am (nil_or (rb_ary_entry values 4) 0 (NUM2DBL H))
        (fun am v => { am with tx := v }) fun am =>
      store am (nil_or (rb_ary_entry values 4) 0 (NUM2DBL H))
        (fun am v => { am with ty := v }) fun am =>
      (am, .returned)

/-- `PixelPacket` of the library: four `Quantum` channels. -/
structure PixelPacket where
  red : Nat
  green : Nat
  blue : Nat
  opacity : Nat
  deriving DecidableEq, Repr

def PixelPacket_to_Struct (H : Host) (pp : PixelPacket) : VALUE :=
  new_ID .Class_Pixel
    [INT2FIX H pp.red, INT2FIX H pp.green, INT2FIX H pp.blue, INT2FIX H pp.opacity]

/-- `Struct_to_PixelPacket`; each assignment converts the `int` to `Quantum`. -/
def Struct_to_PixelPacket (H : Host) (pp : PixelPacket) (st : VALUE) :
    PixelPacket × Outcome :=
  if CLASS_OF H st ≠ .Class_Pixel then
    (pp, .raised (type_mismatch H st))
  else
    match values_ID H st with
    | .error e => (pp, .raised e)
    | .ok values =>
      store pp (nil_or (rb_ary_entry values 0) 0 (NUM2INT H))
        (fun pp c => { pp with red := to_Quantum H c }) fun pp =>
      store pp (nil_or (rb_ary_entry values 1) 0 (NUM2INT H))
        (fun pp c => { pp with green := to_Quantum H c }) fun pp =>
      store pp (nil_or (rb_ary_entry values 2) 0 (NUM2INT H))
        (fun pp c => { pp with blue := to_Quantum H c }) fun pp =>
      store pp (nil_or (rb_ary_entry values 3) 0 (NUM2INT H))
        (fun pp c => { pp with opacity := to_Quantum H c }) fun pp =>
      (pp, .returned)

/-- `PrimaryInfo` of the library: three `double` fields (the file prints them
with `%g` and `Struct_to_ChromaticityInfo` fills them with `NUM2DBL`). -/
structure PrimaryInfo where
  x : ℚ
  y : ℚ
  z : ℚ
  deriving DecidableEq, Repr

/-- `PrimaryInfo_to_Struct`: each field goes through `INT2FIX`, whose cast to
`long` truncates the `double`.  `none` when a field is beyond `long`. -/
def PrimaryInfo_to_Struct (H : Host) (p : PrimaryInfo) : Option VALUE :=
  match long_of_double H p.x, long_of_double H p.y, long_of_double H p.z with
  | some x, some y, some z =>
    some (new_ID .Class_Primary [INT2FIX H x, INT2FIX H y, INT2FIX H z])
  | _, _, _ => none

/-- `Struct_to_PrimaryInfo`; each assignment converts the `int` to `double`. -/
def Struct_to_PrimaryInfo (H : Host) (pi : PrimaryInfo) (sp : VALUE) :
    PrimaryInfo × Outcome :=
  if CLASS_OF H sp ≠ .Class_Primary then
    (pi, .raised (type_mismatch H sp))
  else
    match values_ID H sp with
    | .error e => (pi, .raised e)
    | .ok members =>
      store pi (nil_or (rb_ary_entry members 0) 0 (FIX2INT H))
        (fun pi m => { pi with x := (m : ℚ) }) fun pi =>
      store pi (nil_or (rb_ary_entry members 1) 0 (FIX2INT H))
        (fun pi m => { pi with y := (m : ℚ) }) fun pi =>
      store pi (nil_or (rb_ary_entry members 2) 0 (FIX2INT H))
        (fun pi m => { pi with z := (m : ℚ) }) fun pi =>
      (pi, .returned)

/-- `PointInfo` of the library: two `double` fields. -/
structure PointInfo where
  x : ℚ
  y : ℚ
  deriving DecidableEq, Repr

/-- `PointInfo_to_Struct`: like `PrimaryInfo_to_Struct`, through `INT2FIX`. -/
def PointInfo_to_Struct (H : Host) (p : PointInfo) : Option VALUE :=
  match long_of_double H p.x, long_of_double H p.y with
  | some x, some y => some (new_ID .Class_Point [INT2FIX H x, INT2FIX H y])
  | _, _ => none

def Struct_to_PointInfo (H : Host) (pi : PointInfo) (sp : VALUE) : PointInfo × Outcome :=
  if CLASS_OF H sp ≠ .Class_Point then
    (pi, .raised (type_mismatch H sp))
  else
    match values_ID H sp with
    | .error e => (pi, .raised e)
    | .ok members =>
      store pi (nil_or (rb_ary_entry members 0) 0 (FIX2INT H))
        (fun pi m => { pi with x := (m : ℚ) }) fun pi =>
      store pi (nil_or (rb_ary_entry members 1) 0 (FIX2INT H))
        (fun pi m => { pi with y := (m : ℚ) }) fun pi =>
      (pi, .returned)

/-- `RectangleInfo` of the library: `unsigned long` width and height, `long`
x and y. -/
structure RectangleInfo where
  width : Nat
  height : Nat
  x : Int
  y : Int
  deriving DecidableEq, Repr

def RectangleInfo_to_Struct (H : Host) (rect : RectangleInfo) : VALUE :=
  let width := UINT2NUM H rect.width
  let height := UINT2NUM H rect.height
  let x := INT2NUM H rect.x
  let y := INT2NUM H rect.y
  new_ID .Class_Rectangle [width, height, x, y]

def Struct_to_RectangleInfo (H : Host) (rect : RectangleInfo) (sr : VALUE) :
    RectangleInfo × Outcome :=
  if CLASS_OF H sr ≠ .Class_Rectangle then
    (rect, .raised (type_mismatch H sr))
  else
    match values_ID H sr with
    | .error e => (rect, .raised e)
    | .ok members =>
      store rect (nil_or (rb_ary_entry members 0) 0 (NUM2ULONG H))
        (fun rect m => { rect with width := m }) fun rect =>
      store rect (nil_or (rb_ary_entry members 1) 0 (NUM2ULONG H))
        (fun rect m => { rect with height := m }) fun rect =>
      store rect (nil_or (rb_ary_entry members 2) 0 (NUM2LONG H))
        (fun rect m => { rect with x := m }) fun rect =>
      store rect (nil_or (rb_ary_entry members 3) 0 (NUM2LONG H))
        (fun rect m => { rect with y := m }) fun rect =>
      (rect, .returned)

/-- `SegmentInfo` of the library: four `double` fields. -/
structure SegmentInfo where
  x1 : ℚ
  y1 : ℚ
  x2 : ℚ
  y2 : ℚ
  deriving DecidableEq, Repr

def SegmentInfo_to_Struct (segment : SegmentInfo) : VALUE :=
  let x1 := rb_float_new segment.x1
  let y1 := rb_float_new segment.y1
  let x2 := rb_float_new segment.x2
  let y2 := rb_float_new segment.y2
  new_ID .Class_Segment [x1, y1, x2, y2]

def Struct_to_SegmentInfo (H : Host) (segment : SegmentInfo) (s : VALUE) :
    SegmentInfo × Outcome :=
  if CLASS_OF H s ≠ .Class_Segment then
    (segment, .raised (type_mismatch H s))
  else
    match values_ID H s with
    | .error e => (segment, .raised e)
    | .ok members =>
      store segment (nil_or (rb_ary_entry members 0) 0 (NUM2DBL H))
        (fun segment m => { segment with x1 := m }) fun segment =>
      store segment (nil_or (rb_ary_entry members 1) 0 (NUM2DBL H))
        (fun segment m => { segment with y1 := m }) fun segment =>
      store segment (nil_or (rb_ary_entry members 2) 0 (NUM2DBL H))
        (fun segment m => { segment with x2 := m }) fun segment =>
      store segment (nil_or (rb_ary_entry members 3) 0 (NUM2DBL H))
        (fun segment m => { segment with y2 := m }) fun segment =>
      (segment, .returned)

/-- `TypeInfo` of the library, as far as `rmutil.c` names its members: six
texts (`NULL` is `none`), the `style` and `stretch` enum values, the
`unsigned long` weight; `other` stands for the members the file never names,
one integer each. -/
structure TypeInfo where
  name : Option String
  description : Option String
  family : Option String
  style : Int
  stretch : Int
  weight : Nat
  encoding : Option String
  foundry : Option String
  format : Option String
  other : List Int
  deriving DecidableEq, Repr

/-- `TypeInfo_to_Struct`.  `rb_str_new2` raises for a `NULL` name, description
or family; the three optional texts become `nil` when `NULL`. -/
def TypeInfo_to_Struct (H : Host) (ti : TypeInfo) : Except RubyException VALUE := do
  let name ← rb_str_new2 ti.name
  let description ← rb_str_new2 ti.description
  let family ← rb_str_new2 ti.family
  let style := INT2FIX H ti.style
  let stretch := INT2FIX H ti.stretch
  let weight := INT2NUM H ti.weight
  let encoding ← match ti.encoding with
    | some e => rb_str_new2 (some e)
    | none => pure VALUE.Qnil
  let foundry ← match ti.foundry with
    | some f => rb_str_new2 (some f)
    | none => pure VALUE.Qnil
  let format ← match ti.format with
    | some f => rb_str_new2 (some f)
    | none => pure VALUE.Qnil
  pure (new_ID .Class_Font
    [name, description, family, style, stretch, weight, encoding, foundry, format])

/-- `memset(ti, '\0', sizeof(TypeInfo))`: every member zero, every pointer
`NULL`. -/
def TypeInfo.memset (ti : TypeInfo) : TypeInfo :=
  { name := none, description := none, family := none, style := 0, stretch := 0,
    weight := 0, encoding := none, foundry := none, format := none,
    other := List.replicate ti.other.length 0 }

/-- `if (m != Qnil) CloneString(&field, STRING_PTR(m));` as the value the
field has afterwards: untouched for `nil`, else a copy of the text. -/
def clone_unless_nil (H : Host) (m : VALUE) (field : Option String) :
    Except RubyException (Option String) :=
  nil_or m field (fun m => (STRING_PTR H m).map some)

/-- `Struct_to_TypeInfo`.  The weight is read with `FIX2INT` and converted
from `int` to `unsigned long` by the assignment. -/
def Struct_to_TypeInfo (H : Host) (ti : TypeInfo) (st : VALUE) : TypeInfo × Outcome :=
  if CLASS_OF H st ≠ .Class_Font then
    (ti, .raised (type_mismatch H st))
  else
    let ti := ti.memset
    match values_ID H st with
    | .error e => (ti, .raised e)
    | .ok members =>
      store ti (clone_unless_nil H (rb_ary_entry members 0) ti.name)
        (fun ti m => { ti with name := m }) fun ti =>
      store ti (clone_unless_nil H (rb_ary_entry members 1) ti.description)
        (fun ti m => { ti with description := m }) fun ti =>
      store ti (clone_unless_nil H (rb_ary_entry members 2) ti.family)
        (fun ti m => { ti with family := m }) fun ti =>
      store ti (nil_or (rb_ary_entry members 3) 0 (FIX2INT H))
        (fun ti m => { ti with style := m }) fun ti =>
      store ti (nil_or (rb_ary_entry members 4) 0 (FIX2INT H))
        (fun ti m => { ti with stretch := m }) fun ti =>
      store ti (nil_or (rb_ary_entry members 5) 0 (FIX2INT H))
        (fun ti m => { ti with weight := to_ulong H m }) fun ti =>
      store ti (clone_unless_nil H (rb_ary_entry members 6) ti.encoding)
        (fun ti m => { ti with encoding := m }) fun ti =>
      store ti (clone_unless_nil H (rb_ary_entry members 7) ti.foundry)
        (fun ti m => { ti with foundry := m }) fun ti =>
      store ti (clone_unless_nil H (rb_ary_entry members 8) ti.format)
        (fun ti m => { ti with format := m }) fun ti =>
      (ti, .returned)

/-- `TypeMetric` of the library. -/
structure TypeMetric where
  pixels_per_em : PointInfo
  ascent : ℚ
  descent : ℚ
  width : ℚ
  height : ℚ
  max_advance : ℚ
  bounds : SegmentInfo
  underline_position : ℚ
  underline_thickness : ℚ
  deriving DecidableEq, Repr

/-- `TypeMetric_to_Struct`.  Both `underline_position` and
`underline_thickness` are made from `tm->underline_position`.  `none` when
`PointInfo_to_Struct` meets a value beyond `long`. -/
def TypeMetric_to_Struct (H : Host) (tm : TypeMetric) : Option VALUE :=
  match PointInfo_to_Struct H tm.pixels_per_em with
  | none => none
  | some pixels_per_em =>
    let ascent := rb_float_new tm.ascent
    let descent := rb_float_new tm.descent
    let width := rb_float_new tm.width
    let height := rb_float_new tm.height
    let max_advance := rb_float_new tm.max_advance
    let bounds := SegmentInfo_to_Struct tm.bounds
    let underline_position := rb_float_new tm.underline_position
    let underline_thickness := rb_float_new tm.underline_position
    some (new_ID .Class_TypeMetric
      [pixels_per_em, ascent, descent, width, height, max_advance, bounds,
       underline_position, underline_thickness])

/-- `Struct_to_TypeMetric`.  Members 0 and 6 are handed to
`Struct_to_PointInfo` and `Struct_to_SegmentInfo` as they are. -/
def Struct_to_TypeMetric (H : Host) (tm : TypeMetric) (st : VALUE) : TypeMetric × Outcome :=
  if CLASS_OF H st ≠ .Class_TypeMetric then
    (tm, .raised (type_mismatch H st))
  else
    match values_ID H st with
    | .error e => (tm, .raised e)
    | .ok members =>
      let pixels_per_em := rb_ary_entry members 0
      nested tm (Struct_to_PointInfo H tm.pixels_per_em pixels_per_em)
        (fun tm p => { tm with pixels_per_em := p }) fun tm =>
      store tm (nil_or (rb_ary_entry members 1) 0 (NUM2DBL H))
        (fun tm m => { tm with ascent := m }) fun tm =>
      store tm (nil_or (rb_ary_entry members 2) 0 (NUM2DBL H))
        (fun tm m => { tm with descent := m }) fun tm =>
      store tm (nil_or (rb_ary_entry members 3) 0 (NUM2DBL H))
        (fun tm m => { tm with width := m }) fun tm =>
      store tm (nil_or (rb_ary_entry members 4) 0 (NUM2DBL H))
        (fun tm m => { tm with height := m }) fun tm =>
      store tm (nil_or (rb_ary_entry members 5) 0 (NUM2DBL H))
        (fun tm m => { tm with max_advance := m }) fun tm =>
      nested tm (Struct_to_SegmentInfo H tm.bounds (rb_ary_entry members 6))
        (fun tm b => { tm with bounds := b }) fun tm =>
      store tm (nil_or (rb_ary_entry members 7) 0 (NUM2DBL H))
        (fun tm m => { tm with underline_position := m }) fun tm =>
      store tm (nil_or (rb_ary_entry members 8) 0 (NUM2DBL H))
        (fun tm m => { tm with underline_thickness := m }) fun tm =>
      (tm, .returned)

/-! ## Sample host and structures -/

/-- A host with 64-bit `long` and 16-bit `Quantum`.  Outside the kind a macro
is made for, the integer macros of this host take the integer value as it is
(the assignment then narrows it) and refuse everything that is not a number
with `TypeError`. -/
def sampleHost : Host where
  LONG_BIT := 64
  CHAR_MIN := -128
  QuantumDepth := 16
  FIX2INT_other := fun x =>
    match x with
    | .Integer i => .ok i
    | _ => .error (.rb_eTypeError "no implicit conversion to integer")
  NUM2INT_other := fun x =>
    match x with
    | .Integer i => .ok i
    | _ => .error (.rb_eTypeError "no implicit conversion to integer")
  NUM2LONG_other := fun x =>
    match x with
    | .Integer i => .ok i
    | _ => .error (.rb_eTypeError "no implicit conversion to integer")
  NUM2ULONG_other := fun x =>
    match x with
    | .Integer i => .ok i
    | _ => .error (.rb_eTypeError "no implicit conversion to integer")
  NUM2DBL_other := fun x =>
    match x with
    | .Integer i => .ok i
    | _ => .error (.rb_eTypeError "no implicit conversion to float")
  STRING_PTR_other := fun _ => .error (.rb_eTypeError "no implicit conversion to string")
  values_other := fun _ => .error (.rb_eTypeError "undefined method values")

/-- An affine matrix with different translations. -/
def sampleAffine : AffineMatrix := { sx := 1, rx := 0, ry := 0, sy := 1, tx := 2, ty := 3 }

/-- Chromaticity coordinates of a primary: 0.625, 0.3125, 0.0625. -/
def samplePrimary : PrimaryInfo := { x := mkRat 5 8, y := mkRat 5 16, z := mkRat 1 16 }

/-- A type metric whose underline thickness differs from its underline
position; every other field is a whole number. -/
def sampleMetric : TypeMetric where
  pixels_per_em := { x := 12, y := 12 }
  ascent := 11
  descent := -3
  width := 40
  height := 14
  max_advance := 13
  bounds := { x1 := 0, y1 := -3, x2 := 10, y2 := 9 }
  underline_position := -2
  underline_thickness := 1

/-- A pixel with the extreme channel values of a 16-bit `Quantum`. -/
def samplePixel : PixelPacket := { red := 65535, green := 0, blue := 32768, opacity := 65535 }

/-- A rectangle with the largest `unsigned long` and the extreme `long`
values of `sampleHost`. -/
def sampleRectangle : RectangleInfo :=
  { width := 18446744073709551615, height := 0,
    x := -9223372036854775808, y := 9223372036854775807 }

/-- A font with an absent foundry and one further member. -/
def sampleFont : TypeInfo where
  name := some "Helvetica"
  description := some "Helvetica Regular"
  family := some "Helvetica"
  style := 0
  stretch := 0
  weight := 400
  encoding := some "AdobeStandard"
  foundry := none
  format := some "type1"
  other := [7]

/-- The font `sampleFont` with a weight that `int` does not hold. -/
def heavyFont : TypeInfo := { sampleFont with weight := 2147483648 }

/-- A `Magick::TypeMetric` object none of whose members is set. -/
def emptyMetric : VALUE := .Object .Class_TypeMetric []

/-! ## Further sample records -/

/-- A record of the error tier whose function name has 120 characters. -/
def longFunctionRecord : ExceptionInfo where
  severity := 400
  reason := some "unable to open file"
  description := some "no.gif"
  module := some "blob.c"
  function := some ⟨List.replicate 120 'f'⟩
  line := 2480

/-- The location text "function at module:line" made from the fields of a
record as they are: the reading of the claim that is compared with the
location `handle_error` attaches. -/
def claimed_location (ex : ExceptionInfo) : String :=
  ex.function.getD "" ++ " at " ++ ex.module.getD "" ++ ":" ++ fmt_lu ex.line

/-- The value of the library's `ErrorException`, the first code of its error
class; `rmutil.c` never names it. -/
def sampleErrorException : Int := 400

/-- A record with the library's warning code 305 (`TypeWarning`), which lies
between `WarningException` (300) and `ErrorException` (400). -/
def typeWarningRecord : ExceptionInfo where
  severity := 305
  reason := some "unable to read font"
  description := some "helvetica"
  module := some "annotate.c"
  function := some "RenderType"
  line := 120

/-- `NilOrConverts conv m`: the member `m` is `nil`, or the conversion macro
`conv` accepts it. -/
def NilOrConverts {α : Type} (conv : VALUE → Except RubyException α) (m : VALUE) : Prop :=
  m = .Qnil ∨ ∃ a, conv m = .ok a

/-! ## Names of composite operators

C strings are compared character by character.  The text of a string is the
list of its characters, and the memory behind the list holds the terminating
NUL, so `*s` is zero at the end of the list; a NUL inside the list ends the C
string there. -/

/-- The value of `*s` for a character: its code, or its code less 256 for a
code from 128 to 255 where the type `char` is signed (`CHAR_MIN` below 0). -/
def char_value (H : Host) (c : Char) : Int :=
  if H.CHAR_MIN < 0 ∧ 128 ≤ c.toNat ∧ c.toNat < 256 then (c.toNat : Int) - 256
  else (c.toNat : Int)

/-- `tolower` of the C library in the "C" locale: the letters `A` to `Z` go to
`a` to `z`, every other character stays. -/
def tolower (c : Char) : Char :=
  if 'A' ≤ c ∧ c ≤ 'Z' then Char.ofNat (c.toNat + 32) else c

/-- `strfcmp`.  The loop advances both pointers while `*s1` and `*s2` are not
zero and the two characters agree after `tolower`; the result is `*s2-*s1`, a
difference of two `char` values, at the place where it stops. -/
def strfcmp (H : Host) : List Char → List Char → Int
  | c1 :: s1, c2 :: s2 =>
    if c1 ≠ '\x00' ∧ c2 ≠ '\x00' ∧ tolower c1 = tolower c2 then strfcmp H s1 s2
    else char_value H c2 - char_value H c1
  | c1 :: _, [] => 0 - char_value H c1
  | [], c2 :: _ => char_value H c2 - 0
  | [], [] => 0

/-- `strcmp` of the C library, the routine `strfcmp` is documented against:
the difference of the first two characters that differ, taken as
`unsigned char`, first string minus second, and zero when there is none. -/
def strcmp : List Char → List Char → Int
  | c1 :: s1, c2 :: s2 =>
    if c1 = c2 then strcmp s1 s2 else (c1.toNat : Int) - (c2.toNat : Int)
  | c1 :: _, [] => (c1.toNat : Int) - 0
  | [], c2 :: _ => 0 - (c2.toNat : Int)
  | [], [] => 0

/-- The table `ops` of `Str_to_CompositeOperator`, without its closing `NULL`. -/
def ops : List String :=
  ["Over", "In", "Out", "Atop", "Xor", "Plus", "Minus", "Add", "Subtract", "Difference",
   "Multiply", "Bumpmap", "Copy", "CopyRed", "CopyGreen", "CopyBlue", "CopyOpacity", "Clear"]

/-- The loop of `Str_to_CompositeOperator` over the rest of the table: the
first entry `strfcmp` finds equal to `oper`, if there is one. -/
def Str_to_CompositeOperator_loop (H : Host) (oper : String) : List String → Option String
  | [] => none
  | op :: rest =>
    if strfcmp H oper.data op.data = 0 then some op
    else Str_to_CompositeOperator_loop H oper rest

/-- `Str_to_CompositeOperator`: the table entry for the text of `str`, or an
`ArgumentError` showing the text. -/
def Str_to_CompositeOperator (H : Host) (str : VALUE) : Except RubyException String :=
  match STRING_PTR H str with
  | .error e => .error e
  | .ok oper =>
    match Str_to_CompositeOperator_loop H oper ops with
    | some op => .ok op
    | none => .error (.rb_eArgError ("invalid composition operator: " ++ oper))

/-- Two C strings are equal ignoring case when they agree character by
character after `tolower`. -/
def EqualIgnoringCase (s t : String) : Prop :=
  s.data.map tolower = t.data.map tolower

instance (s t : String) : Decidable (EqualIgnoringCase s t) :=
  inferInstanceAs (Decidable (_ = _))

/-! ## Colors and chromaticities -/

/-- The library's `ColorInfo`, with the fields `rmutil.c` names; `other` holds
the remaining fields, which the file only ever clears. -/
structure ColorInfo where
  name : Option String
  compliance : Int
  color : PixelPacket
  other : List Int
  deriving DecidableEq, Repr

/-- `memset(ci, '\0', sizeof(ColorInfo))`. -/
def ColorInfo.memset (ci : ColorInfo) : ColorInfo :=
  { name := none, compliance := 0, color := ⟨0, 0, 0, 0⟩,
    other := List.replicate ci.other.length 0 }

/-- `Struct_to_ColorInfo`. -/
def Struct_to_ColorInfo (H : Host) (ci : ColorInfo) (st : VALUE) : ColorInfo × Outcome :=
  if CLASS_OF H st ≠ .Class_Color then
    (ci, .raised (type_mismatch H st))
  else
    let ci := ci.memset
    match values_ID H st with
    | .error e => (ci, .raised e)
    | .ok members =>
      store ci (clone_unless_nil H (rb_ary_entry members 0) ci.name)
        (fun ci m => { ci with name := m }) fun ci =>
      store ci (nil_or (rb_ary_entry members 1) ci.compliance (FIX2INT H))
        (fun ci m => { ci with compliance := m }) fun ci =>
      match rb_ary_entry members 2 with
      | .Qnil => (ci, .returned)
      | m =>
        nested ci (Struct_to_PixelPacket H ci.color m)
          (fun ci c => { ci with color := c }) fun ci =>
        (ci, .returned)

/-- The library's `ChromaticityInfo`. -/
structure ChromaticityInfo where
  red_primary : PrimaryInfo
  green_primary : PrimaryInfo
  blue_primary : PrimaryInfo
  white_point : PrimaryInfo
  deriving DecidableEq, Repr

/-- A call whose result is kept in a local variable: a raise ends the
conversion with the structure as it stands, a result is handed on. -/
def fetch {σ α : Type} (out : σ) (rhs : Except RubyException α)
    (rest : α → σ × Outcome) : σ × Outcome :=
  match rhs with
  | .error e => (out, .raised e)
  | .ok a => rest a

/-- `Struct_to_ChromaticityInfo`.  The four members are asked for their
`values` without a look at their class. -/
def Struct_to_ChromaticityInfo (H : Host) (ci : ChromaticityInfo) (chrom : VALUE) :
    ChromaticityInfo × Outcome :=
  if CLASS_OF H chrom ≠ .Class_Chromaticity then
    (ci, .raised (type_mismatch H chrom))
  else
    fetch ci (values_ID H chrom) fun chrom_members =>
      let red_primary := rb_ary_entry chrom_members 0
      let green_primary := rb_ary_entry chrom_members 1
      let blue_primary := rb_ary_entry chrom_members 2
      let white_point := rb_ary_entry chrom_members 3
      fetch ci (values_ID H red_primary) fun entry_members =>
      store ci (nil_or (rb_ary_entry entry_members 0) 0 (NUM2DBL H))
        (fun ci x => { ci with red_primary := { ci.red_primary with x := x } }) fun ci =>
      store ci (nil_or (rb_ary_entry entry_members 1) 0 (NUM2DBL H))
        (fun ci y => { ci with red_primary := { ci.red_primary with y := y } }) fun ci =>
      let ci := { ci with red_primary := { ci.red_primary with z := 0 } }
      fetch ci (values_ID H green_primary) fun entry_members =>
      store ci (nil_or (rb_ary_entry entry_members 0) 0 (NUM2DBL H))
        (fun ci x => { ci with green_primary := { ci.green_primary with x := x } }) fun ci =>
      store ci (nil_or (rb_ary_entry entry_members 1) 0 (NUM2DBL H))
        (fun ci y => { ci with green_primary := { ci.green_primary with y := y } }) fun ci =>
      let ci := { ci with green_primary := { ci.green_primary with z := 0 } }
      fetch ci (values_ID H blue_primary) fun entry_members =>
      store ci (nil_or (rb_ary_entry entry_members 0) 0 (NUM2DBL H))
        (fun ci x => { ci with blue_primary := { ci.blue_primary with x := x } }) fun ci =>
      store ci (nil_or (rb_ary_entry entry_members 1) 0 (NUM2DBL H))
        (fun ci y => { ci with blue_primary := { ci.blue_primary with y := y } }) fun ci =>
      let ci := { ci with blue_primary := { ci.blue_primary with z := 0 } }
      fetch ci (values_ID H white_point) fun entry_members =>
      store ci (nil_or (rb_ary_entry entry_members 0) 0 (NUM2DBL H))
        (fun ci x => { ci with white_point := { ci.white_point with x := x } }) fun ci =>
      store ci (nil_or (rb_ary_entry entry_members 1) 0 (NUM2DBL H))
        (fun ci y => { ci with white_point := { ci.white_point with y := y } }) fun ci =>
      let ci := { ci with white_point := { ci.white_point with z := 0 } }
      (ci, .returned)

/-! ## The name of a pixel's color -/

/-- `RTEST`: true of every value but `nil` and `false`. -/
def RTEST : VALUE → Bool
  | .Qnil => false
  | .Qfalse => false
  | _ => true

/-- `NUM2UINT(x)`, that is `(unsigned int)NUM2ULONG(x)`. -/
def NUM2UINT (H : Host) (x : VALUE) : Except RubyException Nat :=
  (NUM2ULONG H x).map (fun v => v % 2 ^ 32)

/-- The three locals of `Pixel_to_color` that its arguments set. -/
structure ColorArgs where
  compliance : Int
  matte : Bool
  depth : Nat
  deriving DecidableEq, Repr

/-- The label `case 1:` of the switch in `Pixel_to_color`, with what follows it. -/
def Pixel_to_color_case_1 (B : Build) (K : ComplianceTypes) (H : Host) (argv : List VALUE)
    (a : ColorArgs) : Except RubyException ColorArgs :=
  match NUM2INT H (argv.getD 0 .Qnil) with
  | .error e => .error e
  | .ok type =>
    match Num_to_ComplianceType B K type with
    | .error e => .error e
    | .ok compliance => .ok { a with compliance := compliance }

/-- The label `case 2:`, which falls through to `case 1:`. -/
def Pixel_to_color_case_2 (B : Build) (K : ComplianceTypes) (H : Host) (argv : List VALUE)
    (a : ColorArgs) : Except RubyException ColorArgs :=
  Pixel_to_color_case_1 B K H argv { a with matte := RTEST (argv.getD 1 .Qnil) }

/-- The label `case 3:`, which falls through to `case 2:` unless the depth is
refused.  The message prints the `unsigned int` with `%d`. -/
def Pixel_to_color_case_3 (B : Build) (K : ComplianceTypes) (H : Host) (argv : List VALUE)
    (a : ColorArgs) : Except RubyException ColorArgs :=
  match NUM2UINT H (argv.getD 2 .Qnil) with
  | .error e => .error e
  | .ok depth =>
    if depth ≠ 8 ∧ depth ≠ H.QuantumDepth then
      .error (.rb_eArgError ("invalid depth (" ++ fmt_d (to_int depth) ++ ")"))
    else Pixel_to_color_case_2 B K H argv { a with depth := depth }

/-- The switch on `argc` in `Pixel_to_color`, entered with the initial values
of the three locals; `argc` is the length of `argv`. -/
def Pixel_to_color_switch (B : Build) (K : ComplianceTypes) (H : Host) (argv : List VALUE) :
    Except RubyException ColorArgs :=
  let a : ColorArgs :=
    { compliance := K.AllCompliance, matte := false, depth := H.QuantumDepth }
  match argv.length with
  | 3 => Pixel_to_color_case_3 B K H argv a
  | 2 => Pixel_to_color_case_2 B K H argv a
  | 1 => Pixel_to_color_case_1 B K H argv a
  | 0 => .ok a
  | argc => .error (.rb_eArgError
      ("wrong number of arguments (" ++ fmt_d argc ++ " for 0 to 2)"))

/-- What `QueryColorname` is handed: the depth and matte flag of the image
allocated for it, the pixel, and the compliance. -/
structure ColorQuery where
  depth : Nat
  matte : Bool
  pp : PixelPacket
  compliance : Int
  deriving DecidableEq, Repr

/-- The library's `QueryColorname`: the text it leaves in `name` and the state
it leaves the exception record in. -/
structure ColorLib where
  QueryColorname : ColorQuery → String × ExceptionInfo

/-- How a call of `Pixel_to_color` goes: the query it made of the library (if
it got that far), what became visible in the host, how it ended, and the text
of the string it returned. -/
structure ColorCall where
  query : Option ColorQuery
  events : List Event
  outcome : Outcome
  name : Option String

/-- Modelled from the spec: the macro `HANDLE_ERROR` is defined in
`rmagick.h`, not in `rmutil.c`.  The spec has library errors "buffered in the
exception record until explicitly drained by the Error Bridge", so the macro
hands the local record `exception` to `handle_error`. -/
def HANDLE_ERROR (B : Build) (L : MagickLib) (exception : ExceptionInfo) : Handled :=
  handle_error B L exception

/-- `Pixel_to_color`.  The local `pp` starts with whatever the stack holds.
The image allocated for the query is used for its `depth` and `matte` fields
only, which go into the query together with the pixel and the compliance;
`GetExceptionInfo` and `QueryColorname` between them leave the local record
`exception` in the state the library reports. -/
def Pixel_to_color (B : Build) (L : MagickLib) (C : ColorLib) (K : ComplianceTypes) (H : Host)
    (pp : PixelPacket) (argv : List VALUE) (self : VALUE) : ColorCall :=
  match Pixel_to_color_switch B K H argv with
  | .error e => { query := none, events := [], outcome := .raised e, name := none }
  | .ok a =>
    let r := Struct_to_PixelPacket H pp self
    match r.2 with
    | .returned =>
      let q : ColorQuery :=
        { depth := a.depth, matte := a.matte, pp := r.1, compliance := a.compliance }
      let found := C.QueryColorname q
      let handled := HANDLE_ERROR B L found.2
      match handled.outcome with
      | .returned =>
        { query := some q, events := handled.events, outcome := .returned,
          name := some found.1 }
      | o => { query := some q, events := handled.events, outcome := o, name := none }
    | o => { query := none, events := [], outcome := o, name := none }

/-! ## Scene sequences from image lists -/

/-- Modelled from the spec: `rm_imagelist_length` is defined outside
`rmutil.c`; it yields the number of images in the list. -/
def rm_imagelist_length (imagelist : List ImagePtr) : Nat := imagelist.length

/-- The loop of `toseq` over the images still to come, with the locals `head`
and `tail`.  With `HAVE_APPENDIMAGETOLIST` the library appends the image to the
list at `head`.  Without it the first image becomes `head`, and every later
one gets `image->previous = tail`, then `tail->next = image`; `tail` is set
whenever `head` is, so the last case below does not arise. -/
def toseq_loop (B : Build) (L : MagickLib) :
    List ImagePtr → Heap → Option ImagePtr → Option ImagePtr → Heap × Option ImagePtr
  | [], h, head, _ => (h, head)
  | image :: rest, h, head, tail =>
    if B.HAVE_APPENDIMAGETOLIST then
      let r := L.AppendImageToList h head image
      toseq_loop B L rest r.1 r.2 tail
    else
      match head, tail with
      | none, _ => toseq_loop B L rest h (some image) (some image)
      | some _, some t =>
        let h1 := h.set image { h image with previous := some t }
        let h2 := h1.set t { h1 t with next := some image }
        toseq_loop B L rest h2 head (some image)
      | some _, none => toseq_loop B L rest h head (some image)

/-- `toseq`, handed the images of the list in order: the memory it leaves and
the head it returns, or the `ArgumentError` for an empty list. -/
def toseq (B : Build) (L : MagickLib) (h : Heap) (imagelist : List ImagePtr) :
    Except RubyException (Heap × Option ImagePtr) :=
  let len := rm_imagelist_length imagelist
  if len = 0 then .error (.rb_eArgError "no images in this image list")
  else .ok (toseq_loop B L imagelist h none none)

/-- A build without the list routines of the library, in which `toseq` and
`unseq` set the links themselves. -/
def plainBuild : Build :=
  { sampleBuild with HAVE_REMOVEFIRSTIMAGEFROMLIST := false, HAVE_APPENDIMAGETOLIST := false }

/-- A memory in which no image has a link or a pending exception. -/
def looseHeap : Heap := fun _ => { next := none, previous := none, exception := cleanRecord }

/-! ## Acceptance by a validator -/

/-- A validator accepts a code when it returns it. -/
def Accepts (B : Build) (E : MagickEnums) (d : Domain) (code : Int) : Prop :=
  Num_to B E d code = .ok code

/-- A build in which none of the four flags that guard table entries is set. -/
def bareBuild : Build :=
  { sampleBuild with
    HAVE_NOCOMPLIANCE := false, HAVE_COPYCYANCOMPOSITEOP := false,
    HAVE_HSLCOLORSPACE := false, HAVE_HWBCOLORSPACE := false }

/-- The entries of a domain's table that stand outside every `#if`: the table
of a build with no flag set. -/
def Domain.unconditional (E : MagickEnums) (d : Domain) : List Int := d.table bareBuild E

/-- The four composite operators guarded by `HAVE_COPYCYANCOMPOSITEOP`. -/
def copy_operators (K : CompositeOperators) : List Int :=
  [K.CopyCyanCompositeOp, K.CopyMagentaCompositeOp, K.CopyYellowCompositeOp,
   K.CopyBlackCompositeOp]

/-- One build has every table-guarding flag that another has. -/
def Build.flags_le (B B' : Build) : Prop :=
  (B.HAVE_NOCOMPLIANCE = true → B'.HAVE_NOCOMPLIANCE = true)
  ∧ (B.HAVE_COPYCYANCOMPOSITEOP = true → B'.HAVE_COPYCYANCOMPOSITEOP = true)
  ∧ (B.HAVE_HSLCOLORSPACE = true → B'.HAVE_HSLCOLORSPACE = true)
  ∧ (B.HAVE_HWBCOLORSPACE = true → B'.HAVE_HWBCOLORSPACE = true)

/-! ## Further sample data -/

/-- A library whose `QueryColorname` finds the name "red" for every pixel and
reports nothing. -/
def sampleColorLib : ColorLib where
  QueryColorname := fun _ => ("red", cleanRecord)

/-! ## Names of constants

Each `switch` is read label by label in the order of the source; the labels of
a `switch` are distinct values, so the order does not matter there. -/

/-- `Compliance_Const_Name`. -/
def Compliance_Const_Name (K : ComplianceTypes) (c : Int) : String :=
  if c = K.NoCompliance then "NoCompliance"
  else if c = K.SVGCompliance then "SVGCompliance"
  else if c = K.X11Compliance then "X11Compliance"
  else if c = K.XPMCompliance then "XPMCompliance"
  else if c = K.AllCompliance then "AllCompliance"
  else "unknown"

/-- `Stretch_Const_Name`. -/
def Stretch_Const_Name (K : StretchTypes) (stretch : Int) : String :=
  if stretch = K.NormalStretch then "NormalStretch"
  else if stretch = K.UltraCondensedStretch then "UltraCondensedStretch"
  else if stretch = K.ExtraCondensedStretch then "ExtraCondensedStretch"
  else if stretch = K.CondensedStretch then "CondensedStretch"
  else if stretch = K.SemiCondensedStretch then "SemiCondensedStretch"
  else if stretch = K.SemiExpandedStretch then "SemiExpandedStretch"
  else if stretch = K.ExpandedStretch then "ExpandedStretch"
  else if stretch = K.ExtraExpandedStretch then "ExtraExpandedStretch"
  else if stretch = K.UltraExpandedStretch then "UltraExpandedStretch"
  else if stretch = K.AnyStretch then "AnyStretch"
  else "unknown"

/-- `Style_Const_Name`. -/
def Style_Const_Name (K : StyleTypes) (style : Int) : String :=
  if style = K.NormalStyle then "NormalStyle"
  else if style = K.ItalicStyle then "ItalicStyle"
  else if style = K.ObliqueStyle then "ObliqueStyle"
  else if style = K.AnyStyle then "AnyStyle"
  else "unknown"

/-- A `Magick::Pixel` object with four integer members. -/
def Pixel_of (red green blue opacity : Int) : VALUE :=
  .Object .Class_Pixel [.Integer red, .Integer green, .Integer blue, .Integer opacity]

/-! ## The warning channel -/

/-- The scan `printf` makes of a format that is handed to it without further
arguments; `pending` says that the character before was a `%` that opens a
conversion.  `%%` stands for one `%` and every other character for itself; any
other `%` asks for an argument that is not there, which leaves the result
undefined (`none`). -/
def printf_scan : Bool → List Char → Option (List Char)
  | false, [] => some []
  | true, [] => none
  | false, c :: rest =>
    if c = '%' then printf_scan true rest
    else (printf_scan false rest).map fun t => c :: t
  | true, c :: rest =>
    if c = '%' then (printf_scan false rest).map fun t => '%' :: t
    else none

/-- The text `printf` makes of a format without further arguments. -/
def printf_no_args (fmt : List Char) : Option (List Char) := printf_scan false fmt

/-- What `rb_warning(fmt)` shows behind the prefix the interpreter puts before
every warning: the first parameter of `rb_warning` is a `printf` format, and
`magick_error_handler` hands it `msg` and nothing else. -/
def rb_warning_text (fmt : String) : Option String :=
  (printf_no_args fmt.data).map String.mk

/-- A record of the warning tier whose description holds a `printf`
conversion, as the name of a sequence of scene files does. -/
def percentRecord : ExceptionInfo where
  severity := 300
  reason := some "unable to open image"
  description := some "scene%03d.miff"
  module := some "blob.c"
  function := some "OpenBlob"
  line := 2480

/-- A record of the warning tier whose description holds a doubled percent
sign. -/
def escapedRecord : ExceptionInfo where
  severity := 300
  reason := some "unrecognized color"
  description := some "50%% gray"
  module := some "color.c"
  function := some "QueryColorDatabase"
  line := 904

/-- A host with a `long` of 32 bits and a library built with `QuantumDepth`
32. -/
def deepHost : Host := { sampleHost with LONG_BIT := 32, QuantumDepth := 32 }

/-! ## Theorems -/

/-! ## Enum validators -/

theorem scan_le (v : Int) (tbl : List Int) (x : Nat) : scan v tbl x ≤ x + tbl.length := by
  induction tbl generalizing x with
  | nil => simp [scan]
  | cons t ts ih =>
    simp only [scan]
    split
    · simp
    · have := ih (x + 1)
      simp only [List.length_cons]
      omega

theorem scan_eq_end_iff (v : Int) (tbl : List Int) (x : Nat) :
    scan v tbl x = x + tbl.length ↔ v ∉ tbl := by
  induction tbl generalizing x with
  | nil => simp [scan]
  | cons t ts ih =>
    simp only [scan, List.length_cons, List.mem_cons, not_or]
    by_cases hv : v = t
    · simp [hv]
    · simp only [hv, if_false, not_false_eq_true, true_and]
      rw [← ih (x + 1)]
      omega

theorem scan_zero_eq_length_iff (v : Int) (tbl : List Int) :
    scan v tbl 0 = tbl.length ↔ v ∉ tbl := by
  simpa using scan_eq_end_iff v tbl 0

theorem Contains_of_head (lit x tail name : String) (h : name.data <:+: lit.data) :
    Contains (lit ++ x ++ tail) name := by
  unfold Contains
  simp only [String.data_append, List.append_assoc]
  exact h.trans (List.prefix_append _ _).isInfix

theorem Contains_arg (lit x tail : String) : Contains (lit ++ x ++ tail) x := by
  unfold Contains
  simp only [String.data_append]
  exact List.infix_append _ _ _

/-- C1: for every domain and every code that occurs in the domain's allow-list
table, the validator returns exactly that code and raises nothing. -/
theorem Num_to_returns_listed_code (B : Build) (E : MagickEnums) (d : Domain) (code : Int)
    (h : code ∈ d.table B E) : Num_to B E d code = .ok code := by
  have hs : scan code (d.table B E) 0 ≠ (d.table B E).length := by
    rw [Ne, scan_zero_eq_length_iff]
    simpa using h
  cases d <;> simp only [Domain.table] at hs <;>
    simp only [Num_to, Num_to_AlignType, Num_to_ChannelType, Num_to_ClassType, Num_to_ComplianceType, Num_to_CompositeOperator, Num_to_CompressionType, Num_to_DecorationType, Num_to_DisposeType, Num_to_FilterType, Num_to_GravityType, Num_to_ImageType, Num_to_InterlaceType, Num_to_ColorspaceType, Num_to_NoiseType, Num_to_RenderingIntent, Num_to_ResolutionType, Num_to_PaintMethod, Num_to_StretchType, Num_to_StyleType, if_neg hs]

theorem Num_to_returns_listed_code_witness :
    (13 : Int) ∈ Domain.table sampleBuild sampleEnums .CompositeOperator
      ∧ Num_to sampleBuild sampleEnums .CompositeOperator 13 = .ok 13 :=
  ⟨by decide, Num_to_returns_listed_code sampleBuild sampleEnums .CompositeOperator 13
    (by decide)⟩

/-- C2: for every domain and every code that does not occur in the domain's
allow-list table, the validator returns no value: it raises `ArgumentError`
with a message that contains the name of the domain and the decimal form of
the offending code. -/
theorem Num_to_rejects_unlisted_code (B : Build) (E : MagickEnums) (d : Domain) (code : Int)
    (h : code ∉ d.table B E) :
    ∃ mesg, Num_to B E d code = .error (.rb_eArgError mesg)
      ∧ Contains mesg d.name ∧ Contains mesg (fmt_d code) := by
  have hs : scan code (d.table B E) 0 = (d.table B E).length :=
    (scan_zero_eq_length_iff _ _).2 h
  cases d <;> simp only [Domain.table] at hs <;>
    simp only [Num_to, Num_to_AlignType, Num_to_ChannelType, Num_to_ClassType, Num_to_ComplianceType, Num_to_CompositeOperator, Num_to_CompressionType, Num_to_DecorationType, Num_to_DisposeType, Num_to_FilterType, Num_to_GravityType, Num_to_ImageType, Num_to_InterlaceType, Num_to_ColorspaceType, Num_to_NoiseType, Num_to_RenderingIntent, Num_to_ResolutionType, Num_to_PaintMethod, Num_to_StretchType, Num_to_StyleType, if_pos hs] <;>
    exact ⟨_, rfl, Contains_of_head _ _ _ _ (by decide), Contains_arg _ _ _⟩

theorem Num_to_rejects_unlisted_code_witness :
    (99 : Int) ∉ Domain.table sampleBuild sampleEnums .FilterType
      ∧ ∃ mesg, Num_to sampleBuild sampleEnums .FilterType 99 = .error (.rb_eArgError mesg)
          ∧ Contains mesg Domain.FilterType.name ∧ Contains mesg (fmt_d 99) :=
  ⟨by decide, Num_to_rejects_unlisted_code sampleBuild sampleEnums .FilterType 99 (by decide)⟩


/-! ## The error bridge: one record -/

theorem handle_error_of_ne (B : Build) (L : MagickLib) (ex : ExceptionInfo)
    (h : ex.severity ≠ L.UndefinedException) :
    handle_error B L ex =
      { ex := { L.DestroyExceptionInfo ex with severity := L.UndefinedException },
        events := .DestroyExceptionInfo ::
          (magick_error_handler B L ex.severity (copy250 ex.reason)
            (some (copy250 ex.description)) (copy250 ex.module) (copy250 ex.function)
            ex.line).1,
        outcome :=
          (magick_error_handler B L ex.severity (copy250 ex.reason)
            (some (copy250 ex.description)) (copy250 ex.module) (copy250 ex.function)
            ex.line).2 } := by
  simp only [handle_error, if_neg h]

theorem format_ne_none (B : Build) (size : Nat) (text : String)
    (h : format B size text ≠ none) :
    format B size text = some (if B.HAVE_SNPRINTF then snprintf (size - 1) text else text) := by
  unfold format sprintf at *
  cases hB : B.HAVE_SNPRINTF
  · simp only [hB, Bool.false_eq_true, if_false] at h ⊢
    split at h
    · simp [*]
    · exact absurd rfl h
  · simp

theorem magick_error_handler_error (B : Build) (L : MagickLib) (severity : Int)
    (reason : String) (description : Option String) (module function : String) (line : Nat)
    (hsev : severity > L.WarningException)
    (hdef : (magick_error_handler B L severity reason description module function line).2
      ≠ .overrun) :
    ∃ extra,
      magick_error_handler B L severity reason description module function line =
        ([], .raised (.ImageMagickError
          (if B.HAVE_SNPRINTF then
            snprintf 1023 (reason_description B severity reason description)
           else reason_description B severity reason description) extra)) := by
  unfold magick_error_handler at hdef ⊢
  simp only [if_pos hsev] at hdef ⊢
  cases hm : format B 1024 (reason_description B severity reason description) with
  | none => simp [hm] at hdef
  | some msg =>
    have hmsg := format_ne_none B 1024 _ (by rw [hm]; simp)
    rw [hm] at hmsg
    simp only [Option.some.injEq] at hmsg
    simp only [hm] at hdef ⊢
    cases hB : B.HAVE_EXCEPTIONINFO_MODULE
    · exact ⟨none, by simp [raise_error, hmsg]⟩
    · simp only [hB, if_true] at hdef ⊢
      cases he : format B 100 (function ++ " at " ++ module ++ ":" ++ fmt_lu line) with
      | none => simp [he] at hdef
      | some extra => exact ⟨some extra, by simp [raise_error, hmsg]⟩

theorem magick_error_handler_warning (B : Build) (L : MagickLib) (severity : Int)
    (reason : String) (description : Option String) (module function : String) (line : Nat)
    (h1 : severity ≠ L.UndefinedException) (h2 : ¬ severity > L.WarningException)
    (hdef : (magick_error_handler B L severity reason description module function line).2
      ≠ .overrun) :
    magick_error_handler B L severity reason description module function line =
      ([.rb_warning
          (if B.HAVE_SNPRINTF then
            snprintf 1023 ("RMagick: " ++ reason_description B severity reason description)
           else "RMagick: " ++ reason_description B severity reason description)],
        .returned) := by
  unfold magick_error_handler at hdef ⊢
  simp only [if_neg h2, if_pos h1] at hdef ⊢
  cases hm : format B 1024 ("RMagick: " ++ reason_description B severity reason description) with
  | none => simp [hm] at hdef
  | some msg =>
    have hmsg := format_ne_none B 1024 _ (by rw [hm]; simp)
    rw [hm] at hmsg
    simp only [Option.some.injEq] at hmsg
    simp [hmsg]

theorem handle_error_snprintf_defined (B : Build) (L : MagickLib) (ex : ExceptionInfo)
    (h : B.HAVE_SNPRINTF = true) : (handle_error B L ex).outcome ≠ .overrun := by
  unfold handle_error magick_error_handler format
  simp only [h, if_true]
  split_ifs <;> simp [raise_error]

theorem handle_error_of_undefined (B : Build) (L : MagickLib) (ex : ExceptionInfo)
    (h : ex.severity = L.UndefinedException) :
    handle_error B L ex = { ex := ex, events := [], outcome := .returned } := by
  simp only [handle_error, if_pos h]

theorem handle_error_of_warning (B : Build) (L : MagickLib) (ex : ExceptionInfo)
    (h1 : ex.severity ≠ L.UndefinedException) (h2 : ¬ ex.severity > L.WarningException)
    (hdef : (handle_error B L ex).outcome ≠ .overrun) :
    handle_error B L ex =
      { ex := { L.DestroyExceptionInfo ex with severity := L.UndefinedException },
        events :=
          [.DestroyExceptionInfo,
           .rb_warning
            (if B.HAVE_SNPRINTF then
              snprintf 1023 ("RMagick: " ++ reason_description B ex.severity
                (copy250 ex.reason) (some (copy250 ex.description)))
             else
              "RMagick: " ++ reason_description B ex.severity
                (copy250 ex.reason) (some (copy250 ex.description)))],
        outcome := .returned } := by
  rw [handle_error_of_ne B L ex h1] at hdef ⊢
  rw [magick_error_handler_warning B L _ _ _ _ _ _ h1 h2 hdef]

theorem handle_error_of_error (B : Build) (L : MagickLib) (ex : ExceptionInfo)
    (hK : L.UndefinedException ≤ L.WarningException)
    (hsev : ex.severity > L.WarningException)
    (hdef : (handle_error B L ex).outcome ≠ .overrun) :
    ∃ extra,
      handle_error B L ex =
        { ex := { L.DestroyExceptionInfo ex with severity := L.UndefinedException },
          events := [.DestroyExceptionInfo],
          outcome := .raised (.ImageMagickError
            (if B.HAVE_SNPRINTF then
              snprintf 1023 (reason_description B ex.severity
                (copy250 ex.reason) (some (copy250 ex.description)))
             else
              reason_description B ex.severity
                (copy250 ex.reason) (some (copy250 ex.description))) extra) } := by
  have hne : ex.severity ≠ L.UndefinedException := by omega
  rw [handle_error_of_ne B L ex hne] at hdef ⊢
  obtain ⟨extra, he⟩ := magick_error_handler_error B L _ _ _ _ _ _ hsev hdef
  exact ⟨extra, by rw [he]⟩

/-- The record `errorRecord` has no description, yet the message raised for it
ends in the separator: `handle_error` hands the array `desc`, which is never
`NULL`, to `magick_error_handler`. -/
theorem handle_error_absent_description :
    errorRecord.description = none
      ∧ (handle_error sampleBuild sampleLib errorRecord).outcome =
          .raised (.ImageMagickError "unable to open file: " (some "OpenBlob at blob.c:2480")) :=
  ⟨rfl, by decide⟩

set_option maxRecDepth 100000 in
/-- C3 (counterexample): for a record of the error tier whose reason has 251
characters and whose description is present, the message raised holds only the
first 250 characters of the reason; it is not reason, colon, description. -/
theorem handle_error_long_reason_counterexample :
    (handle_error sampleBuild sampleLib longRecord).outcome =
        .raised (.ImageMagickError (⟨List.replicate 250 'r'⟩ ++ ": no.gif")
          (some "OpenBlob at blob.c:2480"))
      ∧ (⟨List.replicate 250 'r'⟩ ++ ": no.gif" : String) ≠ claimed_message longRecord := by
  constructor
  · rfl
  · decide

/-- C3 (amended): for every record whose severity is above `WarningException`,
`handle_error` raises `ImageMagickError`; when the record has a description the
message is `GET_MSG` of the first 250 characters of the reason, then `": "`,
then `GET_MSG` of the first 250 characters of the description, cut by
`snprintf` to the 1022 characters the message buffer is given. -/
theorem handle_error_error_message (B : Build) (L : MagickLib) (ex : ExceptionInfo)
    (hK : L.UndefinedException ≤ L.WarningException)
    (hsev : ex.severity > L.WarningException)
    (hdef : (handle_error B L ex).outcome ≠ .overrun) :
    ∃ msg extra,
      (handle_error B L ex).outcome = .raised (.ImageMagickError msg extra)
      ∧ ∀ d, ex.description = some d →
          msg =
            if B.HAVE_SNPRINTF then
              snprintf 1023 (B.GET_MSG ex.severity (copy250 ex.reason) ++ ": "
                ++ B.GET_MSG ex.severity (strncpy250 d))
            else
              B.GET_MSG ex.severity (copy250 ex.reason) ++ ": "
                ++ B.GET_MSG ex.severity (strncpy250 d) := by
  have hne : ex.severity ≠ L.UndefinedException := by omega
  rw [handle_error_of_ne B L ex hne] at hdef ⊢
  obtain ⟨extra, he⟩ := magick_error_handler_error B L _ _ _ _ _ _ hsev hdef
  refine ⟨_, extra, by rw [he], ?_⟩
  intro d hd
  simp only [reason_description, hd, copy250]

theorem handle_error_error_message_witness :
    sampleLib.UndefinedException ≤ sampleLib.WarningException
      ∧ describedRecord.severity > sampleLib.WarningException
      ∧ (handle_error sampleBuild sampleLib describedRecord).outcome ≠ .overrun
      ∧ ∃ msg extra,
        (handle_error sampleBuild sampleLib describedRecord).outcome
          = .raised (.ImageMagickError msg extra)
        ∧ ∀ d, describedRecord.description = some d →
            msg =
              if sampleBuild.HAVE_SNPRINTF then
                snprintf 1023 (sampleBuild.GET_MSG describedRecord.severity
                  (copy250 describedRecord.reason) ++ ": "
                  ++ sampleBuild.GET_MSG describedRecord.severity (strncpy250 d))
              else
                sampleBuild.GET_MSG describedRecord.severity (copy250 describedRecord.reason)
                  ++ ": " ++ sampleBuild.GET_MSG describedRecord.severity (strncpy250 d) :=
  ⟨by decide, by decide, by decide,
    handle_error_error_message sampleBuild sampleLib describedRecord (by decide) (by decide)
      (by decide)⟩

/-- C4: for every record whose severity is not `UndefinedException`, the
severity of the record is `UndefinedException` when `handle_error` ends,
whether it ends by returning or by raising. -/
theorem handle_error_resets_severity (B : Build) (L : MagickLib) (ex : ExceptionInfo)
    (h : ex.severity ≠ L.UndefinedException) :
    (handle_error B L ex).ex.severity = L.UndefinedException := by
  rw [handle_error_of_ne B L ex h]

theorem handle_error_resets_severity_witness :
    errorRecord.severity ≠ sampleLib.UndefinedException
      ∧ (handle_error sampleBuild sampleLib errorRecord).ex.severity
          = sampleLib.UndefinedException :=
  ⟨by decide, handle_error_resets_severity sampleBuild sampleLib errorRecord (by decide)⟩

/-- The call made for a record of the warning tier (severity not
`UndefinedException` and not above `WarningException`): `handle_error` releases
the record, resets its severity, calls `rb_warning` exactly once, handing it
`"RMagick: "` followed by the formatted reason and description as its only
argument, raises nothing and returns. -/
theorem handle_error_warning (B : Build) (L : MagickLib) (ex : ExceptionInfo)
    (h1 : ex.severity ≠ L.UndefinedException) (h2 : ¬ ex.severity > L.WarningException)
    (hdef : (handle_error B L ex).outcome ≠ .overrun) :
    handle_error B L ex =
      { ex := { L.DestroyExceptionInfo ex with severity := L.UndefinedException },
        events :=
          [.DestroyExceptionInfo,
           .rb_warning
            (if B.HAVE_SNPRINTF then
              snprintf 1023 ("RMagick: " ++ reason_description B ex.severity
                (copy250 ex.reason) (some (copy250 ex.description)))
             else
              "RMagick: " ++ reason_description B ex.severity
                (copy250 ex.reason) (some (copy250 ex.description)))],
        outcome := .returned } :=
  handle_error_of_warning B L ex h1 h2 hdef

theorem handle_error_warning_witness :
    warningRecord.severity ≠ sampleLib.UndefinedException
      ∧ ¬ warningRecord.severity > sampleLib.WarningException
      ∧ handle_error sampleBuild sampleLib warningRecord =
          { ex := { sampleLib.DestroyExceptionInfo warningRecord with
                      severity := sampleLib.UndefinedException },
            events :=
              [.DestroyExceptionInfo,
               .rb_warning
                (if sampleBuild.HAVE_SNPRINTF then
                  snprintf 1023 ("RMagick: " ++ reason_description sampleBuild
                    warningRecord.severity (copy250 warningRecord.reason)
                    (some (copy250 warningRecord.description)))
                 else
                  "RMagick: " ++ reason_description sampleBuild warningRecord.severity
                    (copy250 warningRecord.reason)
                    (some (copy250 warningRecord.description)))],
            outcome := .returned } :=
  ⟨by decide, by decide,
    handle_error_warning sampleBuild sampleLib warningRecord (by decide) (by decide)
      (by decide)⟩

theorem printf_scan_of_plain (l : List Char) (h : '%' ∉ l) : printf_scan false l = some l := by
  induction l with
  | nil => rfl
  | cons c rest ih =>
    have hc : c ≠ '%' := fun e => h (by simp [e])
    have hr : '%' ∉ rest := fun hm => h (List.mem_cons_of_mem _ hm)
    simp only [printf_scan, if_neg hc, ih hr, Option.map_some']

theorem rb_warning_text_of_plain (fmt : String) (h : '%' ∉ fmt.data) :
    rb_warning_text fmt = some fmt := by
  unfold rb_warning_text
  unfold printf_no_args
  rw [printf_scan_of_plain _ h]
  rfl

/-- C5: `magick_error_handler` hands the message to `rb_warning` as its
format.  For the warning-tier record `percentRecord`, whose description is
`scene%03d.miff`, the one call of `rb_warning` gets the text `"RMagick: "` and
the message, and what it shows is undefined: `%03d` asks for an argument that
was not passed.  For `escapedRecord`, whose description is `50%% gray`, the
warning shows `50% gray`, not the message.  Either call returns. -/
theorem handle_error_warning_is_format :
    (percentRecord.severity ≠ sampleLib.UndefinedException
      ∧ ¬ percentRecord.severity > sampleLib.WarningException)
    ∧ (handle_error sampleBuild sampleLib percentRecord).events
        = [.DestroyExceptionInfo,
           .rb_warning "RMagick: unable to open image: scene%03d.miff"]
    ∧ (handle_error sampleBuild sampleLib percentRecord).outcome = .returned
    ∧ rb_warning_text "RMagick: unable to open image: scene%03d.miff" = none
    ∧ (handle_error sampleBuild sampleLib escapedRecord).events
        = [.DestroyExceptionInfo, .rb_warning "RMagick: unrecognized color: 50%% gray"]
    ∧ (handle_error sampleBuild sampleLib escapedRecord).outcome = .returned
    ∧ rb_warning_text "RMagick: unrecognized color: 50%% gray"
        = some "RMagick: unrecognized color: 50% gray" := by
  decide

/-- C6: for every record whose severity is `UndefinedException`,
`handle_error` does nothing: no event (no release, no warning), the record as
it was, and a normal return. -/
theorem handle_error_undefined_noop (B : Build) (L : MagickLib) (ex : ExceptionInfo)
    (h : ex.severity = L.UndefinedException) :
    handle_error B L ex = { ex := ex, events := [], outcome := .returned } :=
  handle_error_of_undefined B L ex h

theorem handle_error_undefined_noop_witness :
    cleanRecord.severity = sampleLib.UndefinedException
      ∧ handle_error sampleBuild sampleLib cleanRecord
          = { ex := cleanRecord, events := [], outcome := .returned } :=
  ⟨by decide, handle_error_undefined_noop sampleBuild sampleLib cleanRecord (by decide)⟩

/-- C7: with `UndefinedException` not above `WarningException`, `handle_error`
raises exactly when the severity is above `WarningException`; it warns once and
returns exactly when the severity is not `UndefinedException` and at most
`WarningException`; it does nothing exactly when the severity is
`UndefinedException`; the three conditions cover every severity and exclude one
another. -/
theorem handle_error_tiers (B : Build) (L : MagickLib) (ex : ExceptionInfo)
    (hK : L.UndefinedException ≤ L.WarningException)
    (hdef : (handle_error B L ex).outcome ≠ .overrun) :
    ((∃ e, (handle_error B L ex).outcome = .raised e) ↔ ex.severity > L.WarningException)
    ∧ (((∃ msg, (handle_error B L ex).events = [.DestroyExceptionInfo, .rb_warning msg])
          ∧ (handle_error B L ex).outcome = .returned)
        ↔ (ex.severity ≠ L.UndefinedException ∧ ex.severity ≤ L.WarningException))
    ∧ (handle_error B L ex = { ex := ex, events := [], outcome := .returned }
        ↔ ex.severity = L.UndefinedException)
    ∧ (ex.severity > L.WarningException
        ∨ (ex.severity ≠ L.UndefinedException ∧ ex.severity ≤ L.WarningException)
        ∨ ex.severity = L.UndefinedException)
    ∧ ¬ (ex.severity > L.WarningException
          ∧ (ex.severity ≠ L.UndefinedException ∧ ex.severity ≤ L.WarningException))
    ∧ ¬ (ex.severity > L.WarningException ∧ ex.severity = L.UndefinedException)
    ∧ ¬ ((ex.severity ≠ L.UndefinedException ∧ ex.severity ≤ L.WarningException)
          ∧ ex.severity = L.UndefinedException) := by
  by_cases hU : ex.severity = L.UndefinedException
  · have hnW : ¬ ex.severity > L.WarningException := by omega
    rw [handle_error_of_undefined B L ex hU]
    refine ⟨?_, ?_, ?_, ?_, ?_, ?_, ?_⟩
    · simp [hnW]
    · simp [hU]
    · simp [hU]
    · exact Or.inr (Or.inr hU)
    · omega
    · omega
    · exact fun h => h.1.1 hU
  · by_cases hW : ex.severity > L.WarningException
    · rw [handle_error_of_ne B L ex hU] at hdef ⊢
      obtain ⟨extra, he⟩ := magick_error_handler_error B L _ _ _ _ _ _ hW hdef
      rw [he]
      refine ⟨?_, ?_, ?_, ?_, ?_, ?_, ?_⟩
      · simp [hW]
      · simp only [Outcome.returned, reduceCtorEq, and_false, false_iff, not_and, not_le]
        exact fun _ => hW
      · simp [hU]
      · exact Or.inl hW
      · omega
      · omega
      · exact fun h => h.1.1 h.2
    · rw [handle_error_of_warning B L ex hU hW hdef]
      refine ⟨?_, ?_, ?_, ?_, ?_, ?_, ?_⟩
      · simp [hW]
      · simp only [List.cons.injEq, Event.rb_warning.injEq, and_true, true_and, exists_eq',
          true_iff]
        exact ⟨hU, by omega⟩
      · simp [hU]
      · exact Or.inr (Or.inl ⟨hU, by omega⟩)
      · omega
      · omega
      · exact fun h => h.1.1 h.2

theorem handle_error_tiers_witness :
    sampleLib.UndefinedException ≤ sampleLib.WarningException
      ∧ (handle_error sampleBuild sampleLib errorRecord).outcome ≠ .overrun
      ∧ ((∃ e, (handle_error sampleBuild sampleLib errorRecord).outcome = .raised e)
          ↔ errorRecord.severity > sampleLib.WarningException) :=
  ⟨by decide, by decide,
    (handle_error_tiers sampleBuild sampleLib errorRecord (by decide) (by decide)).1⟩

/-! ## The error bridge: sequences -/

theorem Heap.set_same (h : Heap) (p : ImagePtr) (i : Image) : (h.set p i) p = i := by
  simp [Heap.set]

theorem Heap.set_other (h : Heap) (p q : ImagePtr) (i : Image) (hq : q ≠ p) :
    (h.set p i) q = h q := by
  simp [Heap.set, hq]

theorem Linked_congr (h h1 : Heap) (ps : List ImagePtr) (prev cur : Option ImagePtr)
    (hagree : ∀ q ∈ ps, h1 q = h q) (hl : Linked h prev cur ps) : Linked h1 prev cur ps := by
  induction ps generalizing prev cur with
  | nil => exact hl
  | cons p ps ih =>
    obtain ⟨hc, hp, hrest⟩ := hl
    have hpp : h1 p = h p := hagree p (List.mem_cons_self _ _)
    refine ⟨hc, by rw [hpp]; exact hp, ?_⟩
    rw [hpp]
    exact ih _ _ (fun q hq => hagree q (List.mem_cons_of_mem _ hq)) hrest

theorem Linked_unique (h : Heap) (l1 : List ImagePtr) :
    ∀ (l2 : List ImagePtr) (prev1 prev2 cur : Option ImagePtr),
      Linked h prev1 cur l1 → Linked h prev2 cur l2 → l1 = l2 := by
  induction l1 with
  | nil =>
    intro l2 prev1 prev2 cur h1 h2
    have hc : cur = none := h1
    cases l2 with
    | nil => rfl
    | cons p l2 => rw [hc] at h2; exact absurd h2.1 (by simp)
  | cons p l1 ih =>
    intro l2 prev1 prev2 cur h1 h2
    obtain ⟨hc, _, hrest⟩ := h1
    cases l2 with
    | nil =>
      have hn : cur = none := h2
      rw [hn] at hc
      exact absurd hc (by simp)
    | cons p2 l2 =>
      obtain ⟨hc2, _, hrest2⟩ := h2
      have hpp : p2 = p := by
        rw [hc] at hc2
        exact (Option.some.inj hc2).symm
      subst hpp
      rw [ih l2 _ _ _ hrest hrest2]

theorem Linked_after (h : Heap) (a : List ImagePtr) (p : ImagePtr) (c : List ImagePtr) :
    ∀ (prev cur : Option ImagePtr), Linked h prev cur (a ++ p :: c) →
      Linked h (some p) (h p).next c := by
  induction a with
  | nil => intro prev cur hl; exact hl.2.2
  | cons x a ih => intro prev cur hl; exact ih _ _ hl.2.2

theorem Linked_nodup (h : Heap) (ps : List ImagePtr) :
    ∀ (prev cur : Option ImagePtr), Linked h prev cur ps → ps.Nodup := by
  induction ps with
  | nil => intro _ _ _; exact List.nodup_nil
  | cons p ps ih =>
    intro prev cur hl
    obtain ⟨_, _, hrest⟩ := hl
    refine List.nodup_cons.2 ⟨?_, ih _ _ hrest⟩
    intro hmem
    obtain ⟨a, c, hac⟩ := List.append_of_mem hmem
    have hc : Linked h (some p) (h p).next c := by
      rw [hac] at hrest
      exact Linked_after h a p c _ _ hrest
    have hlen := congrArg List.length (Linked_unique h ps c _ _ _ hrest hc)
    rw [hac] at hlen
    simp at hlen
    omega

theorem clear_links_nil (h : Heap) : clear_links h [] = h := by
  funext q
  simp [clear_links]

theorem clear_links_links (h : Heap) (ps : List ImagePtr) (q : ImagePtr) (hq : q ∈ ps) :
    (clear_links h ps q).next = none ∧ (clear_links h ps q).previous = none := by
  simp [clear_links, hq]

theorem clear_links_exception (h : Heap) (ps : List ImagePtr) (q : ImagePtr) :
    (clear_links h ps q).exception = (h q).exception := by
  unfold clear_links
  split <;> rfl

theorem find_badboy_error (L : MagickLib) (h : Heap)
    (hK : L.UndefinedException ≤ L.WarningException) (b : ImagePtr) (ps : List ImagePtr) :
    ∀ (prev cur badboy : Option ImagePtr) (fuel : Nat), Linked h prev cur ps →
      ps.length ≤ fuel →
      ps.find? (fun q => decide ((h q).exception.severity > L.WarningException)) = some b →
      find_badboy L h fuel badboy cur = some (some b) := by
  induction ps with
  | nil => intro prev cur badboy fuel _ _ hf; simp at hf
  | cons p ps ih =>
    intro prev cur badboy fuel hl hfuel hf
    obtain ⟨hc, _, hrest⟩ := hl
    subst hc
    obtain ⟨fuel, rfl⟩ : ∃ f, fuel = f + 1 := ⟨fuel - 1, by simp at hfuel; omega⟩
    have hfuel1 : ps.length ≤ fuel := by simpa using hfuel
    rw [List.find?_cons] at hf
    by_cases hW : (h p).exception.severity > L.WarningException
    · have hU : (h p).exception.severity ≠ L.UndefinedException := by omega
      simp only [hW, decide_True, Option.some.injEq] at hf
      subst hf
      simp only [find_badboy, ne_eq]
      rw [if_pos hU, if_pos hW]
    · simp only [hW, decide_False] at hf
      simp only [find_badboy, hW, if_false, GET_NEXT_IMAGE]
      split_ifs <;> exact ih _ _ _ _ hrest hfuel1 hf

theorem find_badboy_no_error (L : MagickLib) (h : Heap) (ps : List ImagePtr) :
    ∀ (prev cur badboy : Option ImagePtr) (fuel : Nat), Linked h prev cur ps →
      ps.length ≤ fuel →
      (∀ q ∈ ps, ¬ (h q).exception.severity > L.WarningException) →
      find_badboy L h fuel badboy cur =
        some (match badboy with
          | some x => some x
          | none =>
            ps.find? (fun q => decide ((h q).exception.severity ≠ L.UndefinedException))) := by
  induction ps with
  | nil =>
    intro prev cur badboy fuel hl _ _
    have hc : cur = none := hl
    subst hc
    cases fuel <;> cases badboy <;> simp [find_badboy]
  | cons p ps ih =>
    intro prev cur badboy fuel hl hfuel hno
    obtain ⟨hc, _, hrest⟩ := hl
    subst hc
    obtain ⟨fuel, rfl⟩ : ∃ f, fuel = f + 1 := ⟨fuel - 1, by simp at hfuel; omega⟩
    have hfuel1 : ps.length ≤ fuel := by simpa using hfuel
    have hW : ¬ (h p).exception.severity > L.WarningException :=
      hno p (List.mem_cons_self _ _)
    have hno1 : ∀ q ∈ ps, ¬ (h q).exception.severity > L.WarningException :=
      fun q hq => hno q (List.mem_cons_of_mem _ hq)
    rw [List.find?_cons]
    simp only [find_badboy, hW, if_false, GET_NEXT_IMAGE]
    by_cases hU : (h p).exception.severity = L.UndefinedException
    · simp only [hU, ne_eq, not_true_eq_false, if_false, decide_False]
      exact ih _ _ _ _ hrest hfuel1 hno1
    · simp only [hU, ne_eq, not_false_eq_true, if_true, decide_True]
      cases badboy with
      | none => simp only [if_true]; rw [ih _ _ _ _ hrest hfuel1 hno1]
      | some x => simp only [reduceCtorEq, if_false]; rw [ih _ _ _ _ hrest hfuel1 hno1]

theorem Image.clear_eq (i : Image) (hn : i.next = none) (hp : i.previous = none) :
    { i with previous := none, next := none } = i := by
  cases i
  simp_all

theorem Image.clear_next_eq (i : Image) (hp : i.previous = none) :
    { i with next := none } = { i with previous := none, next := none } := by
  cases i
  simp_all

theorem unseq_loop_manual (B : Build) (L : MagickLib)
    (hB : B.HAVE_REMOVEFIRSTIMAGEFROMLIST = false) (ps : List ImagePtr) :
    ∀ (h : Heap) (prev cur : Option ImagePtr) (fuel : Nat), ps.Nodup → Linked h prev cur ps →
      ps.length ≤ fuel → unseq_loop B L fuel h cur = some (clear_links h ps) := by
  induction ps with
  | nil =>
    intro h prev cur fuel _ hl _
    have hc : cur = none := hl
    subst hc
    cases fuel <;> simp [unseq_loop, clear_links_nil]
  | cons p ps ih =>
    intro h prev cur fuel hnd hl hfuel
    obtain ⟨hc, _, hrest⟩ := hl
    subst hc
    obtain ⟨fuel, rfl⟩ : ∃ f, fuel = f + 1 := ⟨fuel - 1, by simp at hfuel; omega⟩
    have hfuel1 : ps.length ≤ fuel := by simpa using hfuel
    have hp : p ∉ ps := (List.nodup_cons.1 hnd).1
    have hnd1 : ps.Nodup := (List.nodup_cons.1 hnd).2
    simp only [unseq_loop, hB, Bool.false_eq_true, if_false, GET_NEXT_IMAGE]
    have hagree : ∀ q ∈ ps,
        (h.set p { h p with previous := none, next := none }) q = h q := by
      intro q hq
      exact Heap.set_other _ _ _ _ (fun e => hp (e ▸ hq))
    rw [ih _ (some p) _ _ hnd1 (Linked_congr h _ ps _ _ hagree hrest) hfuel1]
    congr 1
    funext q
    by_cases hqp : q = p
    · subst hqp
      simp [clear_links, Heap.set, hp]
    · by_cases hq : q ∈ ps
      · simp [clear_links, Heap.set, hqp, hq]
      · simp [clear_links, Heap.set, hqp, hq]

theorem unseq_loop_library (B : Build) (L : MagickLib)
    (hB : B.HAVE_REMOVEFIRSTIMAGEFROMLIST = true) (hL : RemovesFirstImage L)
    (ps : List ImagePtr) :
    ∀ (h : Heap) (cur : Option ImagePtr) (fuel : Nat), ps.Nodup → Linked h none cur ps →
      ps.length ≤ fuel → unseq_loop B L fuel h cur = some (clear_links h ps) := by
  induction ps with
  | nil =>
    intro h cur fuel _ hl _
    have hc : cur = none := hl
    subst hc
    cases fuel <;> simp [unseq_loop, clear_links_nil]
  | cons p ps ih =>
    intro h cur fuel hnd hl hfuel
    obtain ⟨hc, hprev, hrest⟩ := hl
    subst hc
    obtain ⟨fuel, rfl⟩ : ∃ f, fuel = f + 1 := ⟨fuel - 1, by simp at hfuel; omega⟩
    have hfuel1 : ps.length ≤ fuel := by simpa using hfuel
    have hp : p ∉ ps := (List.nodup_cons.1 hnd).1
    have hnd1 : ps.Nodup := (List.nodup_cons.1 hnd).2
    simp only [unseq_loop, hB, if_true, hL h p hprev]
    cases ps with
    | nil =>
      have hn : (h p).next = none := hrest
      simp only [detach_first, hn]
      cases fuel <;> simp only [unseq_loop, Option.some.injEq] <;>
      · funext q
        by_cases hqp : q = p
        · subst hqp
          simp only [clear_links, List.mem_singleton, if_true]
          exact (Image.clear_eq _ hn hprev).symm
        · simp [clear_links, hqp]
    | cons n ps =>
      obtain ⟨hn, hnprev, hrest1⟩ := hrest
      have hnp : n ≠ p := fun e => hp (e ▸ List.mem_cons_self _ _)
      have hn1 : n ∉ ps := (List.nodup_cons.1 hnd1).1
      simp only [detach_first, hn]
      have hagree : ∀ q ∈ ps,
          ((h.set n { h n with previous := none }).set p
            { (h.set n { h n with previous := none }) p with next := none }) q = h q := by
        intro q hq
        have hqp : q ≠ p := fun e => hp (e ▸ List.mem_cons_of_mem _ hq)
        have hqn : q ≠ n := fun e => hn1 (e ▸ hq)
        simp [Heap.set, hqp, hqn]
      have hl1 : Linked ((h.set n { h n with previous := none }).set p
            { (h.set n { h n with previous := none }) p with next := none })
          none (some n) (n :: ps) := by
        refine ⟨rfl, by simp [Heap.set, hnp], ?_⟩
        have hnext : (((h.set n { h n with previous := none }).set p
            { (h.set n { h n with previous := none }) p with next := none }) n).next
            = (h n).next := by simp [Heap.set, hnp]
        rw [hnext]
        exact Linked_congr h _ ps _ _ hagree hrest1
      rw [ih _ _ _ hnd1 hl1 hfuel1]
      congr 1
      funext q
      by_cases hqp : q = p
      · subst hqp
        have hqn : q ≠ n := fun e => hnp e.symm
        simp only [clear_links, hp, if_false, List.mem_cons, true_or, if_true, Heap.set, hqn]
        exact Image.clear_next_eq _ hprev
      · by_cases hqn : q = n
        · subst hqn
          simp [clear_links, Heap.set, hqp]
        · by_cases hq : q ∈ ps
          · simp [clear_links, Heap.set, hqp, hqn, hq]
          · simp [clear_links, Heap.set, hqp, hqn, hq]

theorem unseq_loop_of_IsSeq (B : Build) (L : MagickLib) (hlib : LibraryOk B L)
    (h : Heap) (seq : Option ImagePtr) (ps : List ImagePtr) (fuel : Nat)
    (hseq : IsSeq h seq ps) (hfuel : ps.length ≤ fuel) :
    unseq_loop B L fuel h seq = some (clear_links h ps) := by
  have hnd : ps.Nodup := Linked_nodup h ps none seq hseq
  cases hB : B.HAVE_REMOVEFIRSTIMAGEFROMLIST
  · exact unseq_loop_manual B L hB ps h none seq fuel hnd hseq hfuel
  · exact unseq_loop_library B L hB (hlib hB) ps h seq fuel hnd hseq hfuel

theorem sampleLib_removes : RemovesFirstImage sampleLib := by
  intro h p _
  rfl

theorem find_badboy_clean (L : MagickLib) (h : Heap) (ps : List ImagePtr) :
    ∀ (prev cur badboy : Option ImagePtr) (fuel : Nat), Linked h prev cur ps →
      ps.length ≤ fuel →
      (∀ q ∈ ps, (h q).exception.severity = L.UndefinedException) →
      find_badboy L h fuel badboy cur = some badboy := by
  induction ps with
  | nil =>
    intro prev cur badboy fuel hl _ _
    have hc : cur = none := hl
    subst hc
    cases fuel <;> simp [find_badboy]
  | cons p ps ih =>
    intro prev cur badboy fuel hl hfuel hall
    obtain ⟨hc, _, hrest⟩ := hl
    subst hc
    obtain ⟨fuel, rfl⟩ : ∃ f, fuel = f + 1 := ⟨fuel - 1, by simp at hfuel; omega⟩
    have hfuel1 : ps.length ≤ fuel := by simpa using hfuel
    have hU : (h p).exception.severity = L.UndefinedException :=
      hall p (List.mem_cons_self _ _)
    simp only [find_badboy, hU, ne_eq, not_true_eq_false, if_false, GET_NEXT_IMAGE]
    exact ih _ _ _ _ hrest hfuel1 (fun q hq => hall q (List.mem_cons_of_mem _ hq))

theorem Linked_head_of_mem (h : Heap) (prev cur : Option ImagePtr) (ps : List ImagePtr)
    (b : ImagePtr) (hb : b ∈ ps) (hl : Linked h prev cur ps) : ∃ p, cur = some p := by
  cases ps with
  | nil => simp at hb
  | cons p ps => exact ⟨p, hl.1⟩

/-- C8: in a scene sequence with an image whose severity is above
`WarningException`, `handle_all_errors` picks the first such image `b`, whatever
the records of the images before it; `unseq` clears the `next` and `previous`
links of every image of the sequence; then `handle_error`, applied to the
record of `b` in the unlinked memory, raises `ImageMagickError` with the
message formatted from the reason and description of that record. -/
theorem handle_all_errors_error_tier (B : Build) (L : MagickLib) (h : Heap)
    (seq : Option ImagePtr) (ps : List ImagePtr) (b : ImagePtr) (fuel : Nat)
    (hK : L.UndefinedException ≤ L.WarningException) (hlib : LibraryOk B L)
    (hseq : IsSeq h seq ps) (hfuel : ps.length ≤ fuel)
    (hb : ps.find? (fun q => decide ((h q).exception.severity > L.WarningException)) = some b)
    (hdef : (handle_error B L (h b).exception).outcome ≠ .overrun) :
    unseq B L fuel h seq = some (clear_links h ps, .returned)
    ∧ (∀ q ∈ ps, (clear_links h ps q).next = none ∧ (clear_links h ps q).previous = none)
    ∧ ∃ extra,
        handle_all_errors B L fuel h seq =
          some ((clear_links h ps).set b
                  { clear_links h ps b with
                    exception := { L.DestroyExceptionInfo (h b).exception with
                                   severity := L.UndefinedException } },
                [.DestroyExceptionInfo],
                .raised (.ImageMagickError
                  (if B.HAVE_SNPRINTF then
                    snprintf 1023 (reason_description B (h b).exception.severity
                      (copy250 (h b).exception.reason)
                      (some (copy250 (h b).exception.description)))
                   else
                    reason_description B (h b).exception.severity
                      (copy250 (h b).exception.reason)
                      (some (copy250 (h b).exception.description))) extra)) := by
  have hbW : (h b).exception.severity > L.WarningException := by
    simpa using List.find?_some hb
  have hmem : b ∈ ps := List.mem_of_find?_eq_some hb
  obtain ⟨p, hp⟩ := Linked_head_of_mem h none seq ps b hmem hseq
  have hun : unseq B L fuel h seq = some (clear_links h ps, .returned) := by
    subst hp
    simp only [unseq, unseq_loop_of_IsSeq B L hlib h _ ps fuel hseq hfuel, Option.map_some']
  refine ⟨hun, fun q hq => clear_links_links h ps q hq, ?_⟩
  obtain ⟨extra, he⟩ := handle_error_of_error B L (h b).exception hK hbW hdef
  refine ⟨extra, ?_⟩
  simp only [handle_all_errors, find_badboy_error L h hK b ps none seq none fuel hseq hfuel hb,
    if_pos hbW, hun, clear_links_exception, he]

/-- C9: in a scene sequence in which no image has a severity above
`WarningException` and some image has a severity other than
`UndefinedException`, `handle_all_errors` drains the record of the first such
image `b`: one `rb_warning`, formatted from the record of `b`, nothing raised,
a normal return, and every `next` and `previous` link as before. -/
theorem handle_all_errors_warning_tier (B : Build) (L : MagickLib) (h : Heap)
    (seq : Option ImagePtr) (ps : List ImagePtr) (b : ImagePtr) (fuel : Nat)
    (hseq : IsSeq h seq ps) (hfuel : ps.length ≤ fuel)
    (hno : ∀ q ∈ ps, ¬ (h q).exception.severity > L.WarningException)
    (hb : ps.find? (fun q => decide ((h q).exception.severity ≠ L.UndefinedException))
      = some b)
    (hdef : (handle_error B L (h b).exception).outcome ≠ .overrun) :
    handle_all_errors B L fuel h seq =
      some (h.set b
              { h b with
                exception := { L.DestroyExceptionInfo (h b).exception with
                               severity := L.UndefinedException } },
            [.DestroyExceptionInfo,
             .rb_warning
              (if B.HAVE_SNPRINTF then
                snprintf 1023 ("RMagick: " ++ reason_description B (h b).exception.severity
                  (copy250 (h b).exception.reason)
                  (some (copy250 (h b).exception.description)))
               else
                "RMagick: " ++ reason_description B (h b).exception.severity
                  (copy250 (h b).exception.reason)
                  (some (copy250 (h b).exception.description)))],
            .returned)
    ∧ ∀ q,
        ((h.set b
            { h b with
              exception := { L.DestroyExceptionInfo (h b).exception with
                             severity := L.UndefinedException } }) q).next = (h q).next
        ∧ ((h.set b
            { h b with
              exception := { L.DestroyExceptionInfo (h b).exception with
                             severity := L.UndefinedException } }) q).previous
            = (h q).previous := by
  have hbU : (h b).exception.severity ≠ L.UndefinedException := by
    simpa using List.find?_some hb
  have hmem : b ∈ ps := List.mem_of_find?_eq_some hb
  have hbW : ¬ (h b).exception.severity > L.WarningException := hno b hmem
  constructor
  · simp only [handle_all_errors,
      find_badboy_no_error L h ps none seq none fuel hseq hfuel hno, hb, if_neg hbW,
      handle_error_of_warning B L (h b).exception hbU hbW hdef]
  · intro q
    by_cases hq : q = b
    · subst hq
      simp [Heap.set]
    · simp [Heap.set, hq]

/-- C10: in a scene sequence, the empty one included, in which every image has
severity `UndefinedException`, `handle_all_errors` does nothing: no event,
nothing raised, a normal return, and the memory (links and records) as it
was. -/
theorem handle_all_errors_clean (B : Build) (L : MagickLib) (h : Heap)
    (seq : Option ImagePtr) (ps : List ImagePtr) (fuel : Nat)
    (hseq : IsSeq h seq ps) (hfuel : ps.length ≤ fuel)
    (hall : ∀ q ∈ ps, (h q).exception.severity = L.UndefinedException) :
    handle_all_errors B L fuel h seq = some (h, [], .returned) := by
  simp only [handle_all_errors, find_badboy_clean L h ps none seq none fuel hseq hfuel hall]

theorem handle_all_errors_error_tier_witness :
    sampleLib.UndefinedException ≤ sampleLib.WarningException
    ∧ LibraryOk sampleBuild sampleLib
    ∧ IsSeq errorHeap (some 1) [1, 2, 3, 4, 5]
    ∧ [1, 2, 3, 4, 5].find?
        (fun q => decide ((errorHeap q).exception.severity > sampleLib.WarningException))
        = some 3
    ∧ (handle_error sampleBuild sampleLib (errorHeap 3).exception).outcome ≠ .overrun
    ∧ unseq sampleBuild sampleLib 5 errorHeap (some 1)
        = some (clear_links errorHeap [1, 2, 3, 4, 5], .returned)
    ∧ ∃ extra,
        handle_all_errors sampleBuild sampleLib 5 errorHeap (some 1) =
          some ((clear_links errorHeap [1, 2, 3, 4, 5]).set 3
                  { clear_links errorHeap [1, 2, 3, 4, 5] 3 with
                    exception := { sampleLib.DestroyExceptionInfo (errorHeap 3).exception with
                                   severity := sampleLib.UndefinedException } },
                [.DestroyExceptionInfo],
                .raised (.ImageMagickError "unable to open file: no.gif" extra)) :=
  have w := handle_all_errors_error_tier sampleBuild sampleLib errorHeap (some 1)
    [1, 2, 3, 4, 5] 3 5 (by decide) (fun _ => sampleLib_removes) (by decide) (by decide)
    (by decide) (by decide)
  ⟨by decide, fun _ => sampleLib_removes, by decide, by decide, by decide, w.1, w.2.2⟩

theorem handle_all_errors_warning_tier_witness :
    IsSeq warningHeap (some 1) [1, 2, 3]
    ∧ (∀ q ∈ [1, 2, 3], ¬ (warningHeap q).exception.severity > sampleLib.WarningException)
    ∧ [1, 2, 3].find?
        (fun q => decide ((warningHeap q).exception.severity ≠ sampleLib.UndefinedException))
        = some 2
    ∧ (handle_error sampleBuild sampleLib (warningHeap 2).exception).outcome ≠ .overrun
    ∧ handle_all_errors sampleBuild sampleLib 3 warningHeap (some 1) =
        some (warningHeap.set 2
                { warningHeap 2 with
                  exception := { sampleLib.DestroyExceptionInfo (warningHeap 2).exception with
                                 severity := sampleLib.UndefinedException } },
              [.DestroyExceptionInfo, .rb_warning "RMagick: memory allocation failed: cache"],
              .returned) :=
  ⟨by decide, by decide, by decide, by decide,
    (handle_all_errors_warning_tier sampleBuild sampleLib warningHeap (some 1) [1, 2, 3] 2 3
      (by decide) (by decide) (by decide) (by decide) (by decide)).1⟩

theorem handle_all_errors_clean_witness :
    IsSeq cleanHeap (some 1) [1, 2]
    ∧ (∀ q ∈ [1, 2], (cleanHeap q).exception.severity = sampleLib.UndefinedException)
    ∧ handle_all_errors sampleBuild sampleLib 2 cleanHeap (some 1)
        = some (cleanHeap, [], .returned) :=
  ⟨by decide, by decide,
    handle_all_errors_clean sampleBuild sampleLib cleanHeap (some 1) [1, 2] 2
      (by decide) (by decide) (by decide)⟩

/-! ## The error bridge: copies, location and tiers -/

theorem strncpy250_data (s : String) : (strncpy250 s).data = s.data.take 250 := rfl

theorem strncpy250_of_short (s : String) (h : s.length ≤ 250) : strncpy250 s = s := by
  cases s with
  | mk l =>
    simp only [strncpy250]
    rw [List.take_of_length_le h]

theorem snprintf_of_short (n : Nat) (text : String) (h : text.length ≤ n - 1) :
    snprintf n text = text := by
  cases text with
  | mk l =>
    simp only [snprintf]
    rw [List.take_of_length_le h]

theorem copy250_spec (field : Option String) :
    (copy250 field).length ≤ 250
    ∧ (field = none → copy250 field = "")
    ∧ ∀ s, field = some s →
        (copy250 field).data = s.data.take (min s.length 250)
        ∧ (copy250 field).length = min s.length 250
        ∧ (s.length ≤ 250 → copy250 field = s) := by
  cases field with
  | none =>
    refine ⟨by simp [copy250], fun _ => rfl, ?_⟩
    intro s hs
    cases hs
  | some t =>
    refine ⟨?_, fun h => (by cases h), ?_⟩
    · simp only [copy250, strncpy250, String.length, List.length_take]
      exact Nat.min_le_left _ _
    · intro s hs
      cases hs
      refine ⟨?_, ?_, fun h => strncpy250_of_short _ h⟩
      · simp only [copy250, strncpy250, String.length]
        rw [List.take_eq_take]
        simp [Nat.min_comm]
      · simp only [copy250, strncpy250, String.length, List.length_take]
        exact Nat.min_comm _ _

theorem magick_error_handler_located (B : Build) (L : MagickLib) (severity : Int)
    (reason : String) (description : Option String) (module function : String) (line : Nat)
    (hsev : severity > L.WarningException) (hmod : B.HAVE_EXCEPTIONINFO_MODULE = true)
    (hdef : (magick_error_handler B L severity reason description module function line).2
      ≠ .overrun) :
    magick_error_handler B L severity reason description module function line =
      ([], .raised (.ImageMagickError
        (if B.HAVE_SNPRINTF then
          snprintf 1023 (reason_description B severity reason description)
         else reason_description B severity reason description)
        (some (if B.HAVE_SNPRINTF then
          snprintf 99 (function ++ " at " ++ module ++ ":" ++ fmt_lu line)
         else function ++ " at " ++ module ++ ":" ++ fmt_lu line)))) := by
  unfold magick_error_handler at hdef ⊢
  simp only [if_pos hsev, hmod, if_true] at hdef ⊢
  cases hm : format B 1024 (reason_description B severity reason description) with
  | none => simp [hm] at hdef
  | some msg =>
    have hmsg := format_ne_none B 1024 _ (by rw [hm]; simp)
    rw [hm] at hmsg
    simp only [Option.some.injEq] at hmsg
    simp only [hm] at hdef ⊢
    cases he : format B 100 (function ++ " at " ++ module ++ ":" ++ fmt_lu line) with
    | none => simp [he] at hdef
    | some extra =>
      have hextra := format_ne_none B 100 _ (by rw [he]; simp)
      rw [he] at hextra
      simp only [Option.some.injEq] at hextra
      simp only [raise_error, hmsg, hextra]

/-- C11: for every record whose severity is not `UndefinedException`, the
texts `handle_error` hands to `magick_error_handler` are the bounded copies of
the reason, description, module and function fields; each copy has at most
250 characters (so it ends inside its 251-byte array), is empty for an absent
field, is the first `min n 250` characters of a field of length `n`, and is the
field itself when the field has at most 250 characters. -/
theorem handle_error_passes_bounded_copies (B : Build) (L : MagickLib) (ex : ExceptionInfo)
    (h : ex.severity ≠ L.UndefinedException) :
    (handle_error B L ex).events =
        .DestroyExceptionInfo ::
          (magick_error_handler B L ex.severity (copy250 ex.reason)
            (some (copy250 ex.description)) (copy250 ex.module) (copy250 ex.function)
            ex.line).1
    ∧ (handle_error B L ex).outcome =
        (magick_error_handler B L ex.severity (copy250 ex.reason)
          (some (copy250 ex.description)) (copy250 ex.module) (copy250 ex.function)
          ex.line).2
    ∧ ∀ field ∈ [ex.reason, ex.description, ex.module, ex.function],
        (copy250 field).length ≤ 250
        ∧ (field = none → copy250 field = "")
        ∧ ∀ s, field = some s →
            (copy250 field).data = s.data.take (min s.length 250)
            ∧ (copy250 field).length = min s.length 250
            ∧ (s.length ≤ 250 → copy250 field = s) := by
  rw [handle_error_of_ne B L ex h]
  exact ⟨rfl, rfl, fun field _ => copy250_spec field⟩

theorem handle_error_passes_bounded_copies_witness :
    longRecord.severity ≠ sampleLib.UndefinedException
    ∧ ∀ field ∈ [longRecord.reason, longRecord.description, longRecord.module,
          longRecord.function],
        (copy250 field).length ≤ 250
        ∧ (field = none → copy250 field = "")
        ∧ ∀ s, field = some s →
            (copy250 field).data = s.data.take (min s.length 250)
            ∧ (copy250 field).length = min s.length 250
            ∧ (s.length ≤ 250 → copy250 field = s) :=
  ⟨by decide,
    (handle_error_passes_bounded_copies sampleBuild sampleLib longRecord (by decide)).2.2⟩

set_option maxRecDepth 100000 in
/-- C12 (counterexample): for a record of the error tier whose function name
has 120 characters, the location attached to the raised error is the first 98
characters of "function at module:line", not that text. -/
theorem handle_error_long_function_counterexample :
    (handle_error sampleBuild sampleLib longFunctionRecord).outcome =
        .raised (.ImageMagickError "unable to open file: no.gif"
          (some ⟨List.replicate 98 'f'⟩))
      ∧ (⟨List.replicate 98 'f'⟩ : String) ≠ claimed_location longFunctionRecord := by
  constructor
  · rfl
  · decide

/-- C12 (amended): for every record whose severity is above `WarningException`,
in a build with `HAVE_EXCEPTIONINFO_MODULE`, the error `handle_error` raises
carries as location the text "function at module:line" made from the bounded
copies of function and module, cut by `snprintf` to the 98 characters the
location buffer is given; when function and module have at most 250 characters
and that text at most 98, the location is exactly "function at module:line"
with the fields of the record. -/
theorem handle_error_location (B : Build) (L : MagickLib) (ex : ExceptionInfo)
    (hK : L.UndefinedException ≤ L.WarningException)
    (hsev : ex.severity > L.WarningException)
    (hmod : B.HAVE_EXCEPTIONINFO_MODULE = true)
    (hdef : (handle_error B L ex).outcome ≠ .overrun) :
    ∃ msg,
      (handle_error B L ex).outcome =
        .raised (.ImageMagickError msg
          (some (if B.HAVE_SNPRINTF then
            snprintf 99 (copy250 ex.function ++ " at " ++ copy250 ex.module ++ ":"
              ++ fmt_lu ex.line)
           else
            copy250 ex.function ++ " at " ++ copy250 ex.module ++ ":" ++ fmt_lu ex.line)))
      ∧ ∀ f m, ex.function = some f → ex.module = some m →
          f.length ≤ 250 → m.length ≤ 250 →
          (f ++ " at " ++ m ++ ":" ++ fmt_lu ex.line).length ≤ 98 →
          (handle_error B L ex).outcome =
            .raised (.ImageMagickError msg (some (f ++ " at " ++ m ++ ":" ++ fmt_lu ex.line))) := by
  have hne : ex.severity ≠ L.UndefinedException := by omega
  rw [handle_error_of_ne B L ex hne] at hdef ⊢
  rw [magick_error_handler_located B L _ _ _ _ _ _ hsev hmod hdef]
  refine ⟨_, rfl, ?_⟩
  intro f m hf hm hfl hml hlen
  have hcf : copy250 ex.function = f := by rw [hf]; exact strncpy250_of_short f hfl
  have hcm : copy250 ex.module = m := by rw [hm]; exact strncpy250_of_short m hml
  rw [hcf, hcm, snprintf_of_short 99 _ hlen]
  simp

theorem handle_error_location_witness :
    sampleLib.UndefinedException ≤ sampleLib.WarningException
    ∧ describedRecord.severity > sampleLib.WarningException
    ∧ sampleBuild.HAVE_EXCEPTIONINFO_MODULE = true
    ∧ (handle_error sampleBuild sampleLib describedRecord).outcome ≠ .overrun
    ∧ ∃ msg,
        (handle_error sampleBuild sampleLib describedRecord).outcome =
          .raised (.ImageMagickError msg (some "OpenBlob at blob.c:2480")) :=
  let ⟨msg, h, _⟩ := handle_error_location sampleBuild sampleLib describedRecord (by decide)
    (by decide) (by decide) (by decide)
  ⟨by decide, by decide, by decide, by decide, msg, h⟩

/-- C13 (the code at the failing input): the record `typeWarningRecord` has
the warning code 305, at least `WarningException` and below `ErrorException`;
`handle_error` issues no warning for it and raises `ImageMagickError`. -/
theorem handle_error_warning_code_raises :
    sampleLib.WarningException ≤ typeWarningRecord.severity
    ∧ typeWarningRecord.severity < sampleErrorException
    ∧ (handle_error sampleBuild sampleLib typeWarningRecord).events = [.DestroyExceptionInfo]
    ∧ (handle_error sampleBuild sampleLib typeWarningRecord).outcome =
        .raised (.ImageMagickError "unable to read font: helvetica"
          (some "RenderType at annotate.c:120")) := by
  decide

/-! ## Structure converters: round trips -/

theorem swrap_eq (n : Nat) (i : Int) (hn : 1 ≤ n)
    (h : -(2 ^ (n - 1)) ≤ i ∧ i < 2 ^ (n - 1)) : swrap n i = i := by
  unfold swrap
  have hp : (2 : Int) ^ n = 2 * 2 ^ (n - 1) := by
    obtain ⟨k, rfl⟩ : ∃ k, n = k + 1 := ⟨n - 1, by omega⟩
    simp [pow_succ, mul_comm]
  rw [Int.emod_eq_of_lt (by omega) (by omega)]
  omega

theorem INT2FIX_of_FIXABLE (H : Host) (i : Int) (hw : 32 ≤ H.LONG_BIT) (h : FIXABLE H i) :
    INT2FIX H i = .Integer i := by
  unfold INT2FIX
  have h2 : H.LONG_BIT - 1 - 1 = H.LONG_BIT - 2 := by omega
  rw [swrap_eq (H.LONG_BIT - 1) i (by omega) (by rw [h2]; exact h)]

theorem to_long_of_LONG_P (H : Host) (i : Int) (hw : 32 ≤ H.LONG_BIT) (h : LONG_P H i) :
    to_long H i = i :=
  swrap_eq H.LONG_BIT i (by omega) h

theorem to_ulong_of_lt (H : Host) (n : Nat) (h : n < 2 ^ H.LONG_BIT) : to_ulong H n = n := by
  unfold to_ulong
  have h1 : ((n : Int)) < 2 ^ H.LONG_BIT := by exact_mod_cast h
  rw [Int.emod_eq_of_lt (by omega) h1]
  simp

theorem to_Quantum_of_lt (H : Host) (n : Nat) (h : n < 2 ^ H.QuantumDepth) :
    to_Quantum H n = n := by
  unfold to_Quantum
  have h1 : ((n : Int)) < 2 ^ H.QuantumDepth := by exact_mod_cast h
  rw [Int.emod_eq_of_lt (by omega) h1]
  simp

theorem pow_le_pow_two (a b : Nat) (h : a ≤ b) : (2 : Int) ^ a ≤ 2 ^ b := by
  exact_mod_cast Nat.pow_le_pow_right (by decide : 0 < 2) h

theorem Struct_to_AffineMatrix_round (H : Host) (out am : AffineMatrix) :
    Struct_to_AffineMatrix H out (AffineMatrix_to_Struct am)
      = ({ am with ty := am.tx }, .returned) := by
  simp [Struct_to_AffineMatrix, AffineMatrix_to_Struct, new_ID, CLASS_OF, values_ID,
    rb_ary_entry, rb_float_new, nil_or, NUM2DBL, store]

/-- C14 (the code at the failing input): converting the matrix
`[sx, rx, ry, sy, tx, ty] = [1, 0, 0, 1, 2, 3]` to a `Magick::AffineMatrix`
and back yields `ty = 2`, the value of `tx`, not `3`. -/
theorem Struct_to_AffineMatrix_loses_ty :
    Struct_to_AffineMatrix sampleHost { sx := 0, rx := 0, ry := 0, sy := 0, tx := 0, ty := 0 }
        (AffineMatrix_to_Struct sampleAffine)
      = ({ sx := 1, rx := 0, ry := 0, sy := 1, tx := 2, ty := 2 }, .returned)
    ∧ sampleAffine.ty = 3 := by
  decide

/-- C15 (the code at the failing input): converting `sampleMetric`, whose
underline position is -2 and underline thickness 1, to a `Magick::TypeMetric`
and back yields underline thickness -2. -/
theorem Struct_to_TypeMetric_loses_thickness :
    (TypeMetric_to_Struct sampleHost sampleMetric).map
        (Struct_to_TypeMetric sampleHost
          { pixels_per_em := { x := 0, y := 0 }, ascent := 0, descent := 0, width := 0,
            height := 0, max_advance := 0, bounds := { x1 := 0, y1 := 0, x2 := 0, y2 := 0 },
            underline_position := 0, underline_thickness := 0 })
      = some ({ sampleMetric with underline_thickness := -2 }, .returned)
    ∧ sampleMetric.underline_thickness = 1 := by
  decide

/-- C16 (the code at the failing input): converting the primary
`(0.625, 0.3125, 0.0625)` to a `Magick::Primary` and back yields
`(0, 0, 0)`. -/
theorem Struct_to_PrimaryInfo_loses_fraction :
    (PrimaryInfo_to_Struct sampleHost samplePrimary).map
        (Struct_to_PrimaryInfo sampleHost { x := 1, y := 1, z := 1 })
      = some ({ x := 0, y := 0, z := 0 }, .returned)
    ∧ samplePrimary ≠ { x := 0, y := 0, z := 0 } := by
  decide

theorem FIXABLE_of_lt_pow (H : Host) (n : Nat) (k : Nat) (hw : 32 ≤ H.LONG_BIT)
    (hk : k ≤ 30) (h : n < 2 ^ k) : FIXABLE H (n : Int) ∧ INT_P (n : Int) := by
  have h1 : ((n : Int)) < 2 ^ k := by exact_mod_cast h
  have h2 : (2 : Int) ^ k ≤ 2 ^ 30 := pow_le_pow_two k 30 hk
  have h3 : (2 : Int) ^ 30 ≤ 2 ^ (H.LONG_BIT - 2) := pow_le_pow_two 30 _ (by omega)
  have h4 : (0 : Int) < 2 ^ (H.LONG_BIT - 2) := by positivity
  refine ⟨⟨by omega, by omega⟩, ⟨by omega, ?_⟩⟩
  have : (2 : Int) ^ 30 ≤ 2 ^ 31 := by norm_num
  omega

theorem NUM2INT_INT2FIX (H : Host) (n k : Nat) (hw : 32 ≤ H.LONG_BIT) (hk : k ≤ 30)
    (h : n < 2 ^ k) : NUM2INT H (INT2FIX H (n : Int)) = .ok (n : Int) := by
  obtain ⟨hf, hi⟩ := FIXABLE_of_lt_pow H n k hw hk h
  rw [INT2FIX_of_FIXABLE H _ hw hf]
  simp only [NUM2INT, if_pos hi]

/-- C17 (the claim as worded fails here): with a `long` of 32 bits and a
library built with `QuantumDepth` 32, the red channel 1073741824 is a `Quantum`
value, but `INT2FIX` drops its top bit and the pixel comes back with red
3221225472. -/
theorem Struct_to_PixelPacket_deep_counterexample :
    1073741824 < 2 ^ deepHost.QuantumDepth
    ∧ Struct_to_PixelPacket deepHost samplePixel
        (PixelPacket_to_Struct deepHost
          { red := 1073741824, green := 0, blue := 0, opacity := 0 })
      = ({ red := 3221225472, green := 0, blue := 0, opacity := 0 }, .returned) := by
  decide

/-- C17 (amended): on a host whose `long` has at least 32 bits and with a `QuantumDepth`
of at most 30 (8 and 16 are the depths the file reckons with), converting a
`PixelPacket` whose four channels are `Quantum` values, from 0 to the largest,
to a `Magick::Pixel` and back returns without raising and yields the same four
channels. -/
theorem Struct_to_PixelPacket_round_trip (H : Host) (out pp : PixelPacket)
    (hw : 32 ≤ H.LONG_BIT) (hq : H.QuantumDepth ≤ 30)
    (hr : pp.red < 2 ^ H.QuantumDepth) (hg : pp.green < 2 ^ H.QuantumDepth)
    (hb : pp.blue < 2 ^ H.QuantumDepth) (ho : pp.opacity < 2 ^ H.QuantumDepth) :
    Struct_to_PixelPacket H out (PixelPacket_to_Struct H pp) = (pp, .returned) := by
  simp only [Struct_to_PixelPacket, PixelPacket_to_Struct, new_ID, CLASS_OF, values_ID,
    rb_ary_entry, ne_eq, not_true_eq_false, if_false, List.getD_cons_zero,
    List.getD_cons_succ]
  have e1 := NUM2INT_INT2FIX H pp.red _ hw hq hr
  have e2 := NUM2INT_INT2FIX H pp.green _ hw hq hg
  have e3 := NUM2INT_INT2FIX H pp.blue _ hw hq hb
  have e4 := NUM2INT_INT2FIX H pp.opacity _ hw hq ho
  simp only [INT2FIX] at e1 e2 e3 e4 ⊢
  simp only [nil_or, e1, e2, e3, e4, store, to_Quantum_of_lt H _ hr, to_Quantum_of_lt H _ hg,
    to_Quantum_of_lt H _ hb, to_Quantum_of_lt H _ ho]

theorem Struct_to_PixelPacket_round_trip_witness :
    32 ≤ sampleHost.LONG_BIT ∧ sampleHost.QuantumDepth ≤ 30
    ∧ samplePixel.red < 2 ^ sampleHost.QuantumDepth
    ∧ samplePixel.green < 2 ^ sampleHost.QuantumDepth
    ∧ samplePixel.blue < 2 ^ sampleHost.QuantumDepth
    ∧ samplePixel.opacity < 2 ^ sampleHost.QuantumDepth
    ∧ Struct_to_PixelPacket sampleHost { red := 1, green := 1, blue := 1, opacity := 1 }
        (PixelPacket_to_Struct sampleHost samplePixel) = (samplePixel, .returned) :=
  ⟨by decide, by decide, by decide, by decide, by decide, by decide,
    Struct_to_PixelPacket_round_trip sampleHost _ samplePixel (by decide) (by decide)
      (by decide) (by decide) (by decide) (by decide)⟩

theorem NUM2ULONG_UINT2NUM (H : Host) (n : Nat) (h : n < 2 ^ H.LONG_BIT) :
    NUM2ULONG H (UINT2NUM H n) = .ok n := by
  have h1 : ((n : Int)) < 2 ^ H.LONG_BIT := by exact_mod_cast h
  simp only [UINT2NUM, to_ulong_of_lt H n h, NUM2ULONG]
  rw [if_pos ⟨by omega, h1⟩]
  simp

theorem NUM2LONG_INT2NUM (H : Host) (i : Int) (hw : 32 ≤ H.LONG_BIT) (h : LONG_P H i) :
    NUM2LONG H (INT2NUM H i) = .ok i := by
  simp only [INT2NUM, to_long_of_LONG_P H i hw h, NUM2LONG, if_pos h]

/-- C18: on a host whose `long` has at least 32 bits, converting a
`RectangleInfo` whose width and height are any `unsigned long` values, 0 and
the largest included, and whose x and y are any `long` values, the smallest
and the largest included, to a `Magick::Rectangle` and back returns without
raising and yields the same width, height, x and y. -/
theorem Struct_to_RectangleInfo_round_trip (H : Host) (out r : RectangleInfo)
    (hw : 32 ≤ H.LONG_BIT)
    (hwidth : r.width < 2 ^ H.LONG_BIT) (hheight : r.height < 2 ^ H.LONG_BIT)
    (hx : LONG_P H r.x) (hy : LONG_P H r.y) :
    Struct_to_RectangleInfo H out (RectangleInfo_to_Struct H r) = (r, .returned) := by
  simp only [Struct_to_RectangleInfo, RectangleInfo_to_Struct, new_ID, CLASS_OF, values_ID,
    rb_ary_entry, ne_eq, not_true_eq_false, if_false, List.getD_cons_zero,
    List.getD_cons_succ]
  have e1 := NUM2ULONG_UINT2NUM H r.width hwidth
  have e2 := NUM2ULONG_UINT2NUM H r.height hheight
  have e3 := NUM2LONG_INT2NUM H r.x hw hx
  have e4 := NUM2LONG_INT2NUM H r.y hw hy
  simp only [UINT2NUM, INT2NUM] at e1 e2 e3 e4 ⊢
  simp only [nil_or, e1, e2, e3, e4, store]

theorem Struct_to_RectangleInfo_round_trip_witness :
    32 ≤ sampleHost.LONG_BIT
    ∧ sampleRectangle.width < 2 ^ sampleHost.LONG_BIT
    ∧ sampleRectangle.width + 1 = 2 ^ sampleHost.LONG_BIT
    ∧ sampleRectangle.height < 2 ^ sampleHost.LONG_BIT
    ∧ LONG_P sampleHost sampleRectangle.x ∧ ¬ LONG_P sampleHost (sampleRectangle.x - 1)
    ∧ LONG_P sampleHost sampleRectangle.y ∧ ¬ LONG_P sampleHost (sampleRectangle.y + 1)
    ∧ Struct_to_RectangleInfo sampleHost { width := 1, height := 1, x := 1, y := 1 }
        (RectangleInfo_to_Struct sampleHost sampleRectangle) = (sampleRectangle, .returned) :=
  ⟨by decide, by decide, by decide, by decide, by decide, by decide, by decide, by decide,
    Struct_to_RectangleInfo_round_trip sampleHost _ sampleRectangle (by decide) (by decide)
      (by decide) (by decide) (by decide)⟩

/-! ## Structure converters: fonts and absent members -/

/-- C19 (counterexample): the font `heavyFont` has weight 2147483648; after
the conversion to a `Magick::Font` and back on `sampleHost` the weight is
18446744071562067968: `FIX2INT` delivers an `int`. -/
theorem Struct_to_TypeInfo_weight_counterexample :
    (TypeInfo_to_Struct sampleHost heavyFont).toOption.map
        (Struct_to_TypeInfo sampleHost sampleFont)
      = some ({ heavyFont with weight := 18446744071562067968, other := [0] }, .returned)
    ∧ heavyFont.weight = 2147483648 := by
  decide

theorem FIX2INT_INT2FIX (H : Host) (i : Int) (hw : 32 ≤ H.LONG_BIT)
    (h : FIXABLE H i ∧ INT_P i) : FIX2INT H (INT2FIX H i) = .ok i := by
  rw [INT2FIX_of_FIXABLE H i hw h.1]
  simp only [FIX2INT, if_pos h]

theorem FIX2INT_INT2NUM (H : Host) (n : Nat) (hw : 32 ≤ H.LONG_BIT)
    (h : FIXABLE H (n : Int) ∧ INT_P (n : Int)) :
    FIX2INT H (INT2NUM H (n : Int)) = .ok (n : Int) ∧ to_ulong H (n : Int) = n := by
  have h3 : (2 : Int) ^ (H.LONG_BIT - 2) ≤ 2 ^ (H.LONG_BIT - 1) :=
    pow_le_pow_two _ _ (by omega)
  have h4 : (2 : Int) ^ (H.LONG_BIT - 1) ≤ 2 ^ H.LONG_BIT := pow_le_pow_two _ _ (by omega)
  have hl : LONG_P H (n : Int) := ⟨by have := h.1.1; omega, by have := h.1.2; omega⟩
  refine ⟨?_, ?_⟩
  · simp only [INT2NUM, to_long_of_LONG_P H _ hw hl, FIX2INT, if_pos h]
  · apply to_ulong_of_lt
    have := h.1.2
    have h5 : ((n : Int)) < 2 ^ H.LONG_BIT := by omega
    exact_mod_cast h5

/-- C19 (amended): on a host whose `long` has at least 32 bits, for every
`TypeInfo` whose name, description and family are present, whose style,
stretch and weight are numbers that a `Fixnum` and an `int` hold, and whose
encoding, foundry and format are each present or absent, the conversion to a
`Magick::Font` and back returns without raising and yields the same name,
description, family, style, stretch and weight; encoding, foundry and format
are absent exactly when they were absent and otherwise the same text; every
other member of the result is zero. -/
theorem Struct_to_TypeInfo_round_trip (H : Host) (out ti : TypeInfo)
    (hw : 32 ≤ H.LONG_BIT)
    (hname : ti.name ≠ none) (hdescription : ti.description ≠ none)
    (hfamily : ti.family ≠ none)
    (hstyle : FIXABLE H ti.style ∧ INT_P ti.style)
    (hstretch : FIXABLE H ti.stretch ∧ INT_P ti.stretch)
    (hweight : FIXABLE H (ti.weight : Int) ∧ INT_P (ti.weight : Int)) :
    ∃ st, TypeInfo_to_Struct H ti = .ok st
      ∧ Struct_to_TypeInfo H out st
          = ({ ti with other := List.replicate out.other.length 0 }, .returned) := by
  obtain ⟨name, description, family, style, stretch, weight, encoding, foundry, format,
    other⟩ := ti
  cases name with
  | none => exact absurd rfl hname
  | some name =>
  cases description with
  | none => exact absurd rfl hdescription
  | some description =>
  cases family with
  | none => exact absurd rfl hfamily
  | some family =>
  have e1 := FIX2INT_INT2FIX H style hw hstyle
  have e2 := FIX2INT_INT2FIX H stretch hw hstretch
  obtain ⟨e3, e4⟩ := FIX2INT_INT2NUM H weight hw hweight
  simp only [INT2FIX, INT2NUM] at e1 e2 e3
  cases encoding <;> cases foundry <;> cases format <;>
    exact ⟨_, rfl, by
      simp only [Struct_to_TypeInfo, new_ID, CLASS_OF, values_ID, rb_ary_entry, ne_eq,
        not_true_eq_false, if_false, List.getD_cons_zero, List.getD_cons_succ,
        TypeInfo.memset, clone_unless_nil, nil_or, STRING_PTR, Except.map, store,
        INT2FIX, INT2NUM, e1, e2, e3, e4]⟩

theorem Struct_to_TypeInfo_round_trip_witness :
    32 ≤ sampleHost.LONG_BIT
    ∧ sampleFont.name ≠ none ∧ sampleFont.description ≠ none ∧ sampleFont.family ≠ none
    ∧ (FIXABLE sampleHost sampleFont.style ∧ INT_P sampleFont.style)
    ∧ (FIXABLE sampleHost sampleFont.stretch ∧ INT_P sampleFont.stretch)
    ∧ (FIXABLE sampleHost (sampleFont.weight : Int) ∧ INT_P (sampleFont.weight : Int))
    ∧ ∃ st, TypeInfo_to_Struct sampleHost sampleFont = .ok st
        ∧ Struct_to_TypeInfo sampleHost heavyFont st
            = ({ sampleFont with other := List.replicate heavyFont.other.length 0 },
               .returned) :=
  ⟨by decide, by decide, by decide, by decide, by decide, by decide, by decide,
    Struct_to_TypeInfo_round_trip sampleHost heavyFont sampleFont (by decide) (by decide)
      (by decide) (by decide) (by decide) (by decide) (by decide)⟩

theorem nil_or_ok {α : Type} (m : VALUE) (dflt : α) (conv : VALUE → Except RubyException α)
    (h : NilOrConverts conv m) :
    ∃ a, nil_or m dflt conv = .ok a ∧ (m = .Qnil → a = dflt) := by
  by_cases hm : m = .Qnil
  · subst hm
    exact ⟨dflt, rfl, fun _ => rfl⟩
  · rcases h with h | ⟨a, ha⟩
    · exact absurd h hm
    · refine ⟨a, ?_, fun e => absurd e hm⟩
      cases m <;> first | exact absurd rfl hm | exact ha

theorem Struct_to_PointInfo_defaults (H : Host) (out : PointInfo) (pm : List VALUE)
    (hpm : ∀ j ∈ [0, 1], NilOrConverts (FIX2INT H) (rb_ary_entry pm j)) :
    ∃ p, Struct_to_PointInfo H out (.Object .Class_Point pm) = (p, .returned)
      ∧ (rb_ary_entry pm 0 = .Qnil → p.x = 0)
      ∧ (rb_ary_entry pm 1 = .Qnil → p.y = 0) := by
  obtain ⟨a0, e0, d0⟩ := nil_or_ok _ (0 : Int) _ (hpm 0 (by simp))
  obtain ⟨a1, e1, d1⟩ := nil_or_ok _ (0 : Int) _ (hpm 1 (by simp))
  refine ⟨{ x := (a0 : ℚ), y := (a1 : ℚ) }, ?_, ?_, ?_⟩
  · simp only [Struct_to_PointInfo, CLASS_OF, values_ID, ne_eq, not_true_eq_false, if_false,
      e0, e1, store]
  · intro h; simp [d0 h]
  · intro h; simp [d1 h]

theorem Struct_to_SegmentInfo_defaults (H : Host) (out : SegmentInfo) (sm : List VALUE)
    (hsm : ∀ j ∈ [0, 1, 2, 3], NilOrConverts (NUM2DBL H) (rb_ary_entry sm j)) :
    ∃ s, Struct_to_SegmentInfo H out (.Object .Class_Segment sm) = (s, .returned)
      ∧ (rb_ary_entry sm 0 = .Qnil → s.x1 = 0)
      ∧ (rb_ary_entry sm 1 = .Qnil → s.y1 = 0)
      ∧ (rb_ary_entry sm 2 = .Qnil → s.x2 = 0)
      ∧ (rb_ary_entry sm 3 = .Qnil → s.y2 = 0) := by
  obtain ⟨a0, e0, d0⟩ := nil_or_ok _ (0 : ℚ) _ (hsm 0 (by simp))
  obtain ⟨a1, e1, d1⟩ := nil_or_ok _ (0 : ℚ) _ (hsm 1 (by simp))
  obtain ⟨a2, e2, d2⟩ := nil_or_ok _ (0 : ℚ) _ (hsm 2 (by simp))
  obtain ⟨a3, e3, d3⟩ := nil_or_ok _ (0 : ℚ) _ (hsm 3 (by simp))
  refine ⟨{ x1 := a0, y1 := a1, x2 := a2, y2 := a3 }, ?_, d0, d1, d2, d3⟩
  simp only [Struct_to_SegmentInfo, CLASS_OF, values_ID, ne_eq, not_true_eq_false, if_false,
    e0, e1, e2, e3, store]

/-- C20 (the code at the failing input): for a `Magick::TypeMetric` object
none of whose members is set, `Struct_to_TypeMetric` writes nothing and raises
`TypeError`: the `nil` member `pixels_per_em` is handed to
`Struct_to_PointInfo`, whose class test refuses it. -/
theorem Struct_to_TypeMetric_nil_point_raises :
    Struct_to_TypeMetric sampleHost sampleMetric emptyMetric
      = (sampleMetric, .raised (.rb_eTypeError "type mismatch: NilClass given")) := by
  decide

/-- Absent members as defaults, as far as the code goes: for every
`Magick::TypeMetric` object whose member
`pixels_per_em` is a `Magick::Point` and whose member `bounds` is a
`Magick::Segment`, and in which each of the other seven members and each
member of the point and of the segment is `nil` or a value its conversion macro
accepts, `Struct_to_TypeMetric` returns without raising, and every field whose
member is `nil` is zero. -/
theorem Struct_to_TypeMetric_defaults (H : Host) (out : TypeMetric)
    (members pm sm : List VALUE)
    (hp : rb_ary_entry members 0 = .Object .Class_Point pm)
    (hs : rb_ary_entry members 6 = .Object .Class_Segment sm)
    (hpm : ∀ j ∈ [0, 1], NilOrConverts (FIX2INT H) (rb_ary_entry pm j))
    (hsm : ∀ j ∈ [0, 1, 2, 3], NilOrConverts (NUM2DBL H) (rb_ary_entry sm j))
    (hm : ∀ j ∈ [1, 2, 3, 4, 5, 7, 8], NilOrConverts (NUM2DBL H) (rb_ary_entry members j)) :
    ∃ tm, Struct_to_TypeMetric H out (.Object .Class_TypeMetric members) = (tm, .returned)
      ∧ (rb_ary_entry pm 0 = .Qnil → tm.pixels_per_em.x = 0)
      ∧ (rb_ary_entry pm 1 = .Qnil → tm.pixels_per_em.y = 0)
      ∧ (rb_ary_entry members 1 = .Qnil → tm.ascent = 0)
      ∧ (rb_ary_entry members 2 = .Qnil → tm.descent = 0)
      ∧ (rb_ary_entry members 3 = .Qnil → tm.width = 0)
      ∧ (rb_ary_entry members 4 = .Qnil → tm.height = 0)
      ∧ (rb_ary_entry members 5 = .Qnil → tm.max_advance = 0)
      ∧ (rb_ary_entry sm 0 = .Qnil → tm.bounds.x1 = 0)
      ∧ (rb_ary_entry sm 1 = .Qnil → tm.bounds.y1 = 0)
      ∧ (rb_ary_entry sm 2 = .Qnil → tm.bounds.x2 = 0)
      ∧ (rb_ary_entry sm 3 = .Qnil → tm.bounds.y2 = 0)
      ∧ (rb_ary_entry members 7 = .Qnil → tm.underline_position = 0)
      ∧ (rb_ary_entry members 8 = .Qnil → tm.underline_thickness = 0) := by
  obtain ⟨p, ep, px, py⟩ := Struct_to_PointInfo_defaults H out.pixels_per_em pm hpm
  obtain ⟨s, es, s0, s1, s2, s3⟩ := Struct_to_SegmentInfo_defaults H out.bounds sm hsm
  obtain ⟨a1, e1, d1⟩ := nil_or_ok _ (0 : ℚ) _ (hm 1 (by simp))
  obtain ⟨a2, e2, d2⟩ := nil_or_ok _ (0 : ℚ) _ (hm 2 (by simp))
  obtain ⟨a3, e3, d3⟩ := nil_or_ok _ (0 : ℚ) _ (hm 3 (by simp))
  obtain ⟨a4, e4, d4⟩ := nil_or_ok _ (0 : ℚ) _ (hm 4 (by simp))
  obtain ⟨a5, e5, d5⟩ := nil_or_ok _ (0 : ℚ) _ (hm 5 (by simp))
  obtain ⟨a7, e7, d7⟩ := nil_or_ok _ (0 : ℚ) _ (hm 7 (by simp))
  obtain ⟨a8, e8, d8⟩ := nil_or_ok _ (0 : ℚ) _ (hm 8 (by simp))
  refine ⟨{ pixels_per_em := p, ascent := a1, descent := a2, width := a3, height := a4,
            max_advance := a5, bounds := s, underline_position := a7,
            underline_thickness := a8 }, ?_, px, py, d1, d2, d3, d4, d5, s0, s1, s2, s3, d7, d8⟩
  simp only [Struct_to_TypeMetric, CLASS_OF, values_ID, ne_eq, not_true_eq_false, if_false,
    hp, hs, ep, es, nested, e1, e2, e3, e4, e5, e7, e8, store]

theorem Struct_to_TypeMetric_defaults_witness :
    ∃ tm,
      Struct_to_TypeMetric sampleHost sampleMetric
          (.Object .Class_TypeMetric
            [.Object .Class_Point [.Qnil, .Integer 12], .Qnil, .Float 3, .Qnil, .Qnil,
             .Qnil, .Object .Class_Segment [], .Qnil, .Qnil])
        = (tm, .returned)
      ∧ tm.pixels_per_em.x = 0 ∧ tm.ascent = 0 ∧ tm.bounds.x1 = 0
      ∧ tm.underline_thickness = 0 :=
  have w := Struct_to_TypeMetric_defaults sampleHost sampleMetric
    [.Object .Class_Point [.Qnil, .Integer 12], .Qnil, .Float 3, .Qnil, .Qnil, .Qnil,
     .Object .Class_Segment [], .Qnil, .Qnil]
    [.Qnil, .Integer 12] [] rfl rfl
    (by
      intro j hj
      simp only [List.mem_cons, List.mem_singleton, List.not_mem_nil, or_false] at hj
      rcases hj with rfl | rfl
      · exact Or.inl rfl
      · exact Or.inr ⟨12, rfl⟩)
    (by intro j _; exact Or.inl (by simp [rb_ary_entry]))
    (by
      intro j hj
      simp only [List.mem_cons, List.mem_singleton, List.not_mem_nil, or_false] at hj
      rcases hj with rfl | rfl | rfl | rfl | rfl | rfl | rfl
      · exact Or.inl rfl
      · exact Or.inr ⟨3, rfl⟩
      · exact Or.inl rfl
      · exact Or.inl rfl
      · exact Or.inl rfl
      · exact Or.inl rfl
      · exact Or.inl rfl)
  let ⟨tm, h, hx, _, ha, _, _, _, _, hb, _, _, _, _, ht⟩ := w
  ⟨tm, h, hx rfl, ha rfl, hb rfl, ht rfl⟩

theorem to_int_bounds (k : Int) : -(2 ^ 31) ≤ to_int k ∧ to_int k < 2 ^ 31 := by
  unfold to_int swrap
  have h1 := Int.emod_nonneg (k + 2 ^ (32 - 1)) (by norm_num : (2 : Int) ^ 32 ≠ 0)
  have h2 := Int.emod_lt_of_pos (k + 2 ^ (32 - 1)) (by norm_num : (0 : Int) < 2 ^ 32)
  norm_num at h1 h2 ⊢
  omega

theorem to_ulong_to_int_ne (H : Host) (hH : H.LONG_BIT = 64) (k : Int) :
    to_ulong H (to_int k) ≠ 2147483648 := by
  obtain ⟨h1, h2⟩ := to_int_bounds k
  unfold to_ulong
  rw [hH]
  norm_num at h1 h2 ⊢
  by_cases hneg : to_int k < 0
  · have e : to_int k % 18446744073709551616 = to_int k + 18446744073709551616 := by
      rw [← Int.add_mul_emod_self_left (to_int k) 18446744073709551616 1]
      exact Int.emod_eq_of_lt (by omega) (by omega)
    rw [e]
    omega
  · rw [Int.emod_eq_of_lt (by omega) (by omega)]
    omega

/-- On no host with a 64-bit `long`, whatever its `FIX2INT` does with a
number beyond `int`, does the font `heavyFont` come back with its weight. -/
theorem Struct_to_TypeInfo_weight_any_host (H : Host) (hH : H.LONG_BIT = 64)
    (out : TypeInfo) (st : VALUE) (hst : TypeInfo_to_Struct H heavyFont = .ok st) :
    (Struct_to_TypeInfo H out st).2 ≠ .returned
      ∨ (Struct_to_TypeInfo H out st).1.weight ≠ heavyFont.weight := by
  have hl : to_long H 2147483648 = 2147483648 := by
    unfold to_long swrap
    rw [hH]
    norm_num
  have hst' : st = new_ID .Class_Font
      [.String "Helvetica", .String "Helvetica Regular", .String "Helvetica",
       INT2FIX H 0, INT2FIX H 0, .Integer 2147483648, .String "AdobeStandard", .Qnil,
       .String "type1"] := by
    have : TypeInfo_to_Struct H heavyFont = .ok (new_ID .Class_Font
      [.String "Helvetica", .String "Helvetica Regular", .String "Helvetica",
       INT2FIX H 0, INT2FIX H 0, .Integer 2147483648, .String "AdobeStandard", .Qnil,
       .String "type1"]) := by
      simp only [TypeInfo_to_Struct, heavyFont, sampleFont, rb_str_new2, INT2NUM]
      rw [show ((2147483648 : Nat) : Int) = 2147483648 from rfl, hl]
      rfl
    rw [this] at hst
    exact (Except.ok.inj hst).symm
  subst hst'
  have hf0 : FIXABLE H 0 ∧ INT_P 0 := by
    refine ⟨⟨?_, by positivity⟩, by decide⟩
    have : (0 : Int) < 2 ^ (H.LONG_BIT - 2) := by positivity
    omega
  have hz : INT2FIX H 0 = .Integer 0 := INT2FIX_of_FIXABLE H 0 (by omega) hf0.1
  have h0 : FIX2INT H (.Integer 0) = .ok 0 := by simp only [FIX2INT, if_pos hf0]
  have hnot : ¬ (FIXABLE H 2147483648 ∧ INT_P 2147483648) := fun h => absurd h.2 (by decide)
  have hbig : FIX2INT H (.Integer 2147483648)
      = (H.FIX2INT_other (.Integer 2147483648)).map to_int := by
    simp only [FIX2INT, if_neg hnot]
  simp only [Struct_to_TypeInfo, new_ID, CLASS_OF, values_ID, rb_ary_entry, ne_eq,
    not_true_eq_false, if_false, List.getD_cons_zero, List.getD_cons_succ,
    TypeInfo.memset, clone_unless_nil, nil_or, STRING_PTR, store, hz, h0, hbig]
  cases hk : H.FIX2INT_other (VALUE.Integer 2147483648) with
  | error e => left; simp [Except.map]
  | ok k =>
    right
    have hne := to_ulong_to_int_ne H hH k
    simpa [Except.map, heavyFont] using hne


/-! ## Converters: the class test -/

/-- C21: each of the ten converters, handed a value whose class is not the
class it converts, ends with a `TypeError` whose text names the class of the
value, and hands back the output structure as it received it. -/
theorem Struct_to_rejects_other_class (H : Host) (st : VALUE) :
    (∀ out, CLASS_OF H st ≠ .Class_AffineMatrix →
      Struct_to_AffineMatrix H out st = (out, .raised (.rb_eTypeError
        ("type mismatch: " ++ rb_class2name (CLASS_OF H st) ++ " given"))))
    ∧ (∀ out, CLASS_OF H st ≠ .Class_Color →
      Struct_to_ColorInfo H out st = (out, .raised (.rb_eTypeError
        ("type mismatch: " ++ rb_class2name (CLASS_OF H st) ++ " given"))))
    ∧ (∀ out, CLASS_OF H st ≠ .Class_Pixel →
      Struct_to_PixelPacket H out st = (out, .raised (.rb_eTypeError
        ("type mismatch: " ++ rb_class2name (CLASS_OF H st) ++ " given"))))
    ∧ (∀ out, CLASS_OF H st ≠ .Class_Primary →
      Struct_to_PrimaryInfo H out st = (out, .raised (.rb_eTypeError
        ("type mismatch: " ++ rb_class2name (CLASS_OF H st) ++ " given"))))
    ∧ (∀ out, CLASS_OF H st ≠ .Class_Point →
      Struct_to_PointInfo H out st = (out, .raised (.rb_eTypeError
        ("type mismatch: " ++ rb_class2name (CLASS_OF H st) ++ " given"))))
    ∧ (∀ out, CLASS_OF H st ≠ .Class_Chromaticity →
      Struct_to_ChromaticityInfo H out st = (out, .raised (.rb_eTypeError
        ("type mismatch: " ++ rb_class2name (CLASS_OF H st) ++ " given"))))
    ∧ (∀ out, CLASS_OF H st ≠ .Class_Rectangle →
      Struct_to_RectangleInfo H out st = (out, .raised (.rb_eTypeError
        ("type mismatch: " ++ rb_class2name (CLASS_OF H st) ++ " given"))))
    ∧ (∀ out, CLASS_OF H st ≠ .Class_Segment →
      Struct_to_SegmentInfo H out st = (out, .raised (.rb_eTypeError
        ("type mismatch: " ++ rb_class2name (CLASS_OF H st) ++ " given"))))
    ∧ (∀ out, CLASS_OF H st ≠ .Class_Font →
      Struct_to_TypeInfo H out st = (out, .raised (.rb_eTypeError
        ("type mismatch: " ++ rb_class2name (CLASS_OF H st) ++ " given"))))
    ∧ (∀ out, CLASS_OF H st ≠ .Class_TypeMetric →
      Struct_to_TypeMetric H out st = (out, .raised (.rb_eTypeError
        ("type mismatch: " ++ rb_class2name (CLASS_OF H st) ++ " given")))) := by
  refine ⟨?_, ?_, ?_, ?_, ?_, ?_, ?_, ?_, ?_, ?_⟩ <;> intro out h
  · simp only [Struct_to_AffineMatrix, if_pos h, type_mismatch]
  · simp only [Struct_to_ColorInfo, if_pos h, type_mismatch]
  · simp only [Struct_to_PixelPacket, if_pos h, type_mismatch]
  · simp only [Struct_to_PrimaryInfo, if_pos h, type_mismatch]
  · simp only [Struct_to_PointInfo, if_pos h, type_mismatch]
  · simp only [Struct_to_ChromaticityInfo, if_pos h, type_mismatch]
  · simp only [Struct_to_RectangleInfo, if_pos h, type_mismatch]
  · simp only [Struct_to_SegmentInfo, if_pos h, type_mismatch]
  · simp only [Struct_to_TypeInfo, if_pos h, type_mismatch]
  · simp only [Struct_to_TypeMetric, if_pos h, type_mismatch]

theorem Struct_to_rejects_other_class_witness :
    CLASS_OF sampleHost (PixelPacket_to_Struct sampleHost samplePixel) ≠ .Class_Color
      ∧ Struct_to_ColorInfo sampleHost
          { name := some "red", compliance := 1, color := samplePixel, other := [7] }
          (PixelPacket_to_Struct sampleHost samplePixel)
        = ({ name := some "red", compliance := 1, color := samplePixel, other := [7] },
           .raised (.rb_eTypeError "type mismatch: Magick::Pixel given")) :=
  ⟨by decide,
    (Struct_to_rejects_other_class sampleHost (PixelPacket_to_Struct sampleHost samplePixel)).2.1
      _ (by decide)⟩

/-! ## Converters: members that are nil -/

theorem nil_or_of_ne {α : Type} (m : VALUE) (dflt : α)
    (conv : VALUE → Except RubyException α) (h : m ≠ .Qnil) : nil_or m dflt conv = conv m := by
  cases m <;> first | exact absurd rfl h | rfl

/-- C25: an `AffineMatrix` object whose members are all `nil` gives
`[1, 0, 0, 1, 0, 0]`, but the field `ty` does not follow the sixth member: with
only the sixth member set, to 7, `ty` is still 0, and with only the fifth
member set, to 7, both `tx` and `ty` are 7. -/
theorem Struct_to_AffineMatrix_ty_ignores_member :
    Struct_to_AffineMatrix sampleHost sampleAffine
        (.Object .Class_AffineMatrix [.Qnil, .Qnil, .Qnil, .Qnil, .Qnil, .Qnil])
      = ({ sx := 1, rx := 0, ry := 0, sy := 1, tx := 0, ty := 0 }, .returned)
    ∧ Struct_to_AffineMatrix sampleHost sampleAffine
        (.Object .Class_AffineMatrix [.Qnil, .Qnil, .Qnil, .Qnil, .Qnil, .Float 7])
      = ({ sx := 1, rx := 0, ry := 0, sy := 1, tx := 0, ty := 0 }, .returned)
    ∧ Struct_to_AffineMatrix sampleHost sampleAffine
        (.Object .Class_AffineMatrix [.Qnil, .Qnil, .Qnil, .Qnil, .Float 7, .Qnil])
      = ({ sx := 1, rx := 0, ry := 0, sy := 1, tx := 7, ty := 7 }, .returned) := by
  decide

theorem to_Quantum_zero (H : Host) : to_Quantum H 0 = 0 := by
  simp [to_Quantum]

/-- C29: in `Struct_to_PixelPacket`, with every member of the `Pixel` object
`nil` or a number `NUM2INT` takes, the call returns, and each channel follows
its own member alone: 0 for `nil`, and otherwise the number of that member,
converted to a `Quantum`. -/
theorem Struct_to_PixelPacket_channels (H : Host) (out : PixelPacket) (members : List VALUE)
    (hm : ∀ j ∈ [0, 1, 2, 3], NilOrConverts (NUM2INT H) (rb_ary_entry members j)) :
    ∃ pp, Struct_to_PixelPacket H out (.Object .Class_Pixel members) = (pp, .returned)
      ∧ (rb_ary_entry members 0 = .Qnil → pp.red = 0)
      ∧ (rb_ary_entry members 1 = .Qnil → pp.green = 0)
      ∧ (rb_ary_entry members 2 = .Qnil → pp.blue = 0)
      ∧ (rb_ary_entry members 3 = .Qnil → pp.opacity = 0)
      ∧ (∀ v, rb_ary_entry members 0 ≠ .Qnil → NUM2INT H (rb_ary_entry members 0) = .ok v →
          pp.red = to_Quantum H v)
      ∧ (∀ v, rb_ary_entry members 1 ≠ .Qnil → NUM2INT H (rb_ary_entry members 1) = .ok v →
          pp.green = to_Quantum H v)
      ∧ (∀ v, rb_ary_entry members 2 ≠ .Qnil → NUM2INT H (rb_ary_entry members 2) = .ok v →
          pp.blue = to_Quantum H v)
      ∧ (∀ v, rb_ary_entry members 3 ≠ .Qnil → NUM2INT H (rb_ary_entry members 3) = .ok v →
          pp.opacity = to_Quantum H v) := by
  obtain ⟨a0, e0, d0⟩ := nil_or_ok _ (0 : Int) _ (hm 0 (by simp))
  obtain ⟨a1, e1, d1⟩ := nil_or_ok _ (0 : Int) _ (hm 1 (by simp))
  obtain ⟨a2, e2, d2⟩ := nil_or_ok _ (0 : Int) _ (hm 2 (by simp))
  obtain ⟨a3, e3, d3⟩ := nil_or_ok _ (0 : Int) _ (hm 3 (by simp))
  refine ⟨{ red := to_Quantum H a0, green := to_Quantum H a1, blue := to_Quantum H a2,
            opacity := to_Quantum H a3 }, ?_, ?_, ?_, ?_, ?_, ?_, ?_, ?_, ?_⟩
  · simp only [Struct_to_PixelPacket, CLASS_OF, values_ID, ne_eq, not_true_eq_false, if_false,
      e0, e1, e2, e3, store]
  · intro h; simp only [d0 h, to_Quantum_zero]
  · intro h; simp only [d1 h, to_Quantum_zero]
  · intro h; simp only [d2 h, to_Quantum_zero]
  · intro h; simp only [d3 h, to_Quantum_zero]
  · intro v hn hv
    rw [nil_or_of_ne _ _ _ hn, hv] at e0
    cases e0; rfl
  · intro v hn hv
    rw [nil_or_of_ne _ _ _ hn, hv] at e1
    cases e1; rfl
  · intro v hn hv
    rw [nil_or_of_ne _ _ _ hn, hv] at e2
    cases e2; rfl
  · intro v hn hv
    rw [nil_or_of_ne _ _ _ hn, hv] at e3
    cases e3; rfl

theorem Struct_to_PixelPacket_channels_witness :
    ∃ pp,
      Struct_to_PixelPacket sampleHost samplePixel
          (.Object .Class_Pixel [.Qnil, .Integer 5, .Qnil]) = (pp, .returned)
      ∧ pp.red = 0 ∧ pp.green = to_Quantum sampleHost 5 ∧ pp.blue = 0 ∧ pp.opacity = 0 :=
  have w := Struct_to_PixelPacket_channels sampleHost samplePixel [.Qnil, .Integer 5, .Qnil]
    (by
      intro j hj
      simp only [List.mem_cons, List.mem_singleton, List.not_mem_nil, or_false] at hj
      rcases hj with rfl | rfl | rfl | rfl
      · exact Or.inl rfl
      · exact Or.inr ⟨5, rfl⟩
      · exact Or.inl rfl
      · exact Or.inl rfl)
  w.elim fun pp hpp =>
    ⟨pp, hpp.1, hpp.2.1 rfl, hpp.2.2.2.2.2.2.1 5 (fun e => by cases e) rfl,
      hpp.2.2.2.1 rfl, hpp.2.2.2.2.1 rfl⟩

/-! ## Allow-lists and build flags -/

theorem Accepts_iff_mem (B : Build) (E : MagickEnums) (d : Domain) (code : Int) :
    Accepts B E d code ↔ code ∈ d.table B E := by
  have hs := scan_zero_eq_length_iff code (d.table B E)
  unfold Accepts
  by_cases h : code ∈ d.table B E
  · have hs' : scan code (d.table B E) 0 ≠ (d.table B E).length := by
      rw [Ne, hs]; simpa using h
    simp only [h, iff_true]
    cases d <;> simp only [Domain.table] at hs' <;>
      simp only [Num_to, Num_to_AlignType, Num_to_ChannelType, Num_to_ClassType, Num_to_ComplianceType, Num_to_CompositeOperator, Num_to_CompressionType, Num_to_DecorationType, Num_to_DisposeType, Num_to_FilterType, Num_to_GravityType, Num_to_ImageType, Num_to_InterlaceType, Num_to_ColorspaceType, Num_to_NoiseType, Num_to_RenderingIntent, Num_to_ResolutionType, Num_to_PaintMethod, Num_to_StretchType, Num_to_StyleType, if_neg hs']
  · have hs' : scan code (d.table B E) 0 = (d.table B E).length := hs.2 h
    simp only [h, iff_false]
    cases d <;> simp only [Domain.table] at hs' <;>
      simp only [Num_to, Num_to_AlignType, Num_to_ChannelType, Num_to_ClassType, Num_to_ComplianceType, Num_to_CompositeOperator, Num_to_CompressionType, Num_to_DecorationType, Num_to_DisposeType, Num_to_FilterType, Num_to_GravityType, Num_to_ImageType, Num_to_InterlaceType, Num_to_ColorspaceType, Num_to_NoiseType, Num_to_RenderingIntent, Num_to_ResolutionType, Num_to_PaintMethod, Num_to_StretchType, Num_to_StyleType, if_pos hs'] <;>
      simp

theorem table_sublist (B B' : Build) (E : MagickEnums) (hle : B.flags_le B') (d : Domain)
    (code : Int) (h : code ∈ d.table B E) : code ∈ d.table B' E := by
  obtain ⟨h1, h2, h3, h4⟩ := hle
  cases d <;> simp only [Domain.table] at h ⊢ <;> try exact h
  · simp only [ComplianceType_ct, List.mem_append] at h ⊢
    rcases h with h | h
    · cases hB : B.HAVE_NOCOMPLIANCE
      · simp [hB] at h
      · rw [h1 hB]; rw [hB] at h; exact Or.inl h
    · exact Or.inr h
  · simp only [CompositeOperator_cm, List.mem_append] at h ⊢
    rcases h with h | h
    · exact Or.inl h
    · cases hB : B.HAVE_COPYCYANCOMPOSITEOP
      · simp [hB] at h
      · rw [h2 hB]; rw [hB] at h; exact Or.inr h
  · simp only [ColorspaceType_cs, List.mem_append] at h ⊢
    rcases h with (h | h) | h
    · exact Or.inl (Or.inl h)
    · cases hB : B.HAVE_HSLCOLORSPACE
      · simp [hB] at h
      · rw [h3 hB]; rw [hB] at h; exact Or.inl (Or.inr h)
    · cases hB : B.HAVE_HWBCOLORSPACE
      · simp [hB] at h
      · rw [h4 hB]; rw [hB] at h; exact Or.inr h

theorem bareBuild_flags_le (B : Build) : bareBuild.flags_le B := by
  refine ⟨?_, ?_, ?_, ?_⟩ <;> intro h <;> cases h

/-- C22: the allow-lists follow the build flags and nothing else.  Where the
guarded constants differ from the entries that stand outside every `#if` (and
the two guarded colorspaces from each other), `NoCompliance` is accepted
exactly with `HAVE_NOCOMPLIANCE`, the four `CopyCyan` operators exactly with
`HAVE_COPYCYANCOMPOSITEOP`, `HSLColorspace` exactly with `HAVE_HSLCOLORSPACE`
and `HWBColorspace` exactly with `HAVE_HWBCOLORSPACE`.  Two builds that agree
on the four flags have the same tables, the unguarded entries are accepted
under every setting, and a build with more flags accepts whatever a build with
fewer accepts. -/
theorem allow_lists_follow_flags (B : Build) (E : MagickEnums)
    (hno : E.compliance.NoCompliance ∉ Domain.unconditional E .ComplianceType)
    (hcopy : ∀ c ∈ copy_operators E.composite, c ∉ Domain.unconditional E .CompositeOperator)
    (hhsl : E.colorspace.HSLColorspace ∉ Domain.unconditional E .ColorspaceType)
    (hhwb : E.colorspace.HWBColorspace ∉ Domain.unconditional E .ColorspaceType)
    (hne : E.colorspace.HSLColorspace ≠ E.colorspace.HWBColorspace) :
    (Accepts B E .ComplianceType E.compliance.NoCompliance ↔ B.HAVE_NOCOMPLIANCE = true)
    ∧ (∀ c ∈ copy_operators E.composite,
        (Accepts B E .CompositeOperator c ↔ B.HAVE_COPYCYANCOMPOSITEOP = true))
    ∧ (Accepts B E .ColorspaceType E.colorspace.HSLColorspace ↔ B.HAVE_HSLCOLORSPACE = true)
    ∧ (Accepts B E .ColorspaceType E.colorspace.HWBColorspace ↔ B.HAVE_HWBCOLORSPACE = true)
    ∧ (∀ B' : Build, B'.HAVE_NOCOMPLIANCE = B.HAVE_NOCOMPLIANCE →
        B'.HAVE_COPYCYANCOMPOSITEOP = B.HAVE_COPYCYANCOMPOSITEOP →
        B'.HAVE_HSLCOLORSPACE = B.HAVE_HSLCOLORSPACE →
        B'.HAVE_HWBCOLORSPACE = B.HAVE_HWBCOLORSPACE →
        ∀ d : Domain, d.table B' E = d.table B E)
    ∧ (∀ (d : Domain) (code : Int), code ∈ Domain.unconditional E d → Accepts B E d code)
    ∧ (∀ B' : Build, B.flags_le B' →
        ∀ (d : Domain) (code : Int), Accepts B E d code → Accepts B' E d code) := by
  refine ⟨?_, ?_, ?_, ?_, ?_, ?_, ?_⟩
  · rw [Accepts_iff_mem]
    simp only [Domain.unconditional, Domain.table, ComplianceType_ct, bareBuild] at hno ⊢
    cases hB : B.HAVE_NOCOMPLIANCE
    · simpa using hno
    · simp
  · intro c hc
    have := hcopy c hc
    rw [Accepts_iff_mem]
    simp only [Domain.unconditional, Domain.table, CompositeOperator_cm, bareBuild] at this ⊢
    cases hB : B.HAVE_COPYCYANCOMPOSITEOP
    · simpa using this
    · simp only [copy_operators] at hc
      simp only [if_true, List.mem_append]
      simp only [List.mem_cons, List.mem_singleton] at hc ⊢
      simp only [eq_self_iff_true, iff_true]
      exact Or.inr (by simpa using hc)
  · rw [Accepts_iff_mem]
    simp only [Domain.unconditional, Domain.table, ColorspaceType_cs, bareBuild] at hhsl ⊢
    cases hB : B.HAVE_HSLCOLORSPACE <;> cases hB' : B.HAVE_HWBCOLORSPACE <;>
      simp_all
  · rw [Accepts_iff_mem]
    simp only [Domain.unconditional, Domain.table, ColorspaceType_cs, bareBuild] at hhwb ⊢
    cases hB : B.HAVE_HSLCOLORSPACE <;> cases hB' : B.HAVE_HWBCOLORSPACE <;>
      simp_all [Ne.symm hne]
  · intro B' h1 h2 h3 h4 d
    cases d <;>
      simp only [Domain.table, ComplianceType_ct, CompositeOperator_cm, ColorspaceType_cs,
        h1, h2, h3, h4]
  · intro d code h
    rw [Accepts_iff_mem]
    exact table_sublist bareBuild B E (bareBuild_flags_le B) d code h
  · intro B' hle d code h
    rw [Accepts_iff_mem] at h ⊢
    exact table_sublist B B' E hle d code h

theorem allow_lists_follow_flags_witness :
    sampleEnums.compliance.NoCompliance ∉ Domain.unconditional sampleEnums .ComplianceType
    ∧ (∀ c ∈ copy_operators sampleEnums.composite,
        c ∉ Domain.unconditional sampleEnums .CompositeOperator)
    ∧ sampleEnums.colorspace.HSLColorspace ∉ Domain.unconditional sampleEnums .ColorspaceType
    ∧ sampleEnums.colorspace.HWBColorspace ∉ Domain.unconditional sampleEnums .ColorspaceType
    ∧ sampleEnums.colorspace.HSLColorspace ≠ sampleEnums.colorspace.HWBColorspace
    ∧ (Accepts bareBuild sampleEnums .ComplianceType sampleEnums.compliance.NoCompliance
        ↔ bareBuild.HAVE_NOCOMPLIANCE = true)
    ∧ (Accepts sampleBuild sampleEnums .ColorspaceType sampleEnums.colorspace.HSLColorspace
        ↔ sampleBuild.HAVE_HSLCOLORSPACE = true) :=
  ⟨by decide, by decide, by decide, by decide, by decide,
   (allow_lists_follow_flags bareBuild sampleEnums (by decide) (by decide) (by decide)
      (by decide) (by decide)).1,
   (allow_lists_follow_flags sampleBuild sampleEnums (by decide) (by decide) (by decide)
      (by decide) (by decide)).2.2.1⟩

/-! ## Names of composite operators -/

theorem Char_eq_of_toNat_eq (c d : Char) (e : c.toNat = d.toNat) : c = d := by
  apply Char.ext
  apply UInt32.ext
  exact e

theorem char_value_eq_zero (H : Host) (c : Char) (h : char_value H c = 0) : c = '\x00' := by
  apply Char_eq_of_toNat_eq
  have z : ('\x00' : Char).toNat = 0 := rfl
  rw [z]
  unfold char_value at h
  split at h <;> omega

theorem char_value_injective (H : Host) (c d : Char) (h : char_value H c = char_value H d) :
    c = d := by
  apply Char_eq_of_toNat_eq
  unfold char_value at h
  split at h <;> split at h <;> omega

theorem strfcmp_of_equal (H : Host) (a b : List Char) (ha : '\x00' ∉ a) (hb : '\x00' ∉ b)
    (h : a.map tolower = b.map tolower) : strfcmp H a b = 0 := by
  induction a generalizing b with
  | nil =>
    cases b with
    | nil => rfl
    | cons c2 s2 => simp at h
  | cons c1 s1 ih =>
    cases b with
    | nil => simp at h
    | cons c2 s2 =>
      simp only [List.map_cons, List.cons.injEq] at h
      have h1 : c1 ≠ '\x00' := fun e => ha (by simp [e])
      have h2 : c2 ≠ '\x00' := fun e => hb (by simp [e])
      simp only [strfcmp, if_pos (And.intro h1 (And.intro h2 h.1))]
      exact ih s2 (fun hm => ha (List.mem_cons_of_mem _ hm))
        (fun hm => hb (List.mem_cons_of_mem _ hm)) h.2

theorem equal_of_strfcmp (H : Host) (a b : List Char) (ha : '\x00' ∉ a) (hb : '\x00' ∉ b)
    (h : strfcmp H a b = 0) : a.map tolower = b.map tolower := by
  induction a generalizing b with
  | nil =>
    cases b with
    | nil => rfl
    | cons c2 s2 =>
      exfalso
      simp only [strfcmp, sub_zero] at h
      exact hb (by rw [char_value_eq_zero H c2 h]; simp)
  | cons c1 s1 ih =>
    cases b with
    | nil =>
      exfalso
      simp only [strfcmp, zero_sub, neg_eq_zero] at h
      exact ha (by rw [char_value_eq_zero H c1 h]; simp)
    | cons c2 s2 =>
      have h1 : c1 ≠ '\x00' := fun e => ha (by simp [e])
      have h2 : c2 ≠ '\x00' := fun e => hb (by simp [e])
      simp only [strfcmp] at h
      by_cases ht : c1 ≠ '\x00' ∧ c2 ≠ '\x00' ∧ tolower c1 = tolower c2
      · rw [if_pos ht] at h
        simp only [List.map_cons, ht.2.2, List.cons.injEq, true_and]
        exact ih s2 (fun hm => ha (List.mem_cons_of_mem _ hm))
          (fun hm => hb (List.mem_cons_of_mem _ hm)) h
      · rw [if_neg ht] at h
        exfalso
        apply ht
        have e : c2 = c1 := char_value_injective H c2 c1 (by omega)
        exact ⟨h1, h2, by rw [e]⟩

theorem ops_loop_mem (H : Host) (oper : String) (tbl : List String) (op : String)
    (h : Str_to_CompositeOperator_loop H oper tbl = some op) :
    op ∈ tbl ∧ strfcmp H oper.data op.data = 0 := by
  induction tbl with
  | nil => simp [Str_to_CompositeOperator_loop] at h
  | cons t ts ih =>
    simp only [Str_to_CompositeOperator_loop] at h
    by_cases ht : strfcmp H oper.data t.data = 0
    · rw [if_pos ht] at h
      cases h
      exact ⟨List.mem_cons_self _ _, ht⟩
    · rw [if_neg ht] at h
      exact ⟨List.mem_cons_of_mem _ (ih h).1, (ih h).2⟩

theorem ops_loop_none (H : Host) (oper : String) (tbl : List String)
    (h : ∀ op ∈ tbl, strfcmp H oper.data op.data ≠ 0) :
    Str_to_CompositeOperator_loop H oper tbl = none := by
  induction tbl with
  | nil => rfl
  | cons t ts ih =>
    simp only [Str_to_CompositeOperator_loop, if_neg (h t (List.mem_cons_self _ _))]
    exact ih fun op hop => h op (List.mem_cons_of_mem _ hop)

theorem ops_clean : ∀ op ∈ ops, '\x00' ∉ op.data := by decide

theorem ops_distinct : ∀ a ∈ ops, ∀ b ∈ ops, EqualIgnoringCase a b → a = b := by decide

theorem ops_loop_none_imp (H : Host) (oper : String) (tbl : List String)
    (h : Str_to_CompositeOperator_loop H oper tbl = none) :
    ∀ op ∈ tbl, strfcmp H oper.data op.data ≠ 0 := by
  induction tbl with
  | nil => intro op hop; cases hop
  | cons t ts ih =>
    simp only [Str_to_CompositeOperator_loop] at h
    by_cases ht : strfcmp H oper.data t.data = 0
    · rw [if_pos ht] at h; cases h
    · rw [if_neg ht] at h
      intro op hop
      rcases List.mem_cons.1 hop with e | hm
      · rw [e]; exact ht
      · exact ih h op hm

theorem ops_lower_clean : ∀ op ∈ ops, '\x00' ∉ op.data.map tolower := by decide

theorem Str_to_CompositeOperator_of_equal (H : Host) (s name : String) (hname : name ∈ ops)
    (heq : EqualIgnoringCase s name) : Str_to_CompositeOperator H (.String s) = .ok name := by
  have hs : '\x00' ∉ s.data := by
    intro hm
    have : tolower '\x00' ∈ s.data.map tolower := List.mem_map_of_mem _ hm
    rw [heq] at this
    exact ops_lower_clean name hname this
  simp only [Str_to_CompositeOperator, STRING_PTR]
  cases hl : Str_to_CompositeOperator_loop H s ops with
  | none =>
    exact absurd (strfcmp_of_equal H _ _ hs (ops_clean name hname) heq)
      (ops_loop_none_imp H s ops hl name hname)
  | some op =>
    obtain ⟨hop, hz⟩ := ops_loop_mem H s ops op hl
    have h1 : EqualIgnoringCase s op := equal_of_strfcmp H _ _ hs (ops_clean op hop) hz
    have h2 : EqualIgnoringCase name op := by
      unfold EqualIgnoringCase at heq h1 ⊢
      rw [← heq, h1]
    rw [ops_distinct name hname op hop h2]

/-- C23 (the claim as worded fails here): the host string made of `Over`, a
NUL character and `lay` equals none of the eighteen names when case is
ignored, yet `Str_to_CompositeOperator` reads it as the C string `Over` and
returns that name instead of raising. -/
theorem Str_to_CompositeOperator_nul_counterexample :
    (∀ name ∈ ops, ¬ EqualIgnoringCase "Over\x00lay" name)
    ∧ (Str_to_CompositeOperator sampleHost (.String "Over\x00lay")).toOption = some "Over" := by
  decide

/-- C23 (amended): `Str_to_CompositeOperator` hands back the table's spelling
of every text that equals one of the eighteen names when case is ignored, and
raises `ArgumentError`, showing the text, for every other text that holds no
NUL character; handed its own result it hands it back. -/
theorem Str_to_CompositeOperator_validates (H : Host) (s : String) :
    ops.length = 18
    ∧ (∀ name ∈ ops, EqualIgnoringCase s name →
        Str_to_CompositeOperator H (.String s) = .ok name)
    ∧ ('\x00' ∉ s.data → (∀ name ∈ ops, ¬ EqualIgnoringCase s name) →
        Str_to_CompositeOperator H (.String s)
          = .error (.rb_eArgError ("invalid composition operator: " ++ s)))
    ∧ (∀ r, Str_to_CompositeOperator H (.String s) = .ok r →
        Str_to_CompositeOperator H (.String r) = .ok r) := by
  refine ⟨rfl, fun name hname heq => Str_to_CompositeOperator_of_equal H s name hname heq,
    ?_, ?_⟩
  · intro hs hnone
    have hl : Str_to_CompositeOperator_loop H s ops = none :=
      ops_loop_none H s ops fun op hop hz =>
        hnone op hop (equal_of_strfcmp H _ _ hs (ops_clean op hop) hz)
    simp only [Str_to_CompositeOperator, STRING_PTR, hl]
  · intro r hr
    simp only [Str_to_CompositeOperator, STRING_PTR] at hr
    cases hl : Str_to_CompositeOperator_loop H s ops with
    | none => rw [hl] at hr; cases hr
    | some op =>
      rw [hl] at hr
      cases hr
      exact Str_to_CompositeOperator_of_equal H r r (ops_loop_mem H s ops r hl).1 rfl

theorem Str_to_CompositeOperator_validates_witness :
    "CopyRed" ∈ ops ∧ EqualIgnoringCase "copyRED" "CopyRed"
    ∧ Str_to_CompositeOperator sampleHost (.String "copyRED") = .ok "CopyRed"
    ∧ '\x00' ∉ "Cop".data ∧ (∀ name ∈ ops, ¬ EqualIgnoringCase "Cop" name)
    ∧ Str_to_CompositeOperator sampleHost (.String "Cop")
        = .error (.rb_eArgError "invalid composition operator: Cop")
    ∧ '\x00' ∉ "".data ∧ (∀ name ∈ ops, ¬ EqualIgnoringCase "" name)
    ∧ Str_to_CompositeOperator sampleHost (.String "")
        = .error (.rb_eArgError "invalid composition operator: ")
    ∧ '\x00' ∉ "Overlay".data ∧ (∀ name ∈ ops, ¬ EqualIgnoringCase "Overlay" name)
    ∧ Str_to_CompositeOperator sampleHost (.String "Overlay")
        = .error (.rb_eArgError "invalid composition operator: Overlay") :=
  ⟨by decide, by decide,
   (Str_to_CompositeOperator_validates sampleHost "copyRED").2.1 "CopyRed" (by decide)
     (by decide),
   by decide, by decide,
   (Str_to_CompositeOperator_validates sampleHost "Cop").2.2.1 (by decide) (by decide),
   by decide, by decide,
   (Str_to_CompositeOperator_validates sampleHost "").2.2.1 (by decide) (by decide),
   by decide, by decide,
   (Str_to_CompositeOperator_validates sampleHost "Overlay").2.2.1 (by decide) (by decide)⟩

theorem char_value_of_ascii (H : Host) (c : Char) (h : c.toNat < 128) :
    char_value H c = (c.toNat : Int) := by
  unfold char_value
  rw [if_neg]
  intro hc
  omega

/-- C24: `strfcmp` does not return what `strcmp` returns on the lower-cased
strings.  For `"a"` and `"b"` it returns 1, a positive number, where `strcmp`
returns a negative one; for the two in the other order it is the reverse.
This is so on every host, whether `char` is signed or not. -/
theorem strfcmp_sign_reversed (H : Host) :
    strfcmp H "a".data "b".data = 1
    ∧ strcmp ("a".data.map tolower) ("b".data.map tolower) = -1
    ∧ strfcmp H "b".data "a".data = -1
    ∧ strcmp ("b".data.map tolower) ("a".data.map tolower) = 1 := by
  have ha : char_value H 'a' = 97 := char_value_of_ascii H 'a' (by decide)
  have hb : char_value H 'b' = 98 := char_value_of_ascii H 'b' (by decide)
  refine ⟨?_, by decide, ?_, by decide⟩
  · show strfcmp H ['a'] ['b'] = 1
    simp only [strfcmp]
    rw [if_neg (by decide), ha, hb]
    rfl
  · show strfcmp H ['b'] ['a'] = -1
    simp only [strfcmp]
    rw [if_neg (by decide), ha, hb]
    rfl

/-! ## The name of a pixel's color -/

theorem Pixel_to_color_switch_three (B : Build) (K : ComplianceTypes) (H : Host)
    (c m d : VALUE) (depth : Nat) (hd : NUM2UINT H d = .ok depth) :
    Pixel_to_color_switch B K H [c, m, d]
      = if depth ≠ 8 ∧ depth ≠ H.QuantumDepth then
          .error (.rb_eArgError ("invalid depth (" ++ fmt_d (to_int depth) ++ ")"))
        else
          Pixel_to_color_case_2 B K H [c, m, d]
            { compliance := K.AllCompliance, matte := false, depth := depth } := by
  simp only [Pixel_to_color_switch, List.length_cons, List.length_nil, Pixel_to_color_case_3,
    List.getD_cons_succ, List.getD_cons_zero, hd]

theorem Pixel_to_color_case_1_depth (B : Build) (K : ComplianceTypes) (H : Host)
    (argv : List VALUE) (a r : ColorArgs) (h : Pixel_to_color_case_1 B K H argv a = .ok r) :
    r.depth = a.depth ∧ r.matte = a.matte ∧ r.compliance ∈ ComplianceType_ct B K := by
  simp only [Pixel_to_color_case_1] at h
  cases hn : NUM2INT H (argv.getD 0 .Qnil) with
  | error e => rw [hn] at h; cases h
  | ok type =>
    rw [hn] at h
    simp only at h
    cases hc : Num_to_ComplianceType B K type with
    | error e => rw [hc] at h; cases h
    | ok compliance =>
      rw [hc] at h
      simp only [Except.ok.injEq] at h
      subst h
      refine ⟨rfl, rfl, ?_⟩
      simp only [Num_to_ComplianceType] at hc
      by_cases hs : scan type (ComplianceType_ct B K) 0 = (ComplianceType_ct B K).length
      · rw [if_pos hs] at hc; cases hc
      · rw [if_neg hs] at hc
        cases hc
        by_contra hmem
        exact hs ((scan_zero_eq_length_iff _ _).2 hmem)

theorem Pixel_to_color_switch_depth (B : Build) (K : ComplianceTypes) (H : Host)
    (argv : List VALUE) (a : ColorArgs) (h : Pixel_to_color_switch B K H argv = .ok a) :
    a.depth = 8 ∨ a.depth = H.QuantumDepth := by
  match argv, h with
  | [], h =>
    simp only [Pixel_to_color_switch, List.length_nil, Except.ok.injEq] at h
    subst h; exact Or.inr rfl
  | [_], h =>
    simp only [Pixel_to_color_switch, List.length_cons, List.length_nil] at h
    exact Or.inr (Pixel_to_color_case_1_depth B K H _ _ _ h).1
  | [_, _], h =>
    simp only [Pixel_to_color_switch, List.length_cons, List.length_nil,
      Pixel_to_color_case_2] at h
    exact Or.inr (Pixel_to_color_case_1_depth B K H _ _ _ h).1
  | [c, m, d], h =>
    cases hd : NUM2UINT H d with
    | error e =>
      simp only [Pixel_to_color_switch, List.length_cons, List.length_nil,
        Pixel_to_color_case_3, List.getD_cons_succ, List.getD_cons_zero, hd] at h
      cases h
    | ok depth =>
      rw [Pixel_to_color_switch_three B K H c m d depth hd] at h
      by_cases hv : depth ≠ 8 ∧ depth ≠ H.QuantumDepth
      · rw [if_pos hv] at h; cases h
      · rw [if_neg hv] at h
        have := (Pixel_to_color_case_1_depth B K H _ _ _ h).1
        simp only at this
        rw [this]
        by_cases h8 : depth = 8
        · exact Or.inl h8
        · by_cases hq : depth = H.QuantumDepth
          · exact Or.inr hq
          · exact absurd ⟨h8, hq⟩ hv
  | _ :: _ :: _ :: _ :: rest, h =>
    simp only [Pixel_to_color_switch, List.length_cons] at h
    cases h

theorem Pixel_to_color_query (B : Build) (L : MagickLib) (C : ColorLib) (K : ComplianceTypes)
    (H : Host) (pp : PixelPacket) (argv : List VALUE) (self : VALUE) (q : ColorQuery)
    (h : (Pixel_to_color B L C K H pp argv self).query = some q) :
    ∃ a, Pixel_to_color_switch B K H argv = .ok a
      ∧ q.compliance = a.compliance ∧ q.matte = a.matte ∧ q.depth = a.depth
      ∧ Struct_to_PixelPacket H pp self = (q.pp, .returned) := by
  unfold Pixel_to_color at h
  cases hs : Pixel_to_color_switch B K H argv with
  | error e => rw [hs] at h; cases h
  | ok a =>
    rw [hs] at h
    simp only at h
    cases hr : (Struct_to_PixelPacket H pp self).2 with
    | returned =>
      rw [hr] at h
      simp only at h
      have hq : q = ⟨a.depth, a.matte, (Struct_to_PixelPacket H pp self).1, a.compliance⟩ := by
        split at h <;> simp only [Option.some.injEq] at h <;> exact h.symm
      subst hq
      exact ⟨a, rfl, rfl, rfl, rfl, Prod.ext rfl hr⟩
    | raised e => rw [hr] at h; cases h
    | rb_bug mesg => rw [hr] at h; cases h
    | overrun => rw [hr] at h; cases h

theorem compliance_text_ne_depth_text (x y : String) :
    "invalid ComplianceType constant (" ++ x ++ ")" ≠ "invalid depth (" ++ y ++ ")" := by
  intro h
  have h1 := congrArg (fun s : String => s.data[8]?) h
  simp only [String.data_append] at h1
  have e1 : ("invalid ComplianceType constant (".data ++ x.data ++ ")".data)[8]?
      = some 'C' := by
    rw [List.append_assoc, List.getElem?_append_left (by decide)]
    decide
  have e2 : ("invalid depth (".data ++ y.data ++ ")".data)[8]? = some 'd' := by
    rw [List.append_assoc, List.getElem?_append_left (by decide)]
    decide
  rw [e1, e2] at h1
  exact absurd h1 (by decide)

theorem Pixel_to_color_case_1_eq (B : Build) (K : ComplianceTypes) (H : Host)
    (argv : List VALUE) (a : ColorArgs) :
    Pixel_to_color_case_1 B K H argv a
      = ((NUM2INT H (argv.getD 0 .Qnil)).bind (Num_to_ComplianceType B K)).map
          (fun compliance => { a with compliance := compliance }) := by
  unfold Pixel_to_color_case_1
  cases NUM2INT H (argv.getD 0 .Qnil) with
  | error e => rfl
  | ok type =>
    simp only [Except.bind]
    cases Num_to_ComplianceType B K type <;> rfl

theorem handle_error_outcome_not_arg (B : Build) (L : MagickLib) (ex : ExceptionInfo)
    (mesg : String) : (handle_error B L ex).outcome ≠ .raised (.rb_eArgError mesg) := by
  by_cases hU : ex.severity = L.UndefinedException
  · rw [handle_error_of_undefined B L ex hU]
    intro h; cases h
  · rw [handle_error_of_ne B L ex hU]
    simp only [magick_error_handler, raise_error]
    split_ifs <;> (try split) <;> (try split) <;> intro h <;> cases h

theorem Num_to_ComplianceType_of_mem (B : Build) (K : ComplianceTypes) (type : Int)
    (h : type ∈ ComplianceType_ct B K) : Num_to_ComplianceType B K type = .ok type := by
  have hs : scan type (ComplianceType_ct B K) 0 ≠ (ComplianceType_ct B K).length := by
    rw [Ne, scan_zero_eq_length_iff]; simpa using h
  simp only [Num_to_ComplianceType, if_neg hs]

theorem Num_to_ComplianceType_of_not_mem (B : Build) (K : ComplianceTypes) (type : Int)
    (h : type ∉ ComplianceType_ct B K) :
    Num_to_ComplianceType B K type
      = .error (.rb_eArgError ("invalid ComplianceType constant (" ++ fmt_d type ++ ")")) := by
  have hs : scan type (ComplianceType_ct B K) 0 = (ComplianceType_ct B K).length :=
    (scan_zero_eq_length_iff _ _).2 h
  simp only [Num_to_ComplianceType, if_pos hs]

theorem Pixel_to_color_of_switch_error (B : Build) (L : MagickLib) (C : ColorLib)
    (K : ComplianceTypes) (H : Host) (pp : PixelPacket) (argv : List VALUE) (self : VALUE)
    (e : RubyException) (h : Pixel_to_color_switch B K H argv = .error e) :
    (Pixel_to_color B L C K H pp argv self).outcome = .raised e
    ∧ (Pixel_to_color B L C K H pp argv self).query = none := by
  simp only [Pixel_to_color, h, and_self]

theorem Pixel_to_color_of_self_stop (B : Build) (L : MagickLib) (C : ColorLib)
    (K : ComplianceTypes) (H : Host) (pp : PixelPacket) (argv : List VALUE) (self : VALUE)
    (a : ColorArgs) (h : Pixel_to_color_switch B K H argv = .ok a)
    (hs : (Struct_to_PixelPacket H pp self).2 ≠ .returned) :
    (Pixel_to_color B L C K H pp argv self).outcome = (Struct_to_PixelPacket H pp self).2
    ∧ (Pixel_to_color B L C K H pp argv self).query = none := by
  simp only [Pixel_to_color, h]
  cases hr : (Struct_to_PixelPacket H pp self).2 with
  | returned => exact absurd hr hs
  | raised e => simp
  | rb_bug mesg => simp
  | overrun => simp

theorem Pixel_to_color_of_switch_ok (B : Build) (L : MagickLib) (C : ColorLib)
    (K : ComplianceTypes) (H : Host) (pp : PixelPacket) (argv : List VALUE) (self : VALUE)
    (a : ColorArgs) (p : PixelPacket) (h : Pixel_to_color_switch B K H argv = .ok a)
    (hs : Struct_to_PixelPacket H pp self = (p, .returned)) :
    (Pixel_to_color B L C K H pp argv self).query = some ⟨a.depth, a.matte, p, a.compliance⟩
    ∧ (Pixel_to_color B L C K H pp argv self).outcome
        = (HANDLE_ERROR B L (C.QueryColorname ⟨a.depth, a.matte, p, a.compliance⟩).2).outcome
    ∧ (Pixel_to_color B L C K H pp argv self).events
        = (HANDLE_ERROR B L (C.QueryColorname ⟨a.depth, a.matte, p, a.compliance⟩).2).events
    ∧ ((Pixel_to_color B L C K H pp argv self).outcome = .returned →
        (Pixel_to_color B L C K H pp argv self).name
          = some (C.QueryColorname ⟨a.depth, a.matte, p, a.compliance⟩).1) := by
  simp only [Pixel_to_color, h, hs]
  cases ho : (HANDLE_ERROR B L (C.QueryColorname ⟨a.depth, a.matte, p, a.compliance⟩).2).outcome
    <;> simp

theorem Pixel_to_color_after_query (B : Build) (L : MagickLib) (C : ColorLib)
    (K : ComplianceTypes) (H : Host) (pp : PixelPacket) (argv : List VALUE) (self : VALUE)
    (q : ColorQuery) (h : (Pixel_to_color B L C K H pp argv self).query = some q) :
    (Pixel_to_color B L C K H pp argv self).outcome
        = (HANDLE_ERROR B L (C.QueryColorname q).2).outcome
    ∧ (Pixel_to_color B L C K H pp argv self).events
        = (HANDLE_ERROR B L (C.QueryColorname q).2).events
    ∧ ((Pixel_to_color B L C K H pp argv self).outcome = .returned →
        (Pixel_to_color B L C K H pp argv self).name = some (C.QueryColorname q).1) := by
  obtain ⟨a, ha, h1, h2, h3, hp⟩ := Pixel_to_color_query B L C K H pp argv self q h
  have hq : q = ⟨a.depth, a.matte, q.pp, a.compliance⟩ := by
    cases q
    simp only at h1 h2 h3
    simp only [h1, h2, h3]
  have := Pixel_to_color_of_switch_ok B L C K H pp argv self a q.pp ha hp
  rw [← hq] at this
  exact this.2

theorem Pixel_to_color_switch_one (B : Build) (K : ComplianceTypes) (H : Host) (c : VALUE)
    (type : Int) (hc : NUM2INT H c = .ok type) :
    Pixel_to_color_switch B K H [c]
      = (Num_to_ComplianceType B K type).map fun compliance =>
          { compliance := compliance, matte := false, depth := H.QuantumDepth } := by
  simp only [Pixel_to_color_switch, List.length_cons, List.length_nil,
    Pixel_to_color_case_1_eq, List.getD_cons_zero, hc, Except.bind]

theorem Pixel_to_color_switch_two (B : Build) (K : ComplianceTypes) (H : Host) (c m : VALUE)
    (type : Int) (hc : NUM2INT H c = .ok type) :
    Pixel_to_color_switch B K H [c, m]
      = (Num_to_ComplianceType B K type).map fun compliance =>
          { compliance := compliance, matte := RTEST m, depth := H.QuantumDepth } := by
  simp only [Pixel_to_color_switch, List.length_cons, List.length_nil,
    Pixel_to_color_case_2, Pixel_to_color_case_1_eq, List.getD_cons_zero,
    List.getD_cons_succ, hc, Except.bind]

theorem Pixel_to_color_switch_three_ok (B : Build) (K : ComplianceTypes) (H : Host)
    (c m d : VALUE) (type : Int) (depth : Nat) (hc : NUM2INT H c = .ok type)
    (hd : NUM2UINT H d = .ok depth) (hv : depth = 8 ∨ depth = H.QuantumDepth) :
    Pixel_to_color_switch B K H [c, m, d]
      = (Num_to_ComplianceType B K type).map fun compliance =>
          { compliance := compliance, matte := RTEST m, depth := depth } := by
  have hv' : ¬ (depth ≠ 8 ∧ depth ≠ H.QuantumDepth) := by
    rintro ⟨h8, hq⟩
    rcases hv with h | h
    · exact h8 h
    · exact hq h
  rw [Pixel_to_color_switch_three B K H c m d depth hd, if_neg hv']
  simp only [Pixel_to_color_case_2, Pixel_to_color_case_1_eq, List.getD_cons_zero,
    List.getD_cons_succ, hc, Except.bind]

/-- C26: with three arguments, of which the third converts to `depth`,
`Pixel_to_color` raises the `ArgumentError` "invalid depth" when `depth` is
neither 8 nor `QuantumDepth`, before it asks the library anything.  When
`depth` is 8 or `QuantumDepth`, `Pixel_to_color` itself raises no such error:
an outcome of that form can only be an exception that the host raised while
converting the first argument or the pixel.  So where those conversions raise
no `ArgumentError`, the call raises "invalid depth" exactly when `depth` is
neither 8 nor `QuantumDepth`.  Whatever the arguments, a query of the library
carries depth 8 or `QuantumDepth`. -/
theorem Pixel_to_color_depth_test (B : Build) (L : MagickLib) (C : ColorLib)
    (K : ComplianceTypes) (H : Host) (pp : PixelPacket) (self c m d : VALUE) (depth : Nat)
    (hd : NUM2UINT H d = .ok depth) :
    ((depth ≠ 8 ∧ depth ≠ H.QuantumDepth) →
      (Pixel_to_color B L C K H pp [c, m, d] self).outcome
          = .raised (.rb_eArgError ("invalid depth (" ++ fmt_d (to_int depth) ++ ")"))
        ∧ (Pixel_to_color B L C K H pp [c, m, d] self).query = none)
    ∧ ((depth = 8 ∨ depth = H.QuantumDepth) → ∀ t,
        (Pixel_to_color B L C K H pp [c, m, d] self).outcome
          = .raised (.rb_eArgError ("invalid depth (" ++ t ++ ")")) →
        NUM2INT H c = .error (.rb_eArgError ("invalid depth (" ++ t ++ ")"))
        ∨ (Struct_to_PixelPacket H pp self).2
            = .raised (.rb_eArgError ("invalid depth (" ++ t ++ ")")))
    ∧ ((∀ mesg, NUM2INT H c ≠ .error (.rb_eArgError mesg)) →
        (∀ mesg, (Struct_to_PixelPacket H pp self).2 ≠ .raised (.rb_eArgError mesg)) →
        ((∃ t, (Pixel_to_color B L C K H pp [c, m, d] self).outcome
            = .raised (.rb_eArgError ("invalid depth (" ++ t ++ ")")))
          ↔ (depth ≠ 8 ∧ depth ≠ H.QuantumDepth)))
    ∧ (∀ argv q, (Pixel_to_color B L C K H pp argv self).query = some q →
        q.depth = 8 ∨ q.depth = H.QuantumDepth) := by
  have hsw := Pixel_to_color_switch_three B K H c m d depth hd
  have h1 : (depth ≠ 8 ∧ depth ≠ H.QuantumDepth) →
      (Pixel_to_color B L C K H pp [c, m, d] self).outcome
          = .raised (.rb_eArgError ("invalid depth (" ++ fmt_d (to_int depth) ++ ")"))
        ∧ (Pixel_to_color B L C K H pp [c, m, d] self).query = none := by
    intro hv
    rw [if_pos hv] at hsw
    exact Pixel_to_color_of_switch_error B L C K H pp _ self _ hsw
  have h2 : (depth = 8 ∨ depth = H.QuantumDepth) → ∀ t,
      (Pixel_to_color B L C K H pp [c, m, d] self).outcome
        = .raised (.rb_eArgError ("invalid depth (" ++ t ++ ")")) →
      NUM2INT H c = .error (.rb_eArgError ("invalid depth (" ++ t ++ ")"))
      ∨ (Struct_to_PixelPacket H pp self).2
          = .raised (.rb_eArgError ("invalid depth (" ++ t ++ ")")) := by
    intro hv t ht
    have hv' : ¬ (depth ≠ 8 ∧ depth ≠ H.QuantumDepth) := by
      rintro ⟨h8, hq⟩
      rcases hv with h | h
      · exact h8 h
      · exact hq h
    cases hn : NUM2INT H c with
    | error e =>
      have hse : Pixel_to_color_switch B K H [c, m, d] = .error e := by
        rw [hsw, if_neg hv']
        simp only [Pixel_to_color_case_2, Pixel_to_color_case_1, List.getD_cons_zero, hn]
      rw [(Pixel_to_color_of_switch_error B L C K H pp _ self e hse).1] at ht
      cases ht
      exact Or.inl rfl
    | ok type =>
      have hs3 := Pixel_to_color_switch_three_ok B K H c m d type depth hn hd hv
      by_cases hmem : type ∈ ComplianceType_ct B K
      · rw [Num_to_ComplianceType_of_mem B K type hmem] at hs3
        by_cases hr : (Struct_to_PixelPacket H pp self).2 = .returned
        · have hp : Struct_to_PixelPacket H pp self
              = ((Struct_to_PixelPacket H pp self).1, .returned) := Prod.ext rfl hr
          rw [(Pixel_to_color_of_switch_ok B L C K H pp _ self _ _ hs3 hp).2.1] at ht
          exact absurd ht (handle_error_outcome_not_arg B L _ _)
        · rw [(Pixel_to_color_of_self_stop B L C K H pp _ self _ hs3 hr).1] at ht
          exact Or.inr ht
      · rw [Num_to_ComplianceType_of_not_mem B K type hmem] at hs3
        rw [(Pixel_to_color_of_switch_error B L C K H pp _ self _ hs3).1] at ht
        simp only [Outcome.raised.injEq, RubyException.rb_eArgError.injEq] at ht
        exact absurd ht (compliance_text_ne_depth_text _ _)
  refine ⟨h1, h2, ?_, ?_⟩
  · intro hc hs
    constructor
    · rintro ⟨t, ht⟩
      by_contra hv
      have hv' : depth = 8 ∨ depth = H.QuantumDepth := by
        by_cases h8 : depth = 8
        · exact Or.inl h8
        · by_cases hq : depth = H.QuantumDepth
          · exact Or.inr hq
          · exact absurd ⟨h8, hq⟩ hv
      rcases h2 hv' t ht with h | h
      · exact hc _ h
      · exact hs _ h
    · intro hv
      exact ⟨_, (h1 hv).1⟩
  · intro argv q hq
    obtain ⟨a, ha, -, -, hdq, -⟩ := Pixel_to_color_query B L C K H pp argv self q hq
    rw [hdq]
    exact Pixel_to_color_switch_depth B K H argv a ha

theorem Pixel_to_color_depth_test_witness :
    NUM2UINT sampleHost (.Integer 12) = .ok 12
    ∧ (12 ≠ 8 ∧ 12 ≠ sampleHost.QuantumDepth)
    ∧ (Pixel_to_color sampleBuild sampleLib sampleColorLib sampleEnums.compliance sampleHost
          samplePixel [.Integer 1, .Qfalse, .Integer 12]
          (PixelPacket_to_Struct sampleHost samplePixel)).outcome
        = .raised (.rb_eArgError ("invalid depth (" ++ fmt_d (to_int 12) ++ ")"))
    ∧ (Pixel_to_color sampleBuild sampleLib sampleColorLib sampleEnums.compliance sampleHost
          samplePixel [.Integer 1, .Qfalse, .Integer 12]
          (PixelPacket_to_Struct sampleHost samplePixel)).query = none
    ∧ NUM2UINT sampleHost (.Integer 8) = .ok 8
    ∧ ¬ ∃ t, (Pixel_to_color sampleBuild sampleLib sampleColorLib sampleEnums.compliance
          sampleHost samplePixel [.Integer 1, .Qfalse, .Integer 8]
          (PixelPacket_to_Struct sampleHost samplePixel)).outcome
        = .raised (.rb_eArgError ("invalid depth (" ++ t ++ ")")) :=
  ⟨rfl, by decide,
    ((Pixel_to_color_depth_test sampleBuild sampleLib sampleColorLib sampleEnums.compliance
      sampleHost samplePixel (PixelPacket_to_Struct sampleHost samplePixel) (.Integer 1)
      .Qfalse (.Integer 12) 12 rfl).1 (by decide)).1,
    ((Pixel_to_color_depth_test sampleBuild sampleLib sampleColorLib sampleEnums.compliance
      sampleHost samplePixel (PixelPacket_to_Struct sampleHost samplePixel) (.Integer 1)
      .Qfalse (.Integer 12) 12 rfl).1 (by decide)).2,
    rfl,
    fun h =>
      (((Pixel_to_color_depth_test sampleBuild sampleLib sampleColorLib
        sampleEnums.compliance sampleHost samplePixel
        (PixelPacket_to_Struct sampleHost samplePixel) (.Integer 1) .Qfalse (.Integer 8) 8
        rfl).2.2.1
        (fun _ e => Except.noConfusion
          ((rfl : NUM2INT sampleHost (.Integer 1) = .ok 1).symm.trans e))
        (fun _ e => Outcome.noConfusion
          ((by decide : (Struct_to_PixelPacket sampleHost samplePixel
              (PixelPacket_to_Struct sampleHost samplePixel)).2 = .returned).symm.trans e))).1
        h).1 rfl⟩

/-- The switch of `Pixel_to_color` by number of arguments, and what a query
takes from it. -/
theorem Pixel_to_color_switch_arguments (B : Build) (L : MagickLib) (C : ColorLib)
    (K : ComplianceTypes) (H : Host) (pp : PixelPacket) (self : VALUE) :
    (∀ argv : List VALUE, 3 < argv.length →
      (Pixel_to_color B L C K H pp argv self).outcome
          = .raised (.rb_eArgError
              ("wrong number of arguments (" ++ fmt_d argv.length ++ " for 0 to 2)"))
        ∧ (Pixel_to_color B L C K H pp argv self).query = none)
    ∧ Pixel_to_color_switch B K H []
        = .ok { compliance := K.AllCompliance, matte := false, depth := H.QuantumDepth }
    ∧ (∀ c, Pixel_to_color_switch B K H [c]
        = ((NUM2INT H c).bind (Num_to_ComplianceType B K)).map fun compliance =>
            { compliance := compliance, matte := false, depth := H.QuantumDepth })
    ∧ (∀ c m, Pixel_to_color_switch B K H [c, m]
        = ((NUM2INT H c).bind (Num_to_ComplianceType B K)).map fun compliance =>
            { compliance := compliance, matte := RTEST m, depth := H.QuantumDepth })
    ∧ (∀ c m d depth, NUM2UINT H d = .ok depth → (depth = 8 ∨ depth = H.QuantumDepth) →
        Pixel_to_color_switch B K H [c, m, d]
        = ((NUM2INT H c).bind (Num_to_ComplianceType B K)).map fun compliance =>
            { compliance := compliance, matte := RTEST m, depth := depth })
    ∧ (∀ argv a, argv ≠ [] → Pixel_to_color_switch B K H argv = .ok a →
        a.compliance ∈ ComplianceType_ct B K)
    ∧ (∀ argv q, (Pixel_to_color B L C K H pp argv self).query = some q →
        ∃ a, Pixel_to_color_switch B K H argv = .ok a
          ∧ q.compliance = a.compliance ∧ q.matte = a.matte ∧ q.depth = a.depth) := by
  refine ⟨?_, rfl, ?_, ?_, ?_, ?_, ?_⟩
  · intro argv hlen
    obtain ⟨n, hn⟩ : ∃ n, argv.length = n + 4 := ⟨argv.length - 4, by omega⟩
    have hsw : Pixel_to_color_switch B K H argv = .error (.rb_eArgError
        ("wrong number of arguments (" ++ fmt_d argv.length ++ " for 0 to 2)")) := by
      simp only [Pixel_to_color_switch, hn]
    simp only [Pixel_to_color, hsw, and_self]
  · intro c
    simp only [Pixel_to_color_switch, List.length_cons, List.length_nil,
      Pixel_to_color_case_1_eq, List.getD_cons_zero]
  · intro c m
    simp only [Pixel_to_color_switch, List.length_cons, List.length_nil,
      Pixel_to_color_case_2, Pixel_to_color_case_1_eq, List.getD_cons_zero,
      List.getD_cons_succ]
  · intro c m d depth hd hv
    have hv' : ¬ (depth ≠ 8 ∧ depth ≠ H.QuantumDepth) := by
      rintro ⟨h8, hq⟩
      rcases hv with h | h
      · exact h8 h
      · exact hq h
    rw [Pixel_to_color_switch_three B K H c m d depth hd, if_neg hv']
    simp only [Pixel_to_color_case_2, Pixel_to_color_case_1_eq, List.getD_cons_zero,
      List.getD_cons_succ]
  · intro argv a hne h
    match argv, hne, h with
    | [_], _, h =>
      simp only [Pixel_to_color_switch, List.length_cons, List.length_nil] at h
      exact (Pixel_to_color_case_1_depth B K H _ _ _ h).2.2
    | [_, _], _, h =>
      simp only [Pixel_to_color_switch, List.length_cons, List.length_nil,
        Pixel_to_color_case_2] at h
      exact (Pixel_to_color_case_1_depth B K H _ _ _ h).2.2
    | [c, m, d], _, h =>
      cases hd : NUM2UINT H d with
      | error e =>
        simp only [Pixel_to_color_switch, List.length_cons, List.length_nil,
          Pixel_to_color_case_3, List.getD_cons_succ, List.getD_cons_zero, hd] at h
        cases h
      | ok depth =>
        rw [Pixel_to_color_switch_three B K H c m d depth hd] at h
        by_cases hv : depth ≠ 8 ∧ depth ≠ H.QuantumDepth
        · rw [if_pos hv] at h; cases h
        · rw [if_neg hv] at h
          exact (Pixel_to_color_case_1_depth B K H _ _ _ h).2.2
    | _ :: _ :: _ :: _ :: rest, _, h =>
      simp only [Pixel_to_color_switch, List.length_cons] at h
      cases h
  · intro argv q hq
    obtain ⟨a, ha, h1, h2, h3, -⟩ := Pixel_to_color_query B L C K H pp argv self q hq
    exact ⟨a, ha, h1, h2, h3⟩

/-- C30: `Pixel_to_color` raises `ArgumentError` for more than three
arguments.  For a pixel that converts, it asks the library with compliance
`AllCompliance`, matte false and depth `QuantumDepth` when it has no argument;
with a first argument that `Num_to_ComplianceType` accepts it asks with that
compliance, with a second in addition with the truth of the second as matte,
with a third in addition with the third as depth (when the depth test lets it
pass), and the parameters without an argument keep those initial values.  A first
argument that `Num_to_ComplianceType` refuses makes the call raise that
function's `ArgumentError` without asking the library, also when matte and
depth are given.  What the call then returns is what the error bridge and the
library make of the query. -/
theorem Pixel_to_color_arguments (B : Build) (L : MagickLib) (C : ColorLib)
    (K : ComplianceTypes) (H : Host) (pp : PixelPacket) (self : VALUE) :
    (∀ argv : List VALUE, 3 < argv.length →
      (Pixel_to_color B L C K H pp argv self).outcome
          = .raised (.rb_eArgError
              ("wrong number of arguments (" ++ fmt_d argv.length ++ " for 0 to 2)"))
        ∧ (Pixel_to_color B L C K H pp argv self).query = none)
    ∧ (∀ p, Struct_to_PixelPacket H pp self = (p, .returned) →
        (Pixel_to_color B L C K H pp [] self).query
          = some { depth := H.QuantumDepth, matte := false, pp := p,
                   compliance := K.AllCompliance }
        ∧ ∀ c type, NUM2INT H c = .ok type → type ∈ ComplianceType_ct B K →
          (Pixel_to_color B L C K H pp [c] self).query
            = some { depth := H.QuantumDepth, matte := false, pp := p, compliance := type }
          ∧ (∀ m, (Pixel_to_color B L C K H pp [c, m] self).query
              = some { depth := H.QuantumDepth, matte := RTEST m, pp := p,
                       compliance := type })
          ∧ (∀ m d depth, NUM2UINT H d = .ok depth →
              (depth = 8 ∨ depth = H.QuantumDepth) →
              (Pixel_to_color B L C K H pp [c, m, d] self).query
                = some { depth := depth, matte := RTEST m, pp := p, compliance := type }))
    ∧ (∀ c type, NUM2INT H c = .ok type → type ∉ ComplianceType_ct B K →
        ((Pixel_to_color B L C K H pp [c] self).outcome
            = .raised (.rb_eArgError
                ("invalid ComplianceType constant (" ++ fmt_d type ++ ")"))
          ∧ (Pixel_to_color B L C K H pp [c] self).query = none)
        ∧ (∀ m, (Pixel_to_color B L C K H pp [c, m] self).outcome
              = .raised (.rb_eArgError
                  ("invalid ComplianceType constant (" ++ fmt_d type ++ ")"))
            ∧ (Pixel_to_color B L C K H pp [c, m] self).query = none)
        ∧ (∀ m d depth, NUM2UINT H d = .ok depth →
            (depth = 8 ∨ depth = H.QuantumDepth) →
            (Pixel_to_color B L C K H pp [c, m, d] self).outcome
              = .raised (.rb_eArgError
                  ("invalid ComplianceType constant (" ++ fmt_d type ++ ")"))
            ∧ (Pixel_to_color B L C K H pp [c, m, d] self).query = none))
    ∧ (∀ argv q, (Pixel_to_color B L C K H pp argv self).query = some q →
        (Pixel_to_color B L C K H pp argv self).outcome
            = (HANDLE_ERROR B L (C.QueryColorname q).2).outcome
        ∧ (Pixel_to_color B L C K H pp argv self).events
            = (HANDLE_ERROR B L (C.QueryColorname q).2).events
        ∧ ((Pixel_to_color B L C K H pp argv self).outcome = .returned →
            (Pixel_to_color B L C K H pp argv self).name = some (C.QueryColorname q).1)) := by
  refine ⟨?_, ?_, ?_, ?_⟩
  · intro argv hlen
    obtain ⟨n, hn⟩ : ∃ n, argv.length = n + 4 := ⟨argv.length - 4, by omega⟩
    have hsw : Pixel_to_color_switch B K H argv = .error (.rb_eArgError
        ("wrong number of arguments (" ++ fmt_d argv.length ++ " for 0 to 2)")) := by
      simp only [Pixel_to_color_switch, hn]
    exact Pixel_to_color_of_switch_error B L C K H pp argv self _ hsw
  · intro p hp
    refine ⟨(Pixel_to_color_of_switch_ok B L C K H pp [] self _ p rfl hp).1, ?_⟩
    intro c type hc hmem
    have hN := Num_to_ComplianceType_of_mem B K type hmem
    refine ⟨?_, ?_, ?_⟩
    · have hs := Pixel_to_color_switch_one B K H c type hc
      rw [hN] at hs
      exact (Pixel_to_color_of_switch_ok B L C K H pp [c] self _ p hs hp).1
    · intro m
      have hs := Pixel_to_color_switch_two B K H c m type hc
      rw [hN] at hs
      exact (Pixel_to_color_of_switch_ok B L C K H pp [c, m] self _ p hs hp).1
    · intro m d depth hd hv
      have hs := Pixel_to_color_switch_three_ok B K H c m d type depth hc hd hv
      rw [hN] at hs
      exact (Pixel_to_color_of_switch_ok B L C K H pp [c, m, d] self _ p hs hp).1
  · intro c type hc hmem
    have hN := Num_to_ComplianceType_of_not_mem B K type hmem
    refine ⟨?_, ?_, ?_⟩
    · have hs := Pixel_to_color_switch_one B K H c type hc
      rw [hN] at hs
      exact Pixel_to_color_of_switch_error B L C K H pp [c] self _ hs
    · intro m
      have hs := Pixel_to_color_switch_two B K H c m type hc
      rw [hN] at hs
      exact Pixel_to_color_of_switch_error B L C K H pp [c, m] self _ hs
    · intro m d depth hd hv
      have hs := Pixel_to_color_switch_three_ok B K H c m d type depth hc hd hv
      rw [hN] at hs
      exact Pixel_to_color_of_switch_error B L C K H pp [c, m, d] self _ hs
  · intro argv q hq
    exact Pixel_to_color_after_query B L C K H pp argv self q hq

theorem Pixel_to_color_arguments_witness :
    Struct_to_PixelPacket sampleHost samplePixel (PixelPacket_to_Struct sampleHost samplePixel)
      = (samplePixel, .returned)
    ∧ (Pixel_to_color sampleBuild sampleLib sampleColorLib sampleEnums.compliance sampleHost
          samplePixel [] (PixelPacket_to_Struct sampleHost samplePixel)).query
        = some { depth := 16, matte := false, pp := samplePixel, compliance := 65535 }
    ∧ NUM2INT sampleHost (.Integer 1) = .ok 1
    ∧ (1 : Int) ∈ ComplianceType_ct sampleBuild sampleEnums.compliance
    ∧ NUM2UINT sampleHost (.Integer 8) = .ok 8
    ∧ (Pixel_to_color sampleBuild sampleLib sampleColorLib sampleEnums.compliance sampleHost
          samplePixel [.Integer 1, .Qtrue, .Integer 8]
          (PixelPacket_to_Struct sampleHost samplePixel)).query
        = some { depth := 8, matte := true, pp := samplePixel, compliance := 1 }
    ∧ NUM2INT sampleHost (.Integer 99) = .ok 99
    ∧ (99 : Int) ∉ ComplianceType_ct sampleBuild sampleEnums.compliance
    ∧ (Pixel_to_color sampleBuild sampleLib sampleColorLib sampleEnums.compliance sampleHost
          samplePixel [.Integer 99, .Qtrue, .Integer 8]
          (PixelPacket_to_Struct sampleHost samplePixel)).query = none :=
  have w := Pixel_to_color_arguments sampleBuild sampleLib sampleColorLib
    sampleEnums.compliance sampleHost samplePixel (PixelPacket_to_Struct sampleHost samplePixel)
  ⟨by decide,
    (w.2.1 samplePixel (by decide)).1,
    rfl, by decide, rfl,
    ((w.2.1 samplePixel (by decide)).2 (.Integer 1) 1 rfl (by decide)).2.2 .Qtrue (.Integer 8)
      8 rfl (by decide),
    rfl, by decide,
    ((w.2.2.1 (.Integer 99) 99 rfl (by decide)).2.2 .Qtrue (.Integer 8) 8 rfl (by decide)).2⟩

/-! ## Scene sequences from image lists -/

theorem Linked_head (h : Heap) (prev cur : Option ImagePtr) (ps : List ImagePtr)
    (hl : Linked h prev cur ps) : cur = ps.head? := by
  cases ps with
  | nil => exact hl
  | cons p ps => exact hl.1

theorem Linked_next (h : Heap) (ps : List ImagePtr) :
    ∀ (prev cur : Option ImagePtr), Linked h prev cur ps →
      ∀ (k : Nat) (p : ImagePtr), ps[k]? = some p → (h p).next = ps[k + 1]? := by
  induction ps with
  | nil => intro _ _ _ k p hk; simp at hk
  | cons p0 ps ih =>
    intro prev cur hl k p hk
    obtain ⟨_, _, hrest⟩ := hl
    cases k with
    | zero =>
      simp only [List.getElem?_cons_zero, Option.some.injEq] at hk
      subst hk
      rw [Linked_head h _ _ _ hrest]
      cases ps <;> simp
    | succ k =>
      simp only [List.getElem?_cons_succ] at hk ⊢
      exact ih _ _ hrest k p hk

theorem Linked_previous (h : Heap) (ps : List ImagePtr) :
    ∀ (prev cur : Option ImagePtr), Linked h prev cur ps →
      (∀ p, ps[0]? = some p → (h p).previous = prev)
      ∧ ∀ (k : Nat) (p : ImagePtr), ps[k + 1]? = some p → (h p).previous = ps[k]? := by
  induction ps with
  | nil => intro _ _ _; exact ⟨fun p hp => by simp at hp, fun k p hk => by simp at hk⟩
  | cons p0 ps ih =>
    intro prev cur hl
    obtain ⟨_, hprev, hrest⟩ := hl
    refine ⟨fun p hp => ?_, fun k p hk => ?_⟩
    · simp only [List.getElem?_cons_zero, Option.some.injEq] at hp
      subst hp
      exact hprev
    · simp only [List.getElem?_cons_succ] at hk
      cases k with
      | zero =>
        simp only [List.getElem?_cons_zero]
        exact (ih _ _ hrest).1 p hk
      | succ k =>
        simp only [List.getElem?_cons_succ]
        exact (ih _ _ hrest).2 k p hk

theorem append_image_other (h : Heap) (last image q : ImagePtr) (h1 : q ≠ last)
    (h2 : q ≠ image) : append_image h last image q = h q := by
  simp only [append_image]
  rw [Heap.set_other _ _ _ _ h2, Heap.set_other _ _ _ _ h1]

theorem append_image_last (h : Heap) (last image : ImagePtr) (hne : image ≠ last) :
    append_image h last image last = { h last with next := some image } := by
  simp only [append_image]
  rw [Heap.set_other _ _ _ _ (Ne.symm hne), Heap.set_same]

theorem append_image_image (h : Heap) (last image : ImagePtr) (hne : image ≠ last) :
    append_image h last image image = { h image with previous := some last } := by
  simp only [append_image]
  rw [Heap.set_same, Heap.set_other _ _ _ _ hne]

theorem append_image_exception (h : Heap) (last image q : ImagePtr) :
    (append_image h last image q).exception = (h q).exception := by
  simp only [append_image, Heap.set]
  by_cases h1 : q = image <;> by_cases h2 : q = last <;> simp [h1, h2] <;>
    (try subst h1) <;> (try subst h2) <;> simp_all

theorem Linked_snoc (h : Heap) (image last : ImagePtr) (ps : List ImagePtr) :
    ∀ (prev cur : Option ImagePtr), Linked h prev cur (ps ++ [last]) →
      image ∉ ps ++ [last] → (h image).next = none →
      Linked (append_image h last image) prev cur (ps ++ [last] ++ [image]) := by
  induction ps with
  | nil =>
    intro prev cur hl hmem hnext
    have hne : image ≠ last := by
      intro e; exact hmem (by simp [e])
    obtain ⟨hcur, hprev, hrest⟩ := hl
    have hrest' : (h last).next = none := hrest
    refine ⟨hcur, ?_, ?_, ?_, ?_⟩
    · rw [append_image_last h last image hne]; exact hprev
    · rw [append_image_last h last image hne]
    · rw [append_image_image h last image hne]
    · show (append_image h last image image).next = none
      rw [append_image_image h last image hne]; exact hnext
  | cons p ps ih =>
    intro prev cur hl hmem hnext
    have hnd := Linked_nodup h _ _ _ hl
    obtain ⟨hcur, hprev, hrest⟩ := hl
    have hp1 : p ≠ last := by
      intro e
      have := (List.nodup_cons.1 hnd).1
      exact this (by simp [e])
    have hp2 : p ≠ image := by
      intro e; exact hmem (by simp [e])
    have hmem' : image ∉ ps ++ [last] := fun hm => hmem (List.mem_cons_of_mem _ hm)
    have hp : append_image h last image p = h p := append_image_other h last image p hp1 hp2
    refine ⟨hcur, ?_, ?_⟩
    · rw [hp]; exact hprev
    · rw [hp]
      exact ih _ _ hrest hmem' hnext

theorem manual_step_eq (h : Heap) (t image : ImagePtr) (hne : image ≠ t) :
    (h.set image { h image with previous := some t }).set t
        { (h.set image { h image with previous := some t }) t with next := some image }
      = append_image h t image := by
  funext q
  by_cases h1 : q = t
  · subst h1
    rw [Heap.set_same, append_image_last h q image hne, Heap.set_other _ _ _ _ (Ne.symm hne)]
  · rw [Heap.set_other _ _ _ _ h1]
    by_cases h2 : q = image
    · subst h2
      rw [Heap.set_same, append_image_image h t q hne]
    · rw [Heap.set_other _ _ _ _ h2, append_image_other h t image q h1 h2]

theorem toseq_loop_of_loose (B : Build) (L : MagickLib) (happ : AppendOk B L)
    (i0 : ImagePtr) (rest : List ImagePtr) :
    ∀ (done : List ImagePtr) (last : ImagePtr) (h : Heap) (tail : Option ImagePtr),
      (B.HAVE_APPENDIMAGETOLIST = false → tail = some last) →
      Linked h none (some i0) (done ++ [last]) →
      (∀ q ∈ rest, (h q).next = none ∧ (h q).previous = none) →
      (done ++ [last] ++ rest).Nodup →
      ∃ h1, toseq_loop B L rest h (some i0) tail = (h1, some i0)
        ∧ Linked h1 none (some i0) (done ++ [last] ++ rest)
        ∧ (∀ q, q ∉ done ++ [last] ++ rest → h1 q = h q)
        ∧ ∀ q, (h1 q).exception = (h q).exception := by
  induction rest with
  | nil =>
    intro done last h tail _ hl _ _
    exact ⟨h, rfl, by simpa using hl, fun _ _ => rfl, fun _ => rfl⟩
  | cons image rest ih =>
    intro done last h tail htail hl hloose hnd
    have himg := hloose image (List.mem_cons_self _ _)
    have hnd' : (done ++ [last] ++ [image] ++ rest).Nodup := by
      simpa [List.append_assoc] using hnd
    have hmem : image ∉ done ++ [last] := by
      intro hm
      have := (List.nodup_append.1 hnd).2.2
      exact this hm (List.mem_cons_self _ _)
    have hne : image ≠ last := fun e => hmem (by simp [e])
    have hl' : Linked (append_image h last image) none (some i0) (done ++ [last] ++ [image]) :=
      Linked_snoc h image last done _ _ hl hmem himg.1
    have hloose' : ∀ q ∈ rest, (append_image h last image q).next = none
        ∧ (append_image h last image q).previous = none := by
      intro q hq
      have hq1 : q ≠ last := by
        intro e
        have := (List.nodup_append.1 hnd).2.2
        exact this (show last ∈ done ++ [last] by simp) (by rw [← e]; exact List.mem_cons_of_mem _ hq)
      have hq2 : q ≠ image := by
        intro e
        have h2 := (List.nodup_append.1 hnd).2.1
        have := (List.nodup_cons.1 h2).1
        exact this (by rw [← e]; exact hq)
      rw [append_image_other h last image q hq1 hq2]
      exact hloose q (List.mem_cons_of_mem _ hq)
    have key : ∀ tail', (B.HAVE_APPENDIMAGETOLIST = false → tail' = some image) →
        ∃ h1, toseq_loop B L rest (append_image h last image) (some i0) tail' = (h1, some i0)
          ∧ Linked h1 none (some i0) (done ++ [last] ++ (image :: rest))
          ∧ (∀ q, q ∉ done ++ [last] ++ (image :: rest) → h1 q = h q)
          ∧ ∀ q, (h1 q).exception = (h q).exception := by
      intro tail' ht'
      obtain ⟨h1, e1, l1, o1, x1⟩ :=
        ih (done ++ [last]) image (append_image h last image) tail' ht' hl' hloose' hnd'
      refine ⟨h1, e1, by simpa [List.append_assoc] using l1, ?_, ?_⟩
      · intro q hq
        have hq' : q ∉ done ++ [last] ++ [image] ++ rest := by
          simpa [List.append_assoc] using hq
        rw [o1 q hq']
        have hq1 : q ≠ last := fun e => hq (by simp [e])
        have hq2 : q ≠ image := fun e => hq (by simp [e])
        exact append_image_other h last image q hq1 hq2
      · intro q
        rw [x1 q, append_image_exception]
    cases hB : B.HAVE_APPENDIMAGETOLIST with
    | true =>
      have hA := (happ hB).2 h none i0 done last image hl himg.2
      simp only [toseq_loop, hB, if_true, hA]
      exact key tail (fun hf => by rw [hB] at hf; cases hf)
    | false =>
      have ht := htail hB
      subst ht
      simp only [toseq_loop, hB, Bool.false_eq_true, if_false]
      rw [manual_step_eq h last image hne]
      exact key (some image) (fun _ => rfl)

theorem toseq_of_loose (B : Build) (L : MagickLib) (happ : AppendOk B L) (h : Heap)
    (i0 : ImagePtr) (rest : List ImagePtr) (hnd : (i0 :: rest).Nodup)
    (hloose : ∀ q ∈ i0 :: rest, (h q).next = none ∧ (h q).previous = none) :
    ∃ h1, toseq B L h (i0 :: rest) = .ok (h1, some i0)
      ∧ IsSeq h1 (some i0) (i0 :: rest)
      ∧ (∀ q, q ∉ i0 :: rest → h1 q = h q)
      ∧ ∀ q, (h1 q).exception = (h q).exception := by
  have h0 := hloose i0 (List.mem_cons_self _ _)
  have hl : Linked h none (some i0) ([] ++ [i0]) := ⟨rfl, h0.2, h0.1⟩
  have hrest : ∀ q ∈ rest, (h q).next = none ∧ (h q).previous = none :=
    fun q hq => hloose q (List.mem_cons_of_mem _ hq)
  have hlen : ¬ rm_imagelist_length (i0 :: rest) = 0 := by simp [rm_imagelist_length]
  simp only [toseq, if_neg hlen, IsSeq]
  cases hB : B.HAVE_APPENDIMAGETOLIST with
  | true =>
    obtain ⟨h1, e1, l1, o1, x1⟩ := toseq_loop_of_loose B L happ i0 rest [] i0 h none
      (fun hf => by rw [hB] at hf; cases hf) hl hrest (by simpa using hnd)
    refine ⟨h1, ?_, by simpa using l1, by simpa using o1, x1⟩
    simp only [toseq_loop, hB, if_true, (happ hB).1 h i0, e1]
  | false =>
    obtain ⟨h1, e1, l1, o1, x1⟩ := toseq_loop_of_loose B L happ i0 rest [] i0 h (some i0)
      (fun _ => rfl) hl hrest (by simpa using hnd)
    refine ⟨h1, ?_, by simpa using l1, by simpa using o1, x1⟩
    simp only [toseq_loop, hB, Bool.false_eq_true, if_false, e1]

theorem clear_links_restores (h h1 : Heap) (ps : List ImagePtr)
    (hloose : ∀ q ∈ ps, (h q).next = none ∧ (h q).previous = none)
    (hother : ∀ q, q ∉ ps → h1 q = h q)
    (hex : ∀ q, (h1 q).exception = (h q).exception) : clear_links h1 ps = h := by
  funext q
  simp only [clear_links]
  by_cases hq : q ∈ ps
  · rw [if_pos hq]
    have e := hex q
    obtain ⟨hn, hp⟩ := hloose q hq
    cases h1q : h1 q with
    | mk n p x =>
      cases hq' : h q with
      | mk n' p' x' =>
        rw [h1q, hq'] at e
        rw [hq'] at hn hp
        simp only at e hn hp
        simp only [e, hn, hp]
  · rw [if_neg hq]
    exact hother q hq

/-- C27 (the claim as worded fails here): an image list may name an image more
than once.  In a build that sets the links itself, `toseq` of the list
`[1, 2, 1, 3]` of unlinked images returns image 1, and afterwards the `next`
link of image 1 leads to image 3, not to image 2, the image that follows it in
the list. -/
theorem toseq_repeated_image_counterexample :
    (∀ q ∈ [1, 2, 1, 3], (looseHeap q).next = none ∧ (looseHeap q).previous = none)
    ∧ (toseq plainBuild sampleLib looseHeap [1, 2, 1, 3]).toOption.map
        (fun r => (r.2, (r.1 1).next, (r.1 2).next)) = some (some 1, some 3, some 1) := by
  decide

/-- C27 (amended): `toseq` raises `ArgumentError` for an empty list.  For a
non-empty list of distinct images that were unlinked beforehand it returns the
first image, and afterwards the images form a scene sequence in list order:
the `next` link of each leads to the one after it in the list (to nothing for
the last), the `previous` link of each to the one before it (to nothing for
the first), and no other image is touched. -/
theorem toseq_links_distinct_images (B : Build) (L : MagickLib) (happ : AppendOk B L)
    (h : Heap) (list : List ImagePtr) (hne : list ≠ []) (hnd : list.Nodup)
    (hloose : ∀ q ∈ list, (h q).next = none ∧ (h q).previous = none) :
    toseq B L h [] = .error (.rb_eArgError "no images in this image list")
    ∧ ∃ h1, toseq B L h list = .ok (h1, list.head?)
      ∧ IsSeq h1 list.head? list
      ∧ (∀ (k : Nat) (p : ImagePtr), list[k]? = some p → (h1 p).next = list[k + 1]?)
      ∧ (∀ (k : Nat) (p : ImagePtr), list[k + 1]? = some p → (h1 p).previous = list[k]?)
      ∧ (∀ p, list[0]? = some p → (h1 p).previous = none)
      ∧ (∀ q, q ∉ list → h1 q = h q) := by
  refine ⟨rfl, ?_⟩
  cases list with
  | nil => exact absurd rfl hne
  | cons i0 rest =>
    obtain ⟨h1, e1, l1, o1, -⟩ := toseq_of_loose B L happ h i0 rest hnd hloose
    exact ⟨h1, e1, l1, Linked_next h1 _ _ _ l1, (Linked_previous h1 _ _ _ l1).2,
      (Linked_previous h1 _ _ _ l1).1, o1⟩

theorem toseq_links_distinct_images_witness :
    [5, 3, 8] ≠ [] ∧ [5, 3, 8].Nodup
    ∧ (∀ q ∈ [5, 3, 8], (looseHeap q).next = none ∧ (looseHeap q).previous = none)
    ∧ ∃ h1, toseq plainBuild sampleLib looseHeap [5, 3, 8] = .ok (h1, some 5)
        ∧ IsSeq h1 (some 5) [5, 3, 8] :=
  have w := toseq_links_distinct_images plainBuild sampleLib (fun hB => by cases hB)
    looseHeap [5, 3, 8] (by decide) (by decide) (by decide)
  ⟨by decide, by decide, by decide, w.2.elim fun h1 hh => ⟨h1, hh.1, hh.2.1⟩⟩

/-- C28 (the claim as worded fails here): in a build that sets the links
itself, `toseq` of the list `[1, 2, 1, 3]` of unlinked images followed by
`unseq` of the head returns, but leaves image 2 with both links pointing at
image 1. -/
theorem unseq_after_toseq_counterexample :
    (∀ q ∈ [1, 2, 1, 3], (looseHeap q).next = none ∧ (looseHeap q).previous = none)
    ∧ (toseq plainBuild sampleLib looseHeap [1, 2, 1, 3]).toOption.bind
        (fun r => (unseq plainBuild sampleLib 4 r.1 r.2).map
          (fun s => ((s.1 2).previous, (s.1 2).next, s.2)))
      = some (some 1, some 1, .returned) := by
  decide

/-- C28 (amended): handed the head of a scene sequence, `unseq` returns (given
fuel for one round per image) and leaves every image of the sequence with both
links cleared.  For a non-empty list of distinct images that were unlinked
beforehand, `unseq` of what `toseq` returns gives back the memory as it was, so
every image is unlinked again. -/
theorem unseq_clears_sequence (B : Build) (L : MagickLib) (hlib : LibraryOk B L)
    (happ : AppendOk B L) (h : Heap) (ps : List ImagePtr) (fuel : Nat) (hne : ps ≠ [])
    (hfuel : ps.length ≤ fuel) :
    (∀ seq, IsSeq h seq ps →
      unseq B L fuel h seq = some (clear_links h ps, .returned)
      ∧ ∀ q ∈ ps, (clear_links h ps q).next = none ∧ (clear_links h ps q).previous = none)
    ∧ (ps.Nodup → (∀ q ∈ ps, (h q).next = none ∧ (h q).previous = none) →
      ∃ h1 head, toseq B L h ps = .ok (h1, head)
        ∧ unseq B L fuel h1 head = some (h, .returned)) := by
  constructor
  · intro seq hseq
    obtain ⟨p, hp⟩ : ∃ p, seq = some p := by
      cases ps with
      | nil => exact absurd rfl hne
      | cons p ps => exact ⟨p, hseq.1⟩
    subst hp
    refine ⟨?_, fun q hq => clear_links_links h ps q hq⟩
    simp only [unseq, unseq_loop_of_IsSeq B L hlib h (some p) ps fuel hseq hfuel, Option.map_some']
  · intro hnd hloose
    cases ps with
    | nil => exact absurd rfl hne
    | cons i0 rest =>
      obtain ⟨h1, e1, l1, o1, x1⟩ := toseq_of_loose B L happ h i0 rest hnd hloose
      refine ⟨h1, some i0, e1, ?_⟩
      simp only [unseq, unseq_loop_of_IsSeq B L hlib h1 (some i0) (i0 :: rest) fuel l1 hfuel,
        Option.map_some', clear_links_restores h h1 (i0 :: rest) hloose o1 x1]

theorem unseq_clears_sequence_witness :
    [1, 2] ≠ [] ∧ [1, 2].length ≤ 2 ∧ IsSeq cleanHeap (some 1) [1, 2]
    ∧ unseq { sampleBuild with HAVE_APPENDIMAGETOLIST := false } sampleLib 2 cleanHeap (some 1)
        = some (clear_links cleanHeap [1, 2], .returned) :=
  ⟨by decide, by decide, by decide,
    ((unseq_clears_sequence { sampleBuild with HAVE_APPENDIMAGETOLIST := false } sampleLib
      (fun _ => sampleLib_removes) (fun hB => by cases hB) cleanHeap [1, 2] 2 (by decide)
      (by decide)).1 (some 1) (by decide)).1⟩

/-! ## Comparison ignoring case -/

theorem map_tolower_eq_iff (a b : List Char) :
    a.map tolower = b.map tolower
      ↔ a.length = b.length
        ∧ ∀ (i : Nat) (h1 : i < a.length) (h2 : i < b.length), tolower a[i] = tolower b[i] := by
  constructor
  · intro h
    have hlen : a.length = b.length := by
      have := congrArg List.length h
      simpa using this
    refine ⟨hlen, fun i h1 h2 => ?_⟩
    have e : (a.map tolower)[i]? = (b.map tolower)[i]? := by rw [h]
    simpa [List.getElem?_map, List.getElem?_eq_getElem h1, List.getElem?_eq_getElem h2] using e
  · rintro ⟨hlen, hi⟩
    apply List.ext_getElem
    · simpa using hlen
    · intro i h1 h2
      simp only [List.getElem_map]
      exact hi i (by simpa using h1) (by simpa using h2)

theorem strfcmp_ne_of_length_ne (H : Host) (a b : List Char) (ha : '\x00' ∉ a)
    (hb : '\x00' ∉ b) (hlen : a.length ≠ b.length) : strfcmp H a b ≠ 0 := by
  intro h
  apply hlen
  have := congrArg List.length (equal_of_strfcmp H a b ha hb h)
  simpa using this

/-- C31: on every host, for C strings `s1` and `s2` (no NUL character
inside), `strfcmp`
returns 0 exactly when the two have the same length and agree character by
character after `tolower`; when one is a proper beginning of the other, the
result is not 0, in either order of the arguments. -/
theorem strfcmp_zero_iff (H : Host) (s1 s2 : String) (h1 : '\x00' ∉ s1.data)
    (h2 : '\x00' ∉ s2.data) :
    (strfcmp H s1.data s2.data = 0
      ↔ s1.data.length = s2.data.length
        ∧ ∀ (i : Nat) (hi1 : i < s1.data.length) (hi2 : i < s2.data.length),
            tolower s1.data[i] = tolower s2.data[i])
    ∧ (s1.data <+: s2.data → s1 ≠ s2 →
        strfcmp H s1.data s2.data ≠ 0 ∧ strfcmp H s2.data s1.data ≠ 0) := by
  refine ⟨?_, ?_⟩
  · rw [← map_tolower_eq_iff]
    exact ⟨equal_of_strfcmp H _ _ h1 h2, strfcmp_of_equal H _ _ h1 h2⟩
  · intro hp hne
    have hlen : s1.data.length ≠ s2.data.length := by
      intro e
      apply hne
      have : s1.data = s2.data := hp.eq_of_length e
      exact String.ext this
    exact ⟨strfcmp_ne_of_length_ne H _ _ h1 h2 hlen,
      strfcmp_ne_of_length_ne H _ _ h2 h1 (Ne.symm hlen)⟩

theorem strfcmp_zero_iff_witness :
    '\x00' ∉ "Copy".data ∧ '\x00' ∉ "CopyRed".data ∧ "Copy".data <+: "CopyRed".data
    ∧ "Copy" ≠ "CopyRed"
    ∧ strfcmp sampleHost "Copy".data "CopyRed".data ≠ 0
    ∧ strfcmp sampleHost "CopyRed".data "Copy".data ≠ 0 :=
  ⟨by decide, by decide, by decide, by decide,
    (strfcmp_zero_iff sampleHost "Copy" "CopyRed" (by decide) (by decide)).2 (by decide)
      (by decide)⟩

/-! ## The error bridge: what a call leaves alone -/

theorem magick_error_handler_error_events (B : Build) (L : MagickLib) (severity : Int)
    (reason : String) (description : Option String) (module function : String) (line : Nat)
    (hsev : severity > L.WarningException) :
    (magick_error_handler B L severity reason description module function line).1 = [] := by
  simp only [magick_error_handler, if_pos hsev]
  split
  · rfl
  · split
    · split <;> rfl
    · rfl

theorem handle_error_of_error_events (B : Build) (L : MagickLib) (ex : ExceptionInfo)
    (hK : L.UndefinedException ≤ L.WarningException)
    (hsev : ex.severity > L.WarningException) :
    (handle_error B L ex).events = [.DestroyExceptionInfo] := by
  have hU : ex.severity ≠ L.UndefinedException := by
    intro e; rw [e] at hsev; exact absurd hK (not_le.2 hsev)
  rw [handle_error_of_ne B L ex hU]
  simp only [magick_error_handler_error_events B L _ _ _ _ _ _ hsev]

/-- C32: `handle_all_errors` on a scene sequence ends, and it leaves the
exception record of every image but one as it was.  When an image is in the
error tier, the one is the first such image, and no warning is issued for any
other image; otherwise the one is the first image whose severity is not
`UndefinedException`, so a second image with a warning has its severity
unchanged afterwards; when every image is clean no record changes at all. -/
theorem handle_all_errors_drains_one (B : Build) (L : MagickLib) (h : Heap)
    (seq : Option ImagePtr) (ps : List ImagePtr) (fuel : Nat)
    (hK : L.UndefinedException ≤ L.WarningException) (hlib : LibraryOk B L)
    (hseq : IsSeq h seq ps) (hfuel : ps.length ≤ fuel) :
    ∃ h1 events outcome,
      handle_all_errors B L fuel h seq = some (h1, events, outcome)
      ∧ (∀ b, ps.find? (fun q => decide ((h q).exception.severity > L.WarningException))
            = some b →
          (∀ q, q ≠ b → (h1 q).exception = (h q).exception)
          ∧ ∀ msg, Event.rb_warning msg ∉ events)
      ∧ ((∀ q ∈ ps, ¬ (h q).exception.severity > L.WarningException) →
          ∀ b, ps.find? (fun q => decide ((h q).exception.severity ≠ L.UndefinedException))
              = some b →
            (∀ q, q ≠ b → (h1 q).exception = (h q).exception)
            ∧ ∀ q ∈ ps, q ≠ b → (h q).exception.severity ≠ L.UndefinedException →
                (h1 q).exception.severity ≠ L.UndefinedException)
      ∧ ((∀ q ∈ ps, (h q).exception.severity = L.UndefinedException) →
          ∀ q, (h1 q).exception = (h q).exception) := by
  cases he : ps.find? (fun q => decide ((h q).exception.severity > L.WarningException)) with
  | some b =>
    have hbW : (h b).exception.severity > L.WarningException := by
      simpa using List.find?_some he
    have hmem : b ∈ ps := List.mem_of_find?_eq_some he
    have hbU : (h b).exception.severity ≠ L.UndefinedException := by
      intro e; rw [e] at hbW; exact absurd hK (not_le.2 hbW)
    obtain ⟨p, hp⟩ := Linked_head_of_mem h none seq ps b hmem hseq
    have hun : unseq B L fuel h seq = some (clear_links h ps, .returned) := by
      subst hp
      simp only [unseq, unseq_loop_of_IsSeq B L hlib h (some p) ps fuel hseq hfuel,
        Option.map_some']
    have hcb : ((clear_links h ps) b).exception = (h b).exception :=
      clear_links_exception h ps b
    refine ⟨(clear_links h ps).set b
        { clear_links h ps b with
          exception := (handle_error B L (clear_links h ps b).exception).ex },
      (handle_error B L (clear_links h ps b).exception).events,
      (handle_error B L (clear_links h ps b).exception).outcome, ?_, ?_, ?_, ?_⟩
    · simp only [handle_all_errors,
        find_badboy_error L h hK b ps none seq none fuel hseq hfuel he, if_pos hbW, hun]
    · intro b' hb'
      cases hb'
      refine ⟨fun q hq => ?_, fun msg hm => ?_⟩
      · rw [Heap.set_other _ _ _ _ hq, clear_links_exception]
      · rw [hcb, handle_error_of_error_events B L _ hK hbW] at hm
        simp at hm
    · intro hno
      exact absurd hbW (hno b hmem)
    · intro hclean
      exact absurd (hclean b hmem) hbU
  | none =>
    have hno : ∀ q ∈ ps, ¬ (h q).exception.severity > L.WarningException := by
      intro q hq
      have := List.find?_eq_none.1 he q hq
      simpa using this
    have hfb := find_badboy_no_error L h ps none seq none fuel hseq hfuel hno
    cases hw : ps.find? (fun q => decide ((h q).exception.severity ≠ L.UndefinedException)) with
    | none =>
      refine ⟨h, [], .returned, ?_, ?_, ?_, ?_⟩
      · simp only [handle_all_errors, hfb, hw]
      · intro b hb; cases hb
      · intro _ b hb; cases hb
      · intro _ q; rfl
    | some b =>
      have hbU : (h b).exception.severity ≠ L.UndefinedException := by
        simpa using List.find?_some hw
      have hmem : b ∈ ps := List.mem_of_find?_eq_some hw
      have hbW : ¬ (h b).exception.severity > L.WarningException := hno b hmem
      refine ⟨h.set b { h b with exception := (handle_error B L (h b).exception).ex },
        (handle_error B L (h b).exception).events,
        (handle_error B L (h b).exception).outcome, ?_, ?_, ?_, ?_⟩
      · simp only [handle_all_errors, hfb, hw, if_neg hbW]
      · intro b' hb'; cases hb'
      · intro _ b' hb'
        cases hb'
        refine ⟨fun q hq => ?_, fun q _ hq hs => ?_⟩
        · rw [Heap.set_other _ _ _ _ hq]
        · rw [Heap.set_other _ _ _ _ hq]; exact hs
      · intro hclean
        exact absurd (hclean b hmem) hbU

theorem handle_all_errors_drains_one_witness :
    sampleLib.UndefinedException ≤ sampleLib.WarningException
    ∧ IsSeq warningHeap (some 1) [1, 2, 3] ∧ [1, 2, 3].length ≤ 3
    ∧ IsSeq errorHeap (some 1) [1, 2, 3, 4, 5] ∧ [1, 2, 3, 4, 5].length ≤ 5
    ∧ (∃ h1 events outcome,
        handle_all_errors sampleBuild sampleLib 3 warningHeap (some 1)
          = some (h1, events, outcome)
        ∧ (h1 3).exception = warningRecord
        ∧ (h1 3).exception.severity ≠ sampleLib.UndefinedException)
    ∧ (∃ h1 events outcome,
        handle_all_errors sampleBuild sampleLib 5 errorHeap (some 1)
          = some (h1, events, outcome)
        ∧ (h1 2).exception = warningRecord
        ∧ ∀ msg, Event.rb_warning msg ∉ events) :=
  have w := handle_all_errors_drains_one sampleBuild sampleLib warningHeap (some 1) [1, 2, 3] 3
    (by decide) (fun _ => sampleLib_removes) (by decide) (by decide)
  have e := handle_all_errors_drains_one sampleBuild sampleLib errorHeap (some 1)
    [1, 2, 3, 4, 5] 5 (by decide) (fun _ => sampleLib_removes) (by decide) (by decide)
  ⟨by decide, by decide, by decide, by decide, by decide,
    w.elim fun h1 w1 => w1.elim fun events w2 => w2.elim fun outcome w3 =>
      ⟨h1, events, outcome, w3.1,
        ((w3.2.2.1 (by decide) 2 (by decide)).1 3 (by decide)).trans rfl,
        (w3.2.2.1 (by decide) 2 (by decide)).2 3 (by decide) (by decide) (by decide)⟩,
    e.elim fun h1 e1 => e1.elim fun events e2 => e2.elim fun outcome e3 =>
      ⟨h1, events, outcome, e3.1,
        ((e3.2.1 3 (by decide)).1 2 (by decide)).trans rfl,
        (e3.2.1 3 (by decide)).2⟩⟩

/-! ## The error bridge: the message buffer -/

theorem format_of_short (B : Build) (size : Nat) (text : String)
    (h : text.length + 2 ≤ size) : format B size text = some text := by
  unfold format
  cases hB : B.HAVE_SNPRINTF
  · simp only [Bool.false_eq_true, if_false, sprintf]
    rw [if_pos (by omega)]
  · simp only [if_true]
    rw [snprintf_of_short _ _ (by omega)]

theorem reason_description_identity (B : Build) (severity : Int) (reason desc : String)
    (hG : ∀ sev text, B.GET_MSG sev text = text) :
    reason_description B severity reason (some desc) = reason ++ ": " ++ desc := by
  simp only [reason_description, hG]

theorem message_length_le (ex : ExceptionInfo) :
    (copy250 ex.reason ++ ": " ++ copy250 ex.description).length ≤ 502
    ∧ ("RMagick: " ++ (copy250 ex.reason ++ ": " ++ copy250 ex.description)).length ≤ 511 := by
  have h1 := (copy250_spec ex.reason).1
  have h2 := (copy250_spec ex.description).1
  have e1 : (": " : String).length = 2 := by decide
  have e2 : ("RMagick: " : String).length = 9 := by decide
  simp only [String.length_append, e1, e2]
  omega

/-- C33: with a `GET_MSG` that yields its text argument, the text formatted
into `msg` for any record is the copy of the reason, `": "` and the copy of
the description: at most 502 characters, and at most 511 with the prefix
`"RMagick: "` of a warning.  Either text is written into the 1024-byte buffer
in full, with `snprintf` as with `sprintf`: a warning carries it whole and the
call returns, and an error carries it whole (only the location text, which has
a buffer of its own, can still run over). -/
theorem message_fits_buffer (B : Build) (L : MagickLib) (ex : ExceptionInfo)
    (hG : ∀ sev text, B.GET_MSG sev text = text) :
    reason_description B ex.severity (copy250 ex.reason) (some (copy250 ex.description))
      = copy250 ex.reason ++ ": " ++ copy250 ex.description
    ∧ (copy250 ex.reason ++ ": " ++ copy250 ex.description).length ≤ 502
    ∧ ("RMagick: " ++ (copy250 ex.reason ++ ": " ++ copy250 ex.description)).length ≤ 511
    ∧ format B 1024 (copy250 ex.reason ++ ": " ++ copy250 ex.description)
        = some (copy250 ex.reason ++ ": " ++ copy250 ex.description)
    ∧ format B 1024 ("RMagick: " ++ (copy250 ex.reason ++ ": " ++ copy250 ex.description))
        = some ("RMagick: " ++ (copy250 ex.reason ++ ": " ++ copy250 ex.description))
    ∧ (ex.severity ≠ L.UndefinedException → ¬ ex.severity > L.WarningException →
        handle_error B L ex
          = { ex := { L.DestroyExceptionInfo ex with severity := L.UndefinedException },
              events := [.DestroyExceptionInfo,
                .rb_warning
                  ("RMagick: " ++ (copy250 ex.reason ++ ": " ++ copy250 ex.description))],
              outcome := .returned })
    ∧ (ex.severity ≠ L.UndefinedException → ex.severity > L.WarningException →
        (handle_error B L ex).outcome
          = if B.HAVE_EXCEPTIONINFO_MODULE then
              match format B 100
                (copy250 ex.function ++ " at " ++ copy250 ex.module ++ ":" ++ fmt_lu ex.line)
              with
              | none => .overrun
              | some extra =>
                .raised (.ImageMagickError
                  (copy250 ex.reason ++ ": " ++ copy250 ex.description) (some extra))
            else
              .raised (.ImageMagickError
                (copy250 ex.reason ++ ": " ++ copy250 ex.description) none)) := by
  have hlen := message_length_le ex
  have hrd := reason_description_identity B ex.severity (copy250 ex.reason)
    (copy250 ex.description) hG
  have hf1 := format_of_short B 1024 (copy250 ex.reason ++ ": " ++ copy250 ex.description)
    (by have := hlen.1; omega)
  have hf2 := format_of_short B 1024
    ("RMagick: " ++ (copy250 ex.reason ++ ": " ++ copy250 ex.description))
    (by have := hlen.2; omega)
  refine ⟨hrd, hlen.1, hlen.2, hf1, hf2, ?_, ?_⟩
  · intro hU hW
    rw [handle_error_of_ne B L ex hU]
    simp only [magick_error_handler, if_neg hW, hU, ne_eq, not_false_eq_true, if_true, hrd, hf2]
  · intro hU hW
    rw [handle_error_of_ne B L ex hU]
    simp only [magick_error_handler, if_pos hW, hrd, hf1, raise_error]
    cases hB : B.HAVE_EXCEPTIONINFO_MODULE
    · simp
    · simp only [if_true]
      cases format B 100
        (copy250 ex.function ++ " at " ++ copy250 ex.module ++ ":" ++ fmt_lu ex.line) <;> rfl

set_option maxRecDepth 100000 in
theorem message_fits_buffer_witness :
    (∀ sev text, sampleBuild.GET_MSG sev text = text)
    ∧ (copy250 longRecord.reason ++ ": " ++ copy250 longRecord.description).length ≤ 502
    ∧ format sampleBuild 1024
        (copy250 longRecord.reason ++ ": " ++ copy250 longRecord.description)
      = some (copy250 longRecord.reason ++ ": " ++ copy250 longRecord.description) :=
  ⟨fun _ _ => rfl,
    (message_fits_buffer sampleBuild sampleLib longRecord (fun _ _ => rfl)).2.1,
    (message_fits_buffer sampleBuild sampleLib longRecord (fun _ _ => rfl)).2.2.2.1⟩

/-! ## Pixels: channels out of range -/

theorem to_Quantum_cast (H : Host) (v : Int) :
    ((to_Quantum H v : Nat) : Int) = v % 2 ^ H.QuantumDepth := by
  unfold to_Quantum
  have hpos : (0 : Int) < 2 ^ H.QuantumDepth := by positivity
  exact Int.toNat_of_nonneg (Int.emod_nonneg _ (ne_of_gt hpos))

theorem to_Quantum_lt (H : Host) (v : Int) : to_Quantum H v < 2 ^ H.QuantumDepth := by
  have hpos : (0 : Int) < 2 ^ H.QuantumDepth := by positivity
  have h := Int.emod_lt_of_pos v hpos
  rw [← to_Quantum_cast] at h
  exact_mod_cast h

theorem to_Quantum_eq_iff (H : Host) (v : Int) :
    ((to_Quantum H v : Nat) : Int) = v ↔ 0 ≤ v ∧ v < 2 ^ H.QuantumDepth := by
  have hpos : (0 : Int) < 2 ^ H.QuantumDepth := by positivity
  rw [to_Quantum_cast]
  constructor
  · intro h
    rw [← h]
    exact ⟨Int.emod_nonneg _ (ne_of_gt hpos), Int.emod_lt_of_pos _ hpos⟩
  · rintro ⟨h0, h1⟩
    exact Int.emod_eq_of_lt h0 h1

theorem INT2FIX_to_Quantum (H : Host) (v : Int) (hw : 32 ≤ H.LONG_BIT)
    (hq : H.QuantumDepth + 2 ≤ H.LONG_BIT) :
    INT2FIX H ((to_Quantum H v : Nat) : Int) = .Integer ((to_Quantum H v : Nat) : Int) := by
  apply INT2FIX_of_FIXABLE H _ hw
  have h1 : ((to_Quantum H v : Nat) : Int) < 2 ^ H.QuantumDepth := by
    exact_mod_cast to_Quantum_lt H v
  have h2 : (2 : Int) ^ H.QuantumDepth ≤ 2 ^ (H.LONG_BIT - 2) :=
    pow_le_pow_two _ _ (by omega)
  have h3 : (0 : Int) < 2 ^ (H.LONG_BIT - 2) := by positivity
  exact ⟨by omega, by omega⟩

theorem Struct_to_PixelPacket_of_ints (H : Host) (out : PixelPacket) (r g b o : Int)
    (hr : INT_P r) (hg : INT_P g) (hb : INT_P b) (ho : INT_P o) :
    Struct_to_PixelPacket H out (Pixel_of r g b o)
      = ({ red := to_Quantum H r, green := to_Quantum H g, blue := to_Quantum H b,
           opacity := to_Quantum H o }, .returned) := by
  simp only [Struct_to_PixelPacket, Pixel_of, CLASS_OF, values_ID, ne_eq, not_true_eq_false,
    if_false, rb_ary_entry, List.getD_cons_zero, List.getD_cons_succ, nil_or, NUM2INT,
    if_pos hr, if_pos hg, if_pos hb, if_pos ho, store]

/-- C34: `Struct_to_PixelPacket` takes every member that fits an `int`
without a test of its range: the call returns, and each channel is its member
reduced modulo `2^QuantumDepth`, so that `2^QuantumDepth` gives 0 and -1 gives
the largest `Quantum`.  On a host with a `long` of at least 32 bits and a
`QuantumDepth` at least two bits narrower, turning the result back into a
`Pixel` gives the four members again exactly when each lies between 0 and the
largest `Quantum`. -/
theorem Struct_to_PixelPacket_reduces_channels (H : Host) (out : PixelPacket) (r g b o : Int)
    (hr : INT_P r) (hg : INT_P g) (hb : INT_P b) (ho : INT_P o) :
    Struct_to_PixelPacket H out (Pixel_of r g b o)
      = ({ red := to_Quantum H r, green := to_Quantum H g, blue := to_Quantum H b,
           opacity := to_Quantum H o }, .returned)
    ∧ ((to_Quantum H r : Nat) : Int) = r % 2 ^ H.QuantumDepth
    ∧ ((to_Quantum H g : Nat) : Int) = g % 2 ^ H.QuantumDepth
    ∧ ((to_Quantum H b : Nat) : Int) = b % 2 ^ H.QuantumDepth
    ∧ ((to_Quantum H o : Nat) : Int) = o % 2 ^ H.QuantumDepth
    ∧ to_Quantum H (2 ^ H.QuantumDepth) = 0
    ∧ to_Quantum H (-1) = 2 ^ H.QuantumDepth - 1
    ∧ (32 ≤ H.LONG_BIT → H.QuantumDepth + 2 ≤ H.LONG_BIT →
        (PixelPacket_to_Struct H (Struct_to_PixelPacket H out (Pixel_of r g b o)).1
            = Pixel_of r g b o
          ↔ (0 ≤ r ∧ r < 2 ^ H.QuantumDepth) ∧ (0 ≤ g ∧ g < 2 ^ H.QuantumDepth)
            ∧ (0 ≤ b ∧ b < 2 ^ H.QuantumDepth) ∧ (0 ≤ o ∧ o < 2 ^ H.QuantumDepth))) := by
  have hpos : (0 : Int) < 2 ^ H.QuantumDepth := by positivity
  refine ⟨Struct_to_PixelPacket_of_ints H out r g b o hr hg hb ho, to_Quantum_cast H r,
    to_Quantum_cast H g, to_Quantum_cast H b, to_Quantum_cast H o, ?_, ?_, ?_⟩
  · unfold to_Quantum
    simp
  · have h1 : ((to_Quantum H (-1) : Nat) : Int) = 2 ^ H.QuantumDepth - 1 := by
      rw [to_Quantum_cast]
      have e : (-1 : Int) % 2 ^ H.QuantumDepth
          = (2 ^ H.QuantumDepth - 1) % 2 ^ H.QuantumDepth := by
        rw [← Int.add_emod_self]
        congr 1
        ring
      rw [e]
      exact Int.emod_eq_of_lt (by omega) (by omega)
    have h2 : (1 : Nat) ≤ 2 ^ H.QuantumDepth := Nat.one_le_two_pow
    zify [h2]
    exact h1
  · intro hw hq
    rw [Struct_to_PixelPacket_of_ints H out r g b o hr hg hb ho]
    simp only [PixelPacket_to_Struct, new_ID, Pixel_of, INT2FIX_to_Quantum H _ hw hq,
      VALUE.Object.injEq, true_and, List.cons.injEq, VALUE.Integer.injEq, and_true,
      to_Quantum_eq_iff]

theorem Struct_to_PixelPacket_reduces_channels_witness :
    INT_P 65536 ∧ INT_P (-1) ∧ INT_P 0 ∧ INT_P 65535
    ∧ Struct_to_PixelPacket sampleHost samplePixel (Pixel_of 65536 (-1) 0 65535)
      = ({ red := to_Quantum sampleHost 65536, green := to_Quantum sampleHost (-1),
           blue := to_Quantum sampleHost 0, opacity := to_Quantum sampleHost 65535 },
         .returned)
    ∧ to_Quantum sampleHost 65536 = 0 ∧ to_Quantum sampleHost (-1) = 65535 :=
  ⟨by decide, by decide, by decide, by decide,
    (Struct_to_PixelPacket_reduces_channels sampleHost samplePixel 65536 (-1) 0 65535
      (by decide) (by decide) (by decide) (by decide)).1,
    by decide, by decide⟩

/-! ## Names of constants and validators -/

theorem Style_Const_Name_known_iff (K : StyleTypes) (c : Int) :
    Style_Const_Name K c ≠ "unknown" ↔ c ∈ StyleType_types K := by
  simp only [Style_Const_Name, StyleType_types, List.mem_cons, List.mem_singleton,
    List.not_mem_nil, or_false]
  split_ifs <;> simp_all

theorem Stretch_Const_Name_known_iff (K : StretchTypes) (c : Int) :
    Stretch_Const_Name K c ≠ "unknown" ↔ c ∈ StretchType_types K := by
  simp only [Stretch_Const_Name, StretchType_types, List.mem_cons, List.mem_singleton,
    List.not_mem_nil, or_false]
  split_ifs <;> simp_all

theorem Compliance_Const_Name_known_iff (K : ComplianceTypes) (c : Int) :
    Compliance_Const_Name K c ≠ "unknown"
      ↔ c ∈ [K.NoCompliance, K.SVGCompliance, K.X11Compliance, K.XPMCompliance,
              K.AllCompliance] := by
  simp only [Compliance_Const_Name, List.mem_cons, List.mem_singleton,
    List.not_mem_nil, or_false]
  split_ifs <;> simp_all

/-- C35: `Num_to_StyleType` accepts a code exactly when `Style_Const_Name` has
a name other than "unknown" for it, and likewise `Num_to_StretchType` and
`Stretch_Const_Name`.  Every code `Num_to_ComplianceType` accepts has a name
in `Compliance_Const_Name`; with `HAVE_NOCOMPLIANCE` every named code is also
accepted, and without it `NoCompliance` is named but refused (where its value
differs from the other four). -/
theorem names_agree_with_validators (B : Build) (E : MagickEnums) (c : Int) :
    (Accepts B E .StyleType c ↔ Style_Const_Name E.style c ≠ "unknown")
    ∧ (Accepts B E .StretchType c ↔ Stretch_Const_Name E.stretch c ≠ "unknown")
    ∧ (Accepts B E .ComplianceType c → Compliance_Const_Name E.compliance c ≠ "unknown")
    ∧ (B.HAVE_NOCOMPLIANCE = true → Compliance_Const_Name E.compliance c ≠ "unknown" →
        Accepts B E .ComplianceType c)
    ∧ (B.HAVE_NOCOMPLIANCE = false →
        E.compliance.NoCompliance ∉ Domain.unconditional E .ComplianceType →
        Compliance_Const_Name E.compliance E.compliance.NoCompliance ≠ "unknown"
        ∧ ¬ Accepts B E .ComplianceType E.compliance.NoCompliance) := by
  refine ⟨?_, ?_, ?_, ?_, ?_⟩
  · rw [Accepts_iff_mem, Style_Const_Name_known_iff]; rfl
  · rw [Accepts_iff_mem, Stretch_Const_Name_known_iff]; rfl
  · rw [Accepts_iff_mem, Compliance_Const_Name_known_iff]
    simp only [Domain.table, ComplianceType_ct]
    intro h
    cases hB : B.HAVE_NOCOMPLIANCE <;> simp [hB] at h ⊢
    · exact Or.inr h
    · exact h
  · intro hB
    rw [Accepts_iff_mem, Compliance_Const_Name_known_iff]
    simp only [Domain.table, ComplianceType_ct, hB]
    intro h
    simpa using h
  · intro hB hno
    refine ⟨?_, ?_⟩
    · rw [Compliance_Const_Name_known_iff]; simp
    · rw [Accepts_iff_mem]
      simp only [Domain.unconditional, Domain.table, ComplianceType_ct, bareBuild] at hno
      simp only [Domain.table, ComplianceType_ct, hB]
      simpa using hno

theorem names_agree_with_validators_witness :
    bareBuild.HAVE_NOCOMPLIANCE = false
    ∧ sampleEnums.compliance.NoCompliance ∉ Domain.unconditional sampleEnums .ComplianceType
    ∧ Compliance_Const_Name sampleEnums.compliance sampleEnums.compliance.NoCompliance
        ≠ "unknown"
    ∧ ¬ Accepts bareBuild sampleEnums .ComplianceType sampleEnums.compliance.NoCompliance
    ∧ sampleBuild.HAVE_NOCOMPLIANCE = true
    ∧ Compliance_Const_Name sampleEnums.compliance 4 ≠ "unknown"
    ∧ Accepts sampleBuild sampleEnums .ComplianceType 4 :=
  ⟨by decide, by decide,
    ((names_agree_with_validators bareBuild sampleEnums 0).2.2.2.2 (by decide) (by decide)).1,
    ((names_agree_with_validators bareBuild sampleEnums 0).2.2.2.2 (by decide) (by decide)).2,
    by decide, by decide,
    (names_agree_with_validators sampleBuild sampleEnums 4).2.2.2.1 (by decide) (by decide)⟩

end RMagick
